import Mathlib

/-!
# Contact resolution of `chaos` (src/src/core/contacts.cpp)

A shallow embedding of `Contact` and `ContactResolver`, followed by the growable
array `ForceVector` of `src/include/chaos/core/fgen.h`.

* `real` is an arbitrary linearly ordered field `α` (exact arithmetic); the
  square root `real_sqrt` is a parameter of every function that calls it.
* A `RigidBody*` is an `Option Nat`: `none` is the null pointer, `some p` the
  address `p` of a body in the store `Bodies α = Nat → RigidBody α`.
* A `Contact*` array `c` is a function `Nat → Contact α`, read and written at
  the indices below `numContacts`.
* A method that dereferences a body pointer returns `none` when that pointer is
  null (the `assert(body[0])` of `calculateInternals`, or an unguarded
  `body[0]->...`).
* The counters are `unsigned`; they never exceed the iteration caps, so they
  are naturals here.
-/

namespace Chaos

/-! ## The arithmetic library (`Vector3`, `Matrix3`, `Quaternion`) -/

/-- Modelled from the spec: the vector type of the arithmetic library (absent
from the sources), three `real` components. -/
@[ext]
structure Vector3 (α : Type) where
  x : α
  y : α
  z : α

/-- Modelled from the spec: the 3×3 matrix type of the arithmetic library
(absent from the sources); `dK` is `data[K]`, stored row by row. -/
@[ext]
structure Matrix3 (α : Type) where
  d0 : α
  d1 : α
  d2 : α
  d3 : α
  d4 : α
  d5 : α
  d6 : α
  d7 : α
  d8 : α

/-- Modelled from the spec: the quaternion type of the arithmetic library
(absent from the sources), holding a body orientation. -/
@[ext]
structure Quaternion (α : Type) where
  r : α
  i : α
  j : α
  k : α

section Arithmetic

variable {α : Type} [LinearOrderedField α]

namespace Vector3

/-- Modelled from the spec: `Vector3::clear`, the zero vector (also the value
of a default-constructed `Vector3`). -/
def clear : Vector3 α := ⟨0, 0, 0⟩

/-- Modelled from the spec: `operator+` of two vectors. -/
def add (a b : Vector3 α) : Vector3 α := ⟨a.x + b.x, a.y + b.y, a.z + b.z⟩

/-- Modelled from the spec: `operator-` of two vectors. -/
def sub (a b : Vector3 α) : Vector3 α := ⟨a.x - b.x, a.y - b.y, a.z - b.z⟩

/-- Modelled from the spec: `operator*` of a vector and a `real`. -/
def scale (a : Vector3 α) (k : α) : Vector3 α := ⟨a.x * k, a.y * k, a.z * k⟩

/-- Modelled from the spec: `scalarProduct`, also written `a * b` in the
sources. -/
def scalarProduct (a b : Vector3 α) : α := a.x * b.x + a.y * b.y + a.z * b.z

/-- Modelled from the spec: `vectorProduct`, also written `a % b` in the
sources: the cross product. -/
def vectorProduct (a b : Vector3 α) : Vector3 α :=
  ⟨a.y * b.z - a.z * b.y, a.z * b.x - a.x * b.z, a.x * b.y - a.y * b.x⟩

/-- Modelled from the spec: `addScaledVector(v, k)`, the vector plus `k` times
`v`. -/
def addScaledVector (a v : Vector3 α) (k : α) : Vector3 α :=
  ⟨a.x + v.x * k, a.y + v.y * k, a.z + v.z * k⟩

/-- Modelled from the spec: `magnitude`, the square root of the sum of the
squared components. -/
def magnitude (real_sqrt : α → α) (a : Vector3 α) : α :=
  real_sqrt (a.x * a.x + a.y * a.y + a.z * a.z)

end Vector3

namespace Matrix3

/-- Modelled from the spec: a default-constructed `Matrix3`, all zero. -/
def zero : Matrix3 α := ⟨0, 0, 0, 0, 0, 0, 0, 0, 0⟩

/-- Modelled from the spec: `setComponents(a, b, c)`, the matrix whose columns
are `a`, `b` and `c`. -/
def setComponents (a b c : Vector3 α) : Matrix3 α :=
  ⟨a.x, b.x, c.x, a.y, b.y, c.y, a.z, b.z, c.z⟩

/-- Modelled from the spec: `transform`, the matrix applied to a vector. -/
def transform (m : Matrix3 α) (v : Vector3 α) : Vector3 α :=
  ⟨v.x * m.d0 + v.y * m.d1 + v.z * m.d2,
   v.x * m.d3 + v.y * m.d4 + v.z * m.d5,
   v.x * m.d6 + v.y * m.d7 + v.z * m.d8⟩

/-- Modelled from the spec: `transformTranspose`, the transposed matrix applied
to a vector. -/
def transformTranspose (m : Matrix3 α) (v : Vector3 α) : Vector3 α :=
  ⟨v.x * m.d0 + v.y * m.d3 + v.z * m.d6,
   v.x * m.d1 + v.y * m.d4 + v.z * m.d7,
   v.x * m.d2 + v.y * m.d5 + v.z * m.d8⟩

/-- Modelled from the spec: `setSkewSymmetric(v)`, the matrix `S` with
`S w = v × w`. -/
def setSkewSymmetric (v : Vector3 α) : Matrix3 α :=
  ⟨0, -v.z, v.y, v.z, 0, -v.x, -v.y, v.x, 0⟩

/-- Modelled from the spec: `transpose`. -/
def transpose (m : Matrix3 α) : Matrix3 α :=
  ⟨m.d0, m.d3, m.d6, m.d1, m.d4, m.d7, m.d2, m.d5, m.d8⟩

/-- Modelled from the spec: `operator*=` with a matrix, the product `m · o`. -/
def mul (m o : Matrix3 α) : Matrix3 α :=
  ⟨m.d0 * o.d0 + m.d1 * o.d3 + m.d2 * o.d6,
   m.d0 * o.d1 + m.d1 * o.d4 + m.d2 * o.d7,
   m.d0 * o.d2 + m.d1 * o.d5 + m.d2 * o.d8,
   m.d3 * o.d0 + m.d4 * o.d3 + m.d5 * o.d6,
   m.d3 * o.d1 + m.d4 * o.d4 + m.d5 * o.d7,
   m.d3 * o.d2 + m.d4 * o.d5 + m.d5 * o.d8,
   m.d6 * o.d0 + m.d7 * o.d3 + m.d8 * o.d6,
   m.d6 * o.d1 + m.d7 * o.d4 + m.d8 * o.d7,
   m.d6 * o.d2 + m.d7 * o.d5 + m.d8 * o.d8⟩

/-- Modelled from the spec: `operator*=` with a `real`. -/
def scale (m : Matrix3 α) (k : α) : Matrix3 α :=
  ⟨m.d0 * k, m.d1 * k, m.d2 * k, m.d3 * k, m.d4 * k, m.d5 * k,
   m.d6 * k, m.d7 * k, m.d8 * k⟩

/-- Modelled from the spec: `operator+=` with a matrix. -/
def add (m o : Matrix3 α) : Matrix3 α :=
  ⟨m.d0 + o.d0, m.d1 + o.d1, m.d2 + o.d2, m.d3 + o.d3, m.d4 + o.d4,
   m.d5 + o.d5, m.d6 + o.d6, m.d7 + o.d7, m.d8 + o.d8⟩

/-- Modelled from the spec: the determinant computed by `inverse`. -/
def det (m : Matrix3 α) : α :=
  m.d0 * m.d4 * m.d8 - m.d0 * m.d5 * m.d7 - m.d1 * m.d3 * m.d8
    + m.d2 * m.d3 * m.d7 + m.d1 * m.d6 * m.d5 - m.d2 * m.d6 * m.d4

/-- Modelled from the spec: `inverse`, the adjugate divided by the
determinant; a singular matrix gives the zero matrix. -/
def inverse (m : Matrix3 α) : Matrix3 α :=
  if m.det = 0 then zero
  else
    ⟨(m.d4 * m.d8 - m.d5 * m.d7) / m.det,
     -(m.d1 * m.d8 - m.d2 * m.d7) / m.det,
     (m.d1 * m.d5 - m.d2 * m.d4) / m.det,
     -(m.d3 * m.d8 - m.d5 * m.d6) / m.det,
     (m.d0 * m.d8 - m.d2 * m.d6) / m.det,
     -(m.d0 * m.d5 - m.d2 * m.d3) / m.det,
     (m.d3 * m.d7 - m.d4 * m.d6) / m.det,
     -(m.d0 * m.d7 - m.d1 * m.d6) / m.det,
     (m.d0 * m.d4 - m.d1 * m.d3) / m.det⟩

end Matrix3

end Arithmetic

/-! ## Rigid bodies -/

/-- Modelled from the spec: the state of a rigid body that the resolver reads
and writes through the body interface (the body class is absent from the
sources). -/
structure RigidBody (α : Type) where
  inverseMass : α
  position : Vector3 α
  orientation : Quaternion α
  velocity : Vector3 α
  rotation : Vector3 α
  lastFrameAcceleration : Vector3 α
  inverseInertiaTensorWorld : Matrix3 α
  isAwake : Bool

/-- The body store: the body at each address. -/
abbrev Bodies (α : Type) := Nat → RigidBody α

/-- The two operations of the body interface whose arithmetic the spec leaves
to the collaborators: `RigidBody::calculateDerivedData` and
`Quaternion::addScaledVector`. They are parameters of the embedding. -/
structure BodyOps (α : Type) where
  calculateDerivedData : RigidBody α → RigidBody α
  addScaledVector : Quaternion α → Vector3 α → α → Quaternion α

section Body

variable {α : Type} [LinearOrderedField α]

namespace RigidBody

/-- Modelled from the spec: `setAwake()`, the body becomes awake. -/
def setAwake (b : RigidBody α) : RigidBody α := { b with isAwake := true }

/-- Modelled from the spec: `addVelocity`. -/
def addVelocity (b : RigidBody α) (v : Vector3 α) : RigidBody α :=
  { b with velocity := b.velocity.add v }

/-- Modelled from the spec: `addRotation`. -/
def addRotation (b : RigidBody α) (v : Vector3 α) : RigidBody α :=
  { b with rotation := b.rotation.add v }

/-- Modelled from the spec: `setPosition`. -/
def setPosition (b : RigidBody α) (p : Vector3 α) : RigidBody α :=
  { b with position := p }

/-- Modelled from the spec: `setOrientation`. -/
def setOrientation (b : RigidBody α) (q : Quaternion α) : RigidBody α :=
  { b with orientation := q }

end RigidBody

end Body

/-! ## Contacts -/

/-- The class `Contact`: `body p` is `body[p]`, `relativeContactPosition p` is
`relativeContactPosition[p]`. -/
structure Contact (α : Type) where
  body : Fin 2 → Option Nat
  friction : α
  restitution : α
  contactPoint : Vector3 α
  contactNormal : Vector3 α
  penetration : α
  contactToWorld : Matrix3 α
  contactVelocity : Vector3 α
  desiredDeltaVelocity : α
  relativeContactPosition : Fin 2 → Vector3 α

section ContactMethods

variable {α : Type} [LinearOrderedField α]

namespace Contact

/-- `Contact::setBodyData`. -/
def setBodyData (c : Contact α) (one two : Option Nat) (friction restitution : α) :
    Contact α :=
  { c with body := ![one, two], friction := friction, restitution := restitution }

/-- `Contact::matchAwakeState`: the bodies after the call. -/
def matchAwakeState (c : Contact α) (bodies : Bodies α) : Option (Bodies α) :=
  match c.body 1 with
  | none => some bodies
  | some p1 =>
    match c.body 0 with
    | none => none
    | some p0 =>
      let body0awake := (bodies p0).isAwake
      let body1awake := (bodies p1).isAwake
      if xor body0awake body1awake then
        if body0awake then
          some (Function.update bodies p1 (bodies p1).setAwake)
        else
          some (Function.update bodies p0 (bodies p0).setAwake)
      else some bodies

/-- `Contact::swapBodies`. -/
def swapBodies (c : Contact α) : Contact α :=
  { c with contactNormal := c.contactNormal.scale (-1), body := ![c.body 1, c.body 0] }

/-- The first tangent `contactTangent[0]` of `Contact::calculateContactBasis`. -/
def contactTangent0 (real_sqrt : α → α) (c : Contact α) : Vector3 α :=
  if |c.contactNormal.x| > |c.contactNormal.y| then
    let s := 1 / real_sqrt (c.contactNormal.z * c.contactNormal.z
      + c.contactNormal.x * c.contactNormal.x)
    ⟨c.contactNormal.z * s, 0, -c.contactNormal.x * s⟩
  else
    let s := 1 / real_sqrt (c.contactNormal.z * c.contactNormal.z
      + c.contactNormal.y * c.contactNormal.y)
    ⟨0, -c.contactNormal.z * s, c.contactNormal.y * s⟩

/-- The second tangent `contactTangent[1]` of `Contact::calculateContactBasis`,
computed from the normal and the first tangent. -/
def contactTangent1 (real_sqrt : α → α) (c : Contact α) : Vector3 α :=
  let t0 := contactTangent0 real_sqrt c
  if |c.contactNormal.x| > |c.contactNormal.y| then
    ⟨c.contactNormal.y * t0.x,
     c.contactNormal.z * t0.x - c.contactNormal.x * t0.z,
     -c.contactNormal.y * t0.x⟩
  else
    ⟨c.contactNormal.y * t0.z - c.contactNormal.z * t0.y,
     -c.contactNormal.x * t0.z,
     c.contactNormal.x * t0.y⟩

/-- `Contact::calculateContactBasis`: `contactToWorld` gets the columns
normal, first tangent, second tangent. -/
def calculateContactBasis (real_sqrt : α → α) (c : Contact α) : Contact α :=
  { c with
    contactToWorld :=
      Matrix3.setComponents c.contactNormal
        (contactTangent0 real_sqrt c) (contactTangent1 real_sqrt c) }

/-- The argument `calculateContactBasis` hands to `real_sqrt` in the branch it
takes. -/
def basisRadicand (c : Contact α) : α :=
  if |c.contactNormal.x| > |c.contactNormal.y| then
    c.contactNormal.z * c.contactNormal.z + c.contactNormal.x * c.contactNormal.x
  else
    c.contactNormal.z * c.contactNormal.z + c.contactNormal.y * c.contactNormal.y

/-- The local `s` of `calculateContactBasis` in the branch it takes. -/
def basisScale (real_sqrt : α → α) (c : Contact α) : α :=
  if |c.contactNormal.x| > |c.contactNormal.y| then
    1 / real_sqrt (c.contactNormal.z * c.contactNormal.z
      + c.contactNormal.x * c.contactNormal.x)
  else
    1 / real_sqrt (c.contactNormal.z * c.contactNormal.z
      + c.contactNormal.y * c.contactNormal.y)

/-- `Contact::calculateLocalVelocity`. -/
def calculateLocalVelocity (c : Contact α) (bodies : Bodies α) (bodyIndex : Fin 2)
    (duration : α) : Option (Vector3 α) :=
  match c.body bodyIndex with
  | none => none
  | some p =>
    let thisBody := bodies p
    let velocity := thisBody.rotation.vectorProduct (c.relativeContactPosition bodyIndex)
    let velocity := velocity.add thisBody.velocity
    let contactVelocity := c.contactToWorld.transformTranspose velocity
    let accVelocity := thisBody.lastFrameAcceleration.scale duration
    let accVelocity := c.contactToWorld.transformTranspose accVelocity
    let accVelocity : Vector3 α := { accVelocity with x := 0 }
    some (contactVelocity.add accVelocity)

/-- The constant `velocityLimit` of `calculateDesiredDeltaVelocity`, `0.25f`. -/
def velocityLimit : α := 1 / 4

/-- The local `velocityFromAcc` of `calculateDesiredDeltaVelocity` once both
bodies were looked at; `p0` is the address in `body[0]`. -/
def velocityFromAcc (c : Contact α) (bodies : Bodies α) (p0 : Nat) (duration : α) : α :=
  let velocityFromAcc : α := 0
  let velocityFromAcc :=
    if (bodies p0).isAwake then
      velocityFromAcc
        + ((bodies p0).lastFrameAcceleration.scale duration).scalarProduct c.contactNormal
    else velocityFromAcc
  match c.body 1 with
  | none => velocityFromAcc
  | some p1 =>
    if (bodies p1).isAwake then
      velocityFromAcc
        - ((bodies p1).lastFrameAcceleration.scale duration).scalarProduct c.contactNormal
    else velocityFromAcc

/-- `Contact::calculateDesiredDeltaVelocity`. -/
def calculateDesiredDeltaVelocity (c : Contact α) (bodies : Bodies α) (duration : α) :
    Option (Contact α) :=
  match c.body 0 with
  | none => none
  | some p0 =>
    let thisRestitution :=
      if |c.contactVelocity.x| < velocityLimit then 0 else c.restitution
    some { c with
      desiredDeltaVelocity :=
        -c.contactVelocity.x
          - thisRestitution * (c.contactVelocity.x - velocityFromAcc c bodies p0 duration) }

/-- `Contact::calculateInternals`. -/
def calculateInternals (real_sqrt : α → α) (c : Contact α) (bodies : Bodies α)
    (duration : α) : Option (Contact α) :=
  let c := if c.body 0 = none then c.swapBodies else c
  match c.body 0 with
  | none => none
  | some p0 =>
    let c := c.calculateContactBasis real_sqrt
    let c := { c with
      relativeContactPosition :=
        Function.update c.relativeContactPosition 0
          (c.contactPoint.sub (bodies p0).position) }
    let c :=
      match c.body 1 with
      | none => c
      | some p1 => { c with
          relativeContactPosition :=
            Function.update c.relativeContactPosition 1
              (c.contactPoint.sub (bodies p1).position) }
    match c.calculateLocalVelocity bodies 0 duration with
    | none => none
    | some v0 =>
      let c := { c with contactVelocity := v0 }
      match c.body 1 with
      | none => c.calculateDesiredDeltaVelocity bodies duration
      | some _ =>
        match c.calculateLocalVelocity bodies 1 duration with
        | none => none
        | some v1 =>
          let c := { c with contactVelocity := c.contactVelocity.sub v1 }
          c.calculateDesiredDeltaVelocity bodies duration

/-- The array `inverseInertiaTensor[2]` that `applyVelocityChange` fills before
it computes the impulse: entry 1 stays default-constructed when `body[1]` is
null; `p0` is the address in `body[0]`. -/
def inverseInertiaTensors (c : Contact α) (bodies : Bodies α) (p0 : Nat) :
    Fin 2 → Matrix3 α :=
  ![(bodies p0).inverseInertiaTensorWorld,
    match c.body 1 with
    | none => Matrix3.zero
    | some p1 => (bodies p1).inverseInertiaTensorWorld]

/-- The per-body term of `calculateFrictionlessImpulse` (and of
`applyPositionChange`): `((I⁻¹ (r × n)) × r) · n` for body `i`. -/
def angularTerm (c : Contact α) (inverseInertiaTensor : Matrix3 α) (i : Fin 2) : α :=
  let deltaVelWorld := (c.relativeContactPosition i).vectorProduct c.contactNormal
  let deltaVelWorld := inverseInertiaTensor.transform deltaVelWorld
  let deltaVelWorld := deltaVelWorld.vectorProduct (c.relativeContactPosition i)
  deltaVelWorld.scalarProduct c.contactNormal

/-- The local `deltaVelocity` of `calculateFrictionlessImpulse` before the
division; `p0` is the address in `body[0]`. -/
def frictionlessDeltaVelocity (c : Contact α) (bodies : Bodies α)
    (inverseInertiaTensor : Fin 2 → Matrix3 α) (p0 : Nat) : α :=
  let deltaVelocity := c.angularTerm (inverseInertiaTensor 0) 0
  let deltaVelocity := deltaVelocity + (bodies p0).inverseMass
  match c.body 1 with
  | none => deltaVelocity
  | some p1 =>
    let deltaVelocity := deltaVelocity + c.angularTerm (inverseInertiaTensor 1) 1
    deltaVelocity + (bodies p1).inverseMass

/-- `Contact::calculateFrictionlessImpulse`. -/
def calculateFrictionlessImpulse (c : Contact α) (bodies : Bodies α)
    (inverseInertiaTensor : Fin 2 → Matrix3 α) : Option (Vector3 α) :=
  match c.body 0 with
  | none => none
  | some p0 =>
    some ⟨c.desiredDeltaVelocity / c.frictionlessDeltaVelocity bodies inverseInertiaTensor p0,
      0, 0⟩

/-- The per-body matrix of `calculateFrictionImpulse`: the skew-symmetric
matrix of `relativeContactPosition[i]`, times the inverse inertia tensor, times
the skew-symmetric matrix again, times `-1`. -/
def deltaVelWorldOf (c : Contact α) (inverseInertiaTensor : Matrix3 α) (i : Fin 2) :
    Matrix3 α :=
  let impulseToTorque := Matrix3.setSkewSymmetric (c.relativeContactPosition i)
  let deltaVelWorld := impulseToTorque
  let deltaVelWorld := deltaVelWorld.mul inverseInertiaTensor
  let deltaVelWorld := deltaVelWorld.mul impulseToTorque
  deltaVelWorld.scale (-1)

/-- The matrix `deltaVelocity` of `calculateFrictionImpulse` (the change of
contact-frame velocity per unit contact-frame impulse), as it stands when it is
inverted; `p0` is the address in `body[0]`. -/
def frictionDeltaVelocity (c : Contact α) (bodies : Bodies α)
    (inverseInertiaTensor : Fin 2 → Matrix3 α) (p0 : Nat) : Matrix3 α :=
  let inverseMass := (bodies p0).inverseMass
  let deltaVelWorld := c.deltaVelWorldOf (inverseInertiaTensor 0) 0
  let both : Matrix3 α × α :=
    match c.body 1 with
    | none => (deltaVelWorld, inverseMass)
    | some p1 =>
      (deltaVelWorld.add (c.deltaVelWorldOf (inverseInertiaTensor 1) 1),
       inverseMass + (bodies p1).inverseMass)
  let deltaVelWorld := both.1
  let inverseMass := both.2
  let deltaVelocity := c.contactToWorld.transpose
  let deltaVelocity := deltaVelocity.mul deltaVelWorld
  let deltaVelocity := deltaVelocity.mul c.contactToWorld
  { deltaVelocity with
    d0 := deltaVelocity.d0 + inverseMass
    d4 := deltaVelocity.d4 + inverseMass
    d8 := deltaVelocity.d8 + inverseMass }

/-- The value of `impulseContact` in `calculateFrictionImpulse` before the
friction-cone test: the inverse of `deltaVelocity` applied to `velKill`. -/
def unclampedImpulse (c : Contact α) (deltaVelocity : Matrix3 α) : Vector3 α :=
  let impulseMatrix := deltaVelocity.inverse
  let velKill : Vector3 α :=
    ⟨c.desiredDeltaVelocity, -c.contactVelocity.y, -c.contactVelocity.z⟩
  impulseMatrix.transform velKill

/-- The friction-cone test and clamp that end `calculateFrictionImpulse`,
applied to the unclamped `impulseContact`. -/
def clampImpulse (real_sqrt : α → α) (c : Contact α) (deltaVelocity : Matrix3 α)
    (impulseContact : Vector3 α) : Vector3 α :=
  let planarImpulse := real_sqrt
    (impulseContact.y * impulseContact.y + impulseContact.z * impulseContact.z)
  if planarImpulse > impulseContact.x * c.friction then
    let y := impulseContact.y / planarImpulse
    let z := impulseContact.z / planarImpulse
    let x := deltaVelocity.d0 + deltaVelocity.d1 * c.friction * y
      + deltaVelocity.d2 * c.friction * z
    let x := c.desiredDeltaVelocity / x
    let y := y * (c.friction * x)
    let z := z * (c.friction * x)
    ⟨x, y, z⟩
  else impulseContact

/-- `Contact::calculateFrictionImpulse`. -/
def calculateFrictionImpulse (real_sqrt : α → α) (c : Contact α) (bodies : Bodies α)
    (inverseInertiaTensor : Fin 2 → Matrix3 α) : Option (Vector3 α) :=
  match c.body 0 with
  | none => none
  | some p0 =>
    let deltaVelocity := c.frictionDeltaVelocity bodies inverseInertiaTensor p0
    some (c.clampImpulse real_sqrt deltaVelocity (c.unclampedImpulse deltaVelocity))

/-- The result of `applyVelocityChange` and of `applyPositionChange`: the body
store and the two output arrays. -/
structure Applied (α : Type) where
  bodies : Bodies α
  linear : Fin 2 → Vector3 α
  angular : Fin 2 → Vector3 α

/-- `Contact::applyVelocityChange`; `linear` is `velocityChange` and `angular`
is `rotationChange`, on entry what the caller's arrays hold. -/
def applyVelocityChange (real_sqrt : α → α) (c : Contact α) (bodies : Bodies α)
    (velocityChange rotationChange : Fin 2 → Vector3 α) : Option (Applied α) :=
  match c.body 0 with
  | none => none
  | some p0 =>
    let inverseInertiaTensor := c.inverseInertiaTensors bodies p0
    let impulseContact? :=
      if c.friction = 0 then c.calculateFrictionlessImpulse bodies inverseInertiaTensor
      else c.calculateFrictionImpulse real_sqrt bodies inverseInertiaTensor
    match impulseContact? with
    | none => none
    | some impulseContact =>
      let impulse := c.contactToWorld.transform impulseContact
      let impulsiveTorque := (c.relativeContactPosition 0).vectorProduct impulse
      let rotationChange :=
        Function.update rotationChange 0 ((inverseInertiaTensor 0).transform impulsiveTorque)
      let velocityChange :=
        Function.update velocityChange 0
          (Vector3.clear.addScaledVector impulse (bodies p0).inverseMass)
      let bodies := Function.update bodies p0 ((bodies p0).addVelocity (velocityChange 0))
      let bodies := Function.update bodies p0 ((bodies p0).addRotation (rotationChange 0))
      match c.body 1 with
      | none => some ⟨bodies, velocityChange, rotationChange⟩
      | some p1 =>
        let impulsiveTorque := impulse.vectorProduct (c.relativeContactPosition 1)
        let rotationChange :=
          Function.update rotationChange 1
            ((inverseInertiaTensor 1).transform impulsiveTorque)
        let velocityChange :=
          Function.update velocityChange 1
            (Vector3.clear.addScaledVector impulse (-(bodies p1).inverseMass))
        let bodies := Function.update bodies p1 ((bodies p1).addVelocity (velocityChange 1))
        let bodies := Function.update bodies p1 ((bodies p1).addRotation (rotationChange 1))
        some ⟨bodies, velocityChange, rotationChange⟩

/-- The constant `angularLimit` of `applyPositionChange`, `0.2f` in the source,
taken as the exact `1/5`. -/
def angularLimit : α := 1 / 5

/-- The first loop of `applyPositionChange`, body `i`: `angularInertia[i]` and
`linearInertia[i]`, both `none` when `body[i]` is null (the entries are then
never written, and never read). -/
def inertiaOf (c : Contact α) (bodies : Bodies α) (i : Fin 2) : Option (α × α) :=
  match c.body i with
  | none => none
  | some p =>
    some (c.angularTerm (bodies p).inverseInertiaTensorWorld i, (bodies p).inverseMass)

/-- The local `totalInertia` of `applyPositionChange` after its first loop. -/
def totalInertia (c : Contact α) (bodies : Bodies α) : α :=
  let totalInertia : α := 0
  let totalInertia :=
    match c.inertiaOf bodies 0 with
    | none => totalInertia
    | some (angularInertia, linearInertia) => totalInertia + (linearInertia + angularInertia)
  match c.inertiaOf bodies 1 with
  | none => totalInertia
  | some (angularInertia, linearInertia) => totalInertia + (linearInertia + angularInertia)

/-- The pair `(angularMove[i], linearMove[i])` of `applyPositionChange` after
the angular limit was applied. -/
def moves (real_sqrt : α → α) (c : Contact α) (i : Fin 2) (penetration totalInertia
    angularInertia linearInertia : α) : α × α :=
  let sign : α := if i = 0 then 1 else -1
  let angularMove := sign * penetration * (angularInertia / totalInertia)
  let linearMove := sign * penetration * (linearInertia / totalInertia)
  let projection := (c.relativeContactPosition i).addScaledVector c.contactNormal
    (-(c.relativeContactPosition i).scalarProduct c.contactNormal)
  let maxMagnitude := angularLimit * projection.magnitude real_sqrt
  if angularMove < -maxMagnitude then
    let totalMove := angularMove + linearMove
    let angularMove := -maxMagnitude
    (angularMove, totalMove - angularMove)
  else if angularMove > maxMagnitude then
    let totalMove := angularMove + linearMove
    let angularMove := maxMagnitude
    (angularMove, totalMove - angularMove)
  else (angularMove, linearMove)

/-- The body of the second loop of `applyPositionChange` for index `i`, on the
state the earlier iteration left; `inertia` holds what the first loop computed
for each body. -/
def applyPositionChangeBody (ops : BodyOps α) (real_sqrt : α → α) (c : Contact α)
    (penetration totalInertia : α) (inertia : Fin 2 → Option (α × α)) (i : Fin 2)
    (st : Applied α) : Applied α :=
  match c.body i, inertia i with
  | some p, some (angularInertia, linearInertia) =>
    let am := c.moves real_sqrt i penetration totalInertia angularInertia linearInertia
    let angularMove := am.1
    let linearMove := am.2
    let angularChange :=
      if angularMove = 0 then Function.update st.angular i Vector3.clear
      else
        let targetAngularDirection :=
          (c.relativeContactPosition i).vectorProduct c.contactNormal
        let inverseInertiaTensor := (st.bodies p).inverseInertiaTensorWorld
        Function.update st.angular i
          ((inverseInertiaTensor.transform targetAngularDirection).scale
            (angularMove / angularInertia))
    let linearChange := Function.update st.linear i (c.contactNormal.scale linearMove)
    let pos := (st.bodies p).position
    let pos := pos.addScaledVector c.contactNormal linearMove
    let bodies := Function.update st.bodies p ((st.bodies p).setPosition pos)
    let q := (bodies p).orientation
    let q := ops.addScaledVector q (angularChange i) 1
    let bodies := Function.update bodies p ((bodies p).setOrientation q)
    let bodies :=
      if (bodies p).isAwake then bodies
      else Function.update bodies p (ops.calculateDerivedData (bodies p))
    ⟨bodies, linearChange, angularChange⟩
  | _, _ => st

/-- `Contact::applyPositionChange`; `linear` is `linearChange` and `angular` is
`angularChange`, on entry what the caller's arrays hold. -/
def applyPositionChange (ops : BodyOps α) (real_sqrt : α → α) (c : Contact α)
    (bodies : Bodies α) (linearChange angularChange : Fin 2 → Vector3 α)
    (penetration : α) : Applied α :=
  let inertia : Fin 2 → Option (α × α) := fun i => c.inertiaOf bodies i
  let totalInertia := c.totalInertia bodies
  let st : Applied α := ⟨bodies, linearChange, angularChange⟩
  let st := c.applyPositionChangeBody ops real_sqrt penetration totalInertia inertia 0 st
  c.applyPositionChangeBody ops real_sqrt penetration totalInertia inertia 1 st

/-- A quotient of `real`s as exact arithmetic defines it: `none` when the
divisor is zero. -/
def checkedDiv (a b : α) : Option α := if b = 0 then none else some (a / b)

/-- The pair `(angularMove[i], linearMove[i])` of `applyPositionChange` with
both quotients by `totalInertia` checked: `none` when one of them has a zero
divisor. The source takes the quotients first, before any test. -/
def checkedMoves (real_sqrt : α → α) (c : Contact α) (i : Fin 2) (penetration totalInertia
    angularInertia linearInertia : α) : Option (α × α) :=
  match checkedDiv angularInertia totalInertia, checkedDiv linearInertia totalInertia with
  | some angularShare, some linearShare =>
    let sign : α := if i = 0 then 1 else -1
    let angularMove := sign * penetration * angularShare
    let linearMove := sign * penetration * linearShare
    let projection := (c.relativeContactPosition i).addScaledVector c.contactNormal
      (-(c.relativeContactPosition i).scalarProduct c.contactNormal)
    let maxMagnitude := angularLimit * projection.magnitude real_sqrt
    if angularMove < -maxMagnitude then
      let totalMove := angularMove + linearMove
      let angularMove := -maxMagnitude
      some (angularMove, totalMove - angularMove)
    else if angularMove > maxMagnitude then
      let totalMove := angularMove + linearMove
      let angularMove := maxMagnitude
      some (angularMove, totalMove - angularMove)
    else some (angularMove, linearMove)
  | _, _ => none

/-- The body of the second loop of `applyPositionChange` for index `i` with
every quotient it takes checked: `none` when one of them has a zero divisor. -/
def checkedPositionChangeBody (ops : BodyOps α) (real_sqrt : α → α) (c : Contact α)
    (penetration totalInertia : α) (inertia : Fin 2 → Option (α × α)) (i : Fin 2)
    (st : Applied α) : Option (Applied α) :=
  match c.body i, inertia i with
  | some p, some (angularInertia, linearInertia) =>
    match c.checkedMoves real_sqrt i penetration totalInertia angularInertia linearInertia with
    | none => none
    | some am =>
      let angularMove := am.1
      let linearMove := am.2
      let angularChangeChecked : Option (Fin 2 → Vector3 α) :=
        if angularMove = 0 then some (Function.update st.angular i Vector3.clear)
        else
          let targetAngularDirection :=
            (c.relativeContactPosition i).vectorProduct c.contactNormal
          let inverseInertiaTensor := (st.bodies p).inverseInertiaTensorWorld
          match checkedDiv angularMove angularInertia with
          | none => none
          | some ratio =>
            some (Function.update st.angular i
              ((inverseInertiaTensor.transform targetAngularDirection).scale ratio))
      match angularChangeChecked with
      | none => none
      | some angularChange =>
        let linearChange := Function.update st.linear i (c.contactNormal.scale linearMove)
        let pos := (st.bodies p).position
        let pos := pos.addScaledVector c.contactNormal linearMove
        let bodies := Function.update st.bodies p ((st.bodies p).setPosition pos)
        let q := (bodies p).orientation
        let q := ops.addScaledVector q (angularChange i) 1
        let bodies := Function.update bodies p ((bodies p).setOrientation q)
        let bodies :=
          if (bodies p).isAwake then bodies
          else Function.update bodies p (ops.calculateDerivedData (bodies p))
        some ⟨bodies, linearChange, angularChange⟩
  | _, _ => some st

/-- `Contact::applyPositionChange` with every quotient it takes checked: `none`
when the call divides by zero, otherwise what the call leaves. -/
def checkedPositionChange (ops : BodyOps α) (real_sqrt : α → α) (c : Contact α)
    (bodies : Bodies α) (linearChange angularChange : Fin 2 → Vector3 α)
    (penetration : α) : Option (Applied α) :=
  let inertia : Fin 2 → Option (α × α) := fun i => c.inertiaOf bodies i
  let totalInertia := c.totalInertia bodies
  let st : Applied α := ⟨bodies, linearChange, angularChange⟩
  match c.checkedPositionChangeBody ops real_sqrt penetration totalInertia inertia 0 st with
  | none => none
  | some st => c.checkedPositionChangeBody ops real_sqrt penetration totalInertia inertia 1 st

end Contact

end ContactMethods

/-! ## The resolver -/

/-- The class `ContactResolver`. -/
structure ContactResolver (α : Type) where
  velocityIterations : Nat
  positionIterations : Nat
  velocityEpsilon : α
  positionEpsilon : α
  velocityIterationsUsed : Nat
  positionIterationsUsed : Nat

/-- What `resolveContacts` works on: the contact array `c` and the body
store. -/
structure World (α : Type) where
  c : Nat → Contact α
  bodies : Bodies α

/-- The state of a correction loop: the contact array, the body store, and the
two local output arrays (`linearChange`, `angularChange` in `adjustPositions`;
`velocityChange`, `rotationChange` in `adjustVelocities`). -/
structure LoopState (α : Type) where
  c : Nat → Contact α
  bodies : Bodies α
  linear : Fin 2 → Vector3 α
  angular : Fin 2 → Vector3 α

section Resolver

variable {α : Type} [LinearOrderedField α]

namespace ContactResolver

/-- `ContactResolver::setIterations(velocityIterations, positionIterations)`. -/
def setIterations (r : ContactResolver α) (velocityIterations positionIterations : Nat) :
    ContactResolver α :=
  { r with velocityIterations := velocityIterations, positionIterations := positionIterations }

/-- `ContactResolver::setIterations(iterations)`, the one-argument overload. -/
def setIterationsBoth (r : ContactResolver α) (iterations : Nat) : ContactResolver α :=
  r.setIterations iterations iterations

/-- `ContactResolver::setEpsilon`. -/
def setEpsilon (r : ContactResolver α) (velocityEpsilon positionEpsilon : α) :
    ContactResolver α :=
  { r with velocityEpsilon := velocityEpsilon, positionEpsilon := positionEpsilon }

/-- The constructor `ContactResolver(iterations, velocityEpsilon,
positionEpsilon)`, run on the uninitialised object `r`. -/
def construct3 (r : ContactResolver α) (iterations : Nat)
    (velocityEpsilon positionEpsilon : α) : ContactResolver α :=
  (r.setIterations iterations iterations).setEpsilon velocityEpsilon positionEpsilon

/-- The constructor `ContactResolver(velocityIterations, positionIterations,
velocityEpsilon, positionEpsilon)`, run on the uninitialised object `r`; its
body calls the one-argument `setIterations` with `velocityIterations`. -/
def construct4 (r : ContactResolver α) (velocityIterations _positionIterations : Nat)
    (velocityEpsilon positionEpsilon : α) : ContactResolver α :=
  (r.setIterationsBoth velocityIterations).setEpsilon velocityEpsilon positionEpsilon

/-- Modelled from the spec: `isValid` (declared in a header that is absent from
the sources): the iteration caps and the epsilons must be positive. -/
def isValid (r : ContactResolver α) : Bool :=
  decide (0 < r.velocityIterations) && decide (0 < r.positionIterations)
    && decide (0 < r.velocityEpsilon) && decide (0 < r.positionEpsilon)

/-- The selection scan at the head of each iteration of `adjustPositions` and
`adjustVelocities`: `max` starts at the epsilon and `index` at `numContacts`;
contact `i` replaces them when its metric is greater than `max`. The result is
`(max, index)`. -/
def worst (metric : Nat → α) (numContacts : Nat) (epsilon : α) : α × Nat :=
  (List.range numContacts).foldl
    (fun (acc : α × Nat) i => if metric i > acc.1 then (metric i, i) else acc)
    (epsilon, numContacts)

/-- The `while` loop that `adjustPositions` and `adjustVelocities` share:
`while (used < cap) { scan; if (index == numContacts) break; iteration; used++; }`.
`left` is `cap - used`, the number of iterations still allowed; `scan` gives
`(max, index)` and `iteration index max` is the rest of the loop body, `none`
when it dereferences a null body. The result is the final counter and state. -/
def cappedLoop {σ : Type} (numContacts : Nat) (scan : σ → α × Nat)
    (iteration : Nat → α → σ → Option σ) : (left : Nat) → (used : Nat) → σ →
    Option (Nat × σ)
  | 0, used, s => some (used, s)
  | left + 1, used, s =>
    if (scan s).2 = numContacts then some (used, s)
    else
      match iteration (scan s).2 (scan s).1 s with
      | none => none
      | some s => cappedLoop numContacts scan iteration left (used + 1) s

/-- The state reached from `s` by performing the body of the shared loop
exactly `k` times (scan, no `break`, iteration): `none` when a scan finds no
contact before the `k` iterations are done, or when an iteration fails. It says
how many iterations a run performed without reading the counter. -/
def performed {σ : Type} (numContacts : Nat) (scan : σ → α × Nat)
    (iteration : Nat → α → σ → Option σ) : (k : Nat) → σ → Option σ
  | 0, s => some s
  | k + 1, s =>
    if (scan s).2 = numContacts then none
    else
      match iteration (scan s).2 (scan s).1 s with
      | none => none
      | some s => performed numContacts scan iteration k s

/-- `ContactResolver::prepareContacts`. -/
def prepareContacts (real_sqrt : α → α) (w : World α) (numContacts : Nat) (duration : α) :
    Option (World α) :=
  (List.range numContacts).foldlM
    (fun (w : World α) i =>
      match (w.c i).calculateInternals real_sqrt w.bodies duration with
      | none => none
      | some ci => some { w with c := Function.update w.c i ci })
    w

/-- The innermost statement of the propagation in `adjustPositions`, for
contact `ci`, its slot `b` and slot `d` of the chosen contact, guarded by its
two tests; `chosen` is `c[index].body`. -/
def positionUpdate (linearChange angularChange : Fin 2 → Vector3 α)
    (chosen : Fin 2 → Option Nat) (b d : Fin 2) (ci : Contact α) : Contact α :=
  if ci.body b ≠ none ∧ ci.body b = chosen d then
    let deltaPosition :=
      (linearChange d).add ((angularChange d).vectorProduct (ci.relativeContactPosition b))
    { ci with
      penetration :=
        ci.penetration
          + deltaPosition.scalarProduct ci.contactNormal * (if b = 0 then -1 else 1) }
  else ci

/-- The propagation loop of `adjustPositions` over all contacts. -/
def propagatePositions (linearChange angularChange : Fin 2 → Vector3 α) (index : Nat)
    (numContacts : Nat) (c : Nat → Contact α) : Nat → Contact α :=
  (List.range numContacts).foldl
    (fun (c : Nat → Contact α) i =>
      let chosen := (c index).body
      let ci := c i
      let ci := positionUpdate linearChange angularChange chosen 0 0 ci
      let ci := positionUpdate linearChange angularChange chosen 0 1 ci
      let ci := positionUpdate linearChange angularChange chosen 1 0 ci
      let ci := positionUpdate linearChange angularChange chosen 1 1 ci
      Function.update c i ci)
    c

/-- One iteration of the `while` loop of `adjustPositions` after the scan chose
`index` with penetration `max`. -/
def positionIteration (ops : BodyOps α) (real_sqrt : α → α) (numContacts : Nat)
    (index : Nat) (max : α) (s : LoopState α) : Option (LoopState α) :=
  match (s.c index).matchAwakeState s.bodies with
  | none => none
  | some bodies =>
    let a := (s.c index).applyPositionChange ops real_sqrt bodies s.linear s.angular max
    some ⟨propagatePositions a.linear a.angular index numContacts s.c,
      a.bodies, a.linear, a.angular⟩

/-- The `while` loop of `adjustPositions`, from the state `s` with
`positionIterationsUsed = used` and `left = positionIterations - used`. -/
def adjustPositionsLoop (ops : BodyOps α) (real_sqrt : α → α) (positionEpsilon : α)
    (numContacts : Nat) (left used : Nat) (s : LoopState α) : Option (Nat × LoopState α) :=
  cappedLoop numContacts
    (fun s => worst (fun i => (s.c i).penetration) numContacts positionEpsilon)
    (fun index max s => positionIteration ops real_sqrt numContacts index max s)
    left used s

/-- `ContactResolver::adjustPositions`. -/
def adjustPositions (ops : BodyOps α) (real_sqrt : α → α) (r : ContactResolver α)
    (w : World α) (numContacts : Nat) (_duration : α) :
    Option (ContactResolver α × World α) :=
  match adjustPositionsLoop ops real_sqrt r.positionEpsilon numContacts
      r.positionIterations 0
      ⟨w.c, w.bodies, fun _ => Vector3.clear, fun _ => Vector3.clear⟩ with
  | none => none
  | some (used, s) => some ({ r with positionIterationsUsed := used }, ⟨s.c, s.bodies⟩)

/-- The innermost statements of the propagation in `adjustVelocities`, for
contact `ci`, its slot `b` and slot `d` of the chosen contact, guarded by their
two tests; `chosen` is `c[index].body`. -/
def velocityUpdate (bodies : Bodies α) (duration : α)
    (velocityChange rotationChange : Fin 2 → Vector3 α)
    (chosen : Fin 2 → Option Nat) (b d : Fin 2) (ci : Contact α) : Option (Contact α) :=
  if ci.body b ≠ none ∧ ci.body b = chosen d then
    let deltaVel :=
      (velocityChange d).add
        ((rotationChange d).vectorProduct (ci.relativeContactPosition b))
    let ci := { ci with
      contactVelocity :=
        ci.contactVelocity.add
          ((ci.contactToWorld.transformTranspose deltaVel).scale (if b = 0 then 1 else -1)) }
    ci.calculateDesiredDeltaVelocity bodies duration
  else some ci

/-- The propagation loop of `adjustVelocities` over all contacts. -/
def propagateVelocities (bodies : Bodies α) (duration : α)
    (velocityChange rotationChange : Fin 2 → Vector3 α) (index : Nat)
    (numContacts : Nat) (c : Nat → Contact α) : Option (Nat → Contact α) :=
  (List.range numContacts).foldlM
    (fun (c : Nat → Contact α) i =>
      let chosen := (c index).body
      match velocityUpdate bodies duration velocityChange rotationChange chosen 0 0 (c i) with
      | none => none
      | some ci =>
      match velocityUpdate bodies duration velocityChange rotationChange chosen 0 1 ci with
      | none => none
      | some ci =>
      match velocityUpdate bodies duration velocityChange rotationChange chosen 1 0 ci with
      | none => none
      | some ci =>
      match velocityUpdate bodies duration velocityChange rotationChange chosen 1 1 ci with
      | none => none
      | some ci => some (Function.update c i ci))
    c

/-- One iteration of the `while` loop of `adjustVelocities` after the scan
chose `index`. -/
def velocityIteration (real_sqrt : α → α) (numContacts : Nat) (duration : α)
    (index : Nat) (s : LoopState α) : Option (LoopState α) :=
  match (s.c index).matchAwakeState s.bodies with
  | none => none
  | some bodies =>
    match (s.c index).applyVelocityChange real_sqrt bodies s.linear s.angular with
    | none => none
    | some a =>
      match propagateVelocities a.bodies duration a.linear a.angular index numContacts s.c with
      | none => none
      | some c => some ⟨c, a.bodies, a.linear, a.angular⟩

/-- The `while` loop of `adjustVelocities`, from the state `s` with
`velocityIterationsUsed = used` and `left = velocityIterations - used`. -/
def adjustVelocitiesLoop (real_sqrt : α → α) (velocityEpsilon : α)
    (numContacts : Nat) (duration : α) (left used : Nat) (s : LoopState α) :
    Option (Nat × LoopState α) :=
  cappedLoop numContacts
    (fun s => worst (fun i => (s.c i).desiredDeltaVelocity) numContacts velocityEpsilon)
    (fun index _ s => velocityIteration real_sqrt numContacts duration index s)
    left used s

/-- `ContactResolver::adjustVelocities`. -/
def adjustVelocities (real_sqrt : α → α) (r : ContactResolver α)
    (w : World α) (numContacts : Nat) (duration : α) :
    Option (ContactResolver α × World α) :=
  match adjustVelocitiesLoop real_sqrt r.velocityEpsilon numContacts duration
      r.velocityIterations 0
      ⟨w.c, w.bodies, fun _ => Vector3.clear, fun _ => Vector3.clear⟩ with
  | none => none
  | some (used, s) => some ({ r with velocityIterationsUsed := used }, ⟨s.c, s.bodies⟩)

/-- `ContactResolver::resolveContacts`. -/
def resolveContacts (ops : BodyOps α) (real_sqrt : α → α) (r : ContactResolver α)
    (w : World α) (numContacts : Nat) (duration : α) :
    Option (ContactResolver α × World α) :=
  if numContacts = 0 then some (r, w)
  else if !r.isValid then some (r, w)
  else
    match prepareContacts real_sqrt w numContacts duration with
    | none => none
    | some w =>
      match adjustPositions ops real_sqrt r w numContacts duration with
      | none => none
      | some (r, w) => adjustVelocities real_sqrt r w numContacts duration

end ContactResolver

/-- The amount by which position propagation is said to change the penetration
of contact `ci` on account of its slot `b` and slot `d` of the chosen contact
(whose body slots are `chosen`): `(b = 0 ? -1 : +1)` times the displacement
`linearChange[d] + angularChange[d] × ci.relativeContactPosition[b]` projected on
`ci.contactNormal` when the two slots hold the same body, and 0 otherwise. -/
def penetrationShare (linearChange angularChange : Fin 2 → Vector3 α)
    (chosen : Fin 2 → Option Nat) (b d : Fin 2) (ci : Contact α) : α :=
  if ci.body b ≠ none ∧ ci.body b = chosen d then
    (if b = 0 then -1 else 1)
      * ((linearChange d).add
          ((angularChange d).vectorProduct (ci.relativeContactPosition b))).scalarProduct
        ci.contactNormal
  else 0

/-- The amount by which velocity propagation is said to change the contact
velocity of contact `ci` on account of its slot `b` and slot `d` of the chosen
contact: `(b = 0 ? +1 : -1)` times `ci.contactToWorldᵀ` applied to
`velocityChange[d] + rotationChange[d] × ci.relativeContactPosition[b]` when the two
slots hold the same body, and the zero vector otherwise. -/
def velocityShare (velocityChange rotationChange : Fin 2 → Vector3 α)
    (chosen : Fin 2 → Option Nat) (b d : Fin 2) (ci : Contact α) : Vector3 α :=
  if ci.body b ≠ none ∧ ci.body b = chosen d then
    (ci.contactToWorld.transformTranspose
      ((velocityChange d).add
        ((rotationChange d).vectorProduct (ci.relativeContactPosition b)))).scale
      (if b = 0 then 1 else -1)
  else Vector3.clear

/-- Slot `b` of contact `ci` holds the same body as slot `d` of the chosen
contact. -/
def sharesBody (chosen : Fin 2 → Option Nat) (b d : Fin 2) (ci : Contact α) : Prop :=
  ci.body b ≠ none ∧ ci.body b = chosen d

/-- The normalisation invariant that `calculateInternals` establishes, for a
batch: every contact below `n` has a body in slot 0. -/
def HasBody0 (n : Nat) (c : Nat → Contact α) : Prop :=
  ∀ i, i < n → ∃ p, (c i).body 0 = some p

end Resolver

/-! ## The growable array `ForceVector` (src/include/chaos/core/fgen.h)

* A `size_t` is a natural number. The block of a vector with capacity `c` takes
  `c * sizeof(struct ForceRegistration)` bytes, and the capacity never exceeds
  `max 4 (2 * k)` after `k` calls (shown below), so no count computed here comes
  near the range of `size_t`.
* The block `items` points to is read slot by slot, a slot being
  `sizeof(struct ForceRegistration)` bytes: `none` is a slot in which no
  registration has been stored, or a slot beyond the block.
* `realloc` either returns a block (`allocated = true`), which keeps the slots
  that fit in the new size, or returns `NULL` (`allocated = false`).
-/

/-- `struct ForceRegistration`: the two pointers, as addresses. -/
structure ForceRegistration where
  body : Option Nat
  fg : Option Nat
deriving DecidableEq

/-- `FORCE_VECTOR_INIT_CAPACITY`. -/
def FORCE_VECTOR_INIT_CAPACITY : Nat := 4

/-- `FORCE_VECTOR_RESIZE_FACTOR`. -/
def FORCE_VECTOR_RESIZE_FACTOR : Nat := 2

/-- `struct ForceVector`; `items k` is the content of slot `k` of the block. -/
structure ForceVector where
  size : Nat
  capacity : Nat
  items : Nat → Option ForceRegistration

/-- `force_vector_init`: the block comes fresh from `malloc`, no slot holds a
registration; `memory_size` is not used. -/
def force_vector_init (_memory_size : Nat) : ForceVector :=
  { size := 0, capacity := FORCE_VECTOR_INIT_CAPACITY, items := fun _ => none }

/-- `force_vector_size`. -/
def force_vector_size (vector : ForceVector) : Nat := vector.size

/-- `force_vector_resize`; `allocated` tells whether `realloc` returned a block. -/
def force_vector_resize (allocated : Bool) (vector : ForceVector) (capacity : Nat) :
    ForceVector :=
  if allocated then
    { vector with
      items := fun k => if k < capacity then vector.items k else none
      capacity := capacity }
  else vector

/-- `force_vector_push_back`: `memcpy` stores the item in slot `size`. -/
def force_vector_push_back (allocated : Bool) (vector : ForceVector)
    (item : ForceRegistration) : ForceVector :=
  let vector :=
    if vector.capacity = vector.size then
      force_vector_resize allocated vector (vector.capacity * FORCE_VECTOR_RESIZE_FACTOR)
    else vector
  let vector := { vector with items := Function.update vector.items vector.size (some item) }
  { vector with size := vector.size + 1 }

/-- `force_vector_get`: the slot the returned pointer points to, `none` for
`NULL`. -/
def force_vector_get (vector : ForceVector) (index : Nat) : Option Nat :=
  if 0 ≤ index ∧ index < vector.size then some index else none

/-- What is read through the pointer `force_vector_get` returns: the
registration in the slot, `none` when the pointer is `NULL` or the slot holds no
registration. -/
def force_vector_at (vector : ForceVector) (index : Nat) : Option ForceRegistration :=
  match force_vector_get vector index with
  | none => none
  | some slot => vector.items slot

/-- `force_vector_remove`: `memmove` copies the `size - (index + 1)` slots from
`index + 1` on to the slots from `index` on. -/
def force_vector_remove (allocated : Bool) (vector : ForceVector) (index : Nat) :
    ForceVector :=
  if index < 0 ∨ index ≥ vector.size then vector
  else
    let vector :=
      { vector with
        items := fun k =>
          if index ≤ k ∧ k < index + (vector.size - (index + 1)) then vector.items (k + 1)
          else vector.items k }
    let vector := { vector with size := vector.size - 1 }
    if vector.size > 0 ∧ vector.size = vector.capacity / 4 then
      force_vector_resize allocated vector (vector.capacity / 2)
    else vector

/-- `force_vector_clear`. -/
def force_vector_clear (allocated : Bool) (vector : ForceVector) : ForceVector :=
  let vector := { vector with size := 0 }
  let vector := { vector with capacity := FORCE_VECTOR_INIT_CAPACITY }
  force_vector_resize allocated vector FORCE_VECTOR_INIT_CAPACITY

/-- One call that changes a vector. -/
inductive ForceVectorCall where
  | push_back (item : ForceRegistration)
  | remove (index : Nat)
  | clear

/-- The vector after one call, every `realloc` giving the answer `allocated`. -/
def ForceVectorCall.run (allocated : Bool) (vector : ForceVector) :
    ForceVectorCall → ForceVector
  | .push_back item => force_vector_push_back allocated vector item
  | .remove index => force_vector_remove allocated vector index
  | .clear => force_vector_clear allocated vector

/-- The vector after a sequence of calls, first call first. -/
def force_vector_calls (allocated : Bool) (calls : List ForceVectorCall)
    (vector : ForceVector) : ForceVector :=
  calls.foldl (fun vector call => call.run allocated vector) vector

/-- The state of a vector whose block holds `capacity` slots: the items fit, the
slots below `size` hold registrations, and nothing is stored beyond the block. -/
def ForceVector.Valid (vector : ForceVector) : Prop :=
  vector.size ≤ vector.capacity ∧ 2 ≤ vector.capacity
    ∧ (∀ k, k < vector.size → vector.items k ≠ none)
    ∧ (∀ k, vector.capacity ≤ k → vector.items k = none)

end Chaos
/-! ## Concrete inputs -/

namespace Chaos

section Samples

variable (α : Type) [LinearOrderedField α]

/-- A body at rest at the origin with the given inverse mass, no rotational
response, awake. -/
def pointBody (inverseMass : α) : RigidBody α :=
  { inverseMass := inverseMass, position := Vector3.clear, orientation := ⟨1, 0, 0, 0⟩,
    velocity := Vector3.clear, rotation := Vector3.clear,
    lastFrameAcceleration := Vector3.clear, inverseInertiaTensorWorld := Matrix3.zero,
    isAwake := true }

/-- A contact of the body at address 0 against the environment, with the given
normal and every other field zero. -/
def contactWithNormal (n : Vector3 α) : Contact α :=
  { body := ![some 0, none], friction := 0, restitution := 0, contactPoint := Vector3.clear,
    contactNormal := n, penetration := 0, contactToWorld := Matrix3.zero,
    contactVelocity := Vector3.clear, desiredDeltaVelocity := 0,
    relativeContactPosition := ![Vector3.clear, Vector3.clear] }

/-- The unit normal `(4/5, 3/5, 0)`: its `x` is the larger of `x` and `y`, and
its `y` is not zero. -/
def slantedNormal : Vector3 α := ⟨4 / 5, 3 / 5, 0⟩

/-- A body store whose every body is a unit-inverse-mass point body with the
given last-frame acceleration; the body at address 1 is asleep. -/
def acceleratedBodies (a : Vector3 α) : Bodies α := fun p =>
  { pointBody α 1 with lastFrameAcceleration := a, isAwake := decide (p ≠ 1) }

/-- A contact between the bodies at addresses 0 and 1 with normal `(1, 0, 0)`,
the given restitution and the given normal contact velocity. -/
def closingContact (restitution vx : α) : Contact α :=
  { body := ![some 0, some 1], friction := 0, restitution := restitution,
    contactPoint := Vector3.clear, contactNormal := ⟨1, 0, 0⟩, penetration := 0,
    contactToWorld := Matrix3.zero, contactVelocity := ⟨vx, 0, 0⟩,
    desiredDeltaVelocity := 0,
    relativeContactPosition := ![Vector3.clear, Vector3.clear] }

/-- A body store whose every body has unit inverse mass, the identity as
inverse inertia tensor, and is awake and at rest. -/
def unitBodies : Bodies α := fun _ =>
  { pointBody α 1 with inverseInertiaTensorWorld := ⟨1, 0, 0, 0, 1, 0, 0, 0, 1⟩ }

/-- A frictionless contact between the bodies at addresses 0 and 1 with normal
`(1, 0, 0)`, whose contact point lies at `(0, 1, 0)` from body 0 and at the
origin of body 1, with desired velocity change 3. -/
def leverContact : Contact α :=
  { body := ![some 0, some 1], friction := 0, restitution := 1 / 2,
    contactPoint := Vector3.clear, contactNormal := ⟨1, 0, 0⟩, penetration := 0,
    contactToWorld := Matrix3.zero, contactVelocity := ⟨-2, 0, 0⟩,
    desiredDeltaVelocity := 3,
    relativeContactPosition := ![⟨0, 1, 0⟩, Vector3.clear] }

/-- A contact of the body at address 0 against the environment with friction
`1/2`, normal `(1, 0, 0)`, the identity as contact basis, the contact point at
the body origin, the given desired velocity change and the given tangential
contact velocity along `y`. -/
def slidingContact (desiredDeltaVelocity vy : α) : Contact α :=
  { body := ![some 0, none], friction := 1 / 2, restitution := 0,
    contactPoint := Vector3.clear, contactNormal := ⟨1, 0, 0⟩, penetration := 0,
    contactToWorld := ⟨1, 0, 0, 0, 1, 0, 0, 0, 1⟩, contactVelocity := ⟨0, vy, 0⟩,
    desiredDeltaVelocity := desiredDeltaVelocity,
    relativeContactPosition := ![Vector3.clear, Vector3.clear] }

/-- A contact with friction `1` between the bodies at addresses 0 and 1, with
normal `(1, 0, 0)` and the identity as contact basis, whose contact point lies
at `(0, 1, 0)` from body 0 and at the origin of body 1; the desired velocity
change is 12 and the tangential contact velocity is `(-6, 0)`. -/
def frictionLeverContact : Contact α :=
  { body := ![some 0, some 1], friction := 1, restitution := 0,
    contactPoint := Vector3.clear, contactNormal := ⟨1, 0, 0⟩, penetration := 0,
    contactToWorld := ⟨1, 0, 0, 0, 1, 0, 0, 0, 1⟩, contactVelocity := ⟨-12, -6, 0⟩,
    desiredDeltaVelocity := 12,
    relativeContactPosition := ![⟨0, 1, 0⟩, Vector3.clear] }

/-- Body operations for the concrete runs: `calculateDerivedData` changes
nothing, and `addScaledVector` adds half the quaternion product of
`(0, v * k)` with `q`. -/
def sampleOps : BodyOps α :=
  { calculateDerivedData := fun b => b
    addScaledVector := fun q v k =>
      ⟨q.r + (-(v.x * k) * q.i - (v.y * k) * q.j - (v.z * k) * q.k) / 2,
       q.i + ((v.x * k) * q.r + (v.y * k) * q.k - (v.z * k) * q.j) / 2,
       q.j + ((v.y * k) * q.r + (v.z * k) * q.i - (v.x * k) * q.k) / 2,
       q.k + ((v.z * k) * q.r + (v.x * k) * q.j - (v.y * k) * q.i) / 2⟩ }

/-- One unit-inverse-mass point body (at every address) moving with velocity
`(-1, 0, 0)`, held between two contacts against the environment with opposite
normals `(1, 0, 0)` and `(-1, 0, 0)`, both with penetration 1, restitution 1
and no friction: resolving either contact undoes the other. -/
def sandwichWorld : World α :=
  { c := fun i =>
      { contactWithNormal α ⟨if i = 0 then 1 else -1, 0, 0⟩ with
        penetration := 1, restitution := 1 }
    bodies := fun _ => { pointBody α 1 with velocity := ⟨-1, 0, 0⟩ } }

/-- A resolver with two iterations of each kind, both epsilons `1/100`, and
counters left at 7 by an earlier call. -/
def twoStepResolver : ContactResolver α :=
  { velocityIterations := 2, positionIterations := 2, velocityEpsilon := 1 / 100,
    positionEpsilon := 1 / 100, velocityIterationsUsed := 7, positionIterationsUsed := 7 }

/-- Three contacts against the environment: contacts 0 and 1 hold the body at
address 0, with the independent normals `(1, 0, 0)` and `(3/5, 4/5, 0)` and
penetrations 1 and `1/2`; every further contact holds the body at address 7, with
normal `(0, 1, 0)` and penetration `1/4`. All bodies are unit-inverse-mass point
bodies moving with velocity `(-1, -1, 0)`; restitution is 0 and the contact points
lie at the body origins. -/
def cornerWorld : World α :=
  { c := fun i =>
      if i = 0 then { contactWithNormal α ⟨1, 0, 0⟩ with penetration := 1 }
      else if i = 1 then { contactWithNormal α ⟨3 / 5, 4 / 5, 0⟩ with penetration := 1 / 2 }
      else { contactWithNormal α ⟨0, 1, 0⟩ with
        body := ![some 7, none], penetration := 1 / 4 }
    bodies := fun _ => { pointBody α 1 with velocity := ⟨-1, -1, 0⟩ } }

/-- A body store whose every body is immovable: zero inverse mass and the zero
matrix as inverse inertia tensor. -/
def immovableBodies : Bodies α := fun _ => pointBody α 0

/-- A loop state whose every contact is `leverContact` with penetration 1,
between unit bodies, with the output arrays cleared. -/
def leverState : LoopState α :=
  { c := fun _ => { leverContact α with penetration := 1 }, bodies := unitBodies α,
    linear := fun _ => Vector3.clear, angular := fun _ => Vector3.clear }

end Samples

/-- A square root on the rationals, exact on the squares of rationals: the
integer square roots of numerator and denominator. -/
def sqrtQ (q : ℚ) : ℚ := (Nat.sqrt q.num.toNat : ℚ) / (Nat.sqrt q.den : ℚ)

/-- The registration of body `k` with the force generator at address
`k + 100`. -/
def registration (k : Nat) : ForceRegistration := ⟨some k, some (k + 100)⟩

/-- A full vector: four registrations pushed after `force_vector_init`, size and
capacity 4. -/
def fullVector : ForceVector :=
  force_vector_calls true
    [.push_back (registration 0), .push_back (registration 1), .push_back (registration 2),
      .push_back (registration 3)]
    (force_vector_init 16)

/-- A vector of size 2 and capacity 4: two registrations pushed after
`force_vector_init`. -/
def pairVector : ForceVector :=
  force_vector_calls true [.push_back (registration 0), .push_back (registration 1)]
    (force_vector_init 16)

end Chaos
namespace Chaos

open Contact

theorem sqrt_sixteen_25 : Real.sqrt (16 / 25) = 4 / 5 := by
  rw [show (16 / 25 : ℝ) = (4 / 5) ^ 2 by norm_num]
  exact Real.sqrt_sq (by norm_num)

/-- C1, evaluated on the code: for the unit normal `(4/5, 3/5, 0)` (first branch,
`|n.x| > |n.y|`, with `n.y ≠ 0`) `calculateContactBasis` stores the columns
`n`, `t0 = (0, 0, -1)` and `t1 = (0, 4/5, 0)`; the second tangent has squared
length `16/25`, not 1, and `t1 · n = 12/25`, not 0, so `contactToWorld` is not
orthonormal. -/
theorem calculateContactBasis_slanted_not_orthonormal :
    (slantedNormal ℝ).scalarProduct (slantedNormal ℝ) = 1
    ∧ ((contactWithNormal ℝ (slantedNormal ℝ)).calculateContactBasis Real.sqrt).contactToWorld
        = ⟨4 / 5, 0, 0, 3 / 5, 0, 4 / 5, 0, -1, 0⟩
    ∧ (contactTangent1 Real.sqrt (contactWithNormal ℝ (slantedNormal ℝ))).scalarProduct
        (contactTangent1 Real.sqrt (contactWithNormal ℝ (slantedNormal ℝ))) = 16 / 25
    ∧ (contactTangent1 Real.sqrt (contactWithNormal ℝ (slantedNormal ℝ))).scalarProduct
        (slantedNormal ℝ) = 12 / 25 := by
  have h2 : (0 : ℝ) * 0 + 4 / 5 * (4 / 5) = 16 / 25 := by norm_num
  have ha : |(4 / 5 : ℝ)| > |(3 / 5 : ℝ)| := by
    rw [abs_of_pos (by norm_num : (0:ℝ) < 4/5), abs_of_pos (by norm_num : (0:ℝ) < 3/5)]
    norm_num
  have t0 : contactTangent0 Real.sqrt (contactWithNormal ℝ (slantedNormal ℝ)) = ⟨0, 0, -1⟩ := by
    simp only [contactTangent0, contactWithNormal, slantedNormal, if_pos ha, h2, sqrt_sixteen_25]
    norm_num
  have t1 : contactTangent1 Real.sqrt (contactWithNormal ℝ (slantedNormal ℝ)) = ⟨0, 4 / 5, 0⟩ := by
    simp only [contactTangent1, t0]
    simp only [contactWithNormal, slantedNormal, if_pos ha]
    norm_num
  refine ⟨?_, ?_, ?_, ?_⟩
  · norm_num [slantedNormal, Vector3.scalarProduct]
  · simp only [calculateContactBasis, t0, t1]
    simp [contactWithNormal, slantedNormal, Matrix3.setComponents]
  · rw [t1]; norm_num [Vector3.scalarProduct]
  · rw [t1]; norm_num [Vector3.scalarProduct, slantedNormal]

end Chaos
namespace Chaos

open Contact

section

variable {α : Type} [LinearOrderedField α]

/-- C2, evaluated on the code: for the unit normal `(4/5, 3/5, 0)` the second
tangent computed in the first branch of `calculateContactBasis` differs from the
cross product `n × t0` (in its `x` component), and the determinant of the basis
`(n, t0, t1)` is `16/25`, not 1. -/
theorem contactTangent1_slanted_ne_vectorProduct :
    contactTangent1 Real.sqrt (contactWithNormal ℝ (slantedNormal ℝ))
        ≠ (slantedNormal ℝ).vectorProduct
            (contactTangent0 Real.sqrt (contactWithNormal ℝ (slantedNormal ℝ)))
    ∧ ((contactWithNormal ℝ (slantedNormal ℝ)).calculateContactBasis
          Real.sqrt).contactToWorld.det = 16 / 25 := by
  have h2 : (0 : ℝ) * 0 + 4 / 5 * (4 / 5) = 16 / 25 := by norm_num
  have ha : |(4 / 5 : ℝ)| > |(3 / 5 : ℝ)| := by
    rw [abs_of_pos (by norm_num : (0:ℝ) < 4/5), abs_of_pos (by norm_num : (0:ℝ) < 3/5)]
    norm_num
  have t0 : contactTangent0 Real.sqrt (contactWithNormal ℝ (slantedNormal ℝ)) = ⟨0, 0, -1⟩ := by
    simp only [contactTangent0, contactWithNormal, slantedNormal, if_pos ha, h2, sqrt_sixteen_25]
    norm_num
  have t1 : contactTangent1 Real.sqrt (contactWithNormal ℝ (slantedNormal ℝ)) = ⟨0, 4 / 5, 0⟩ := by
    simp only [contactTangent1, t0]
    simp only [contactWithNormal, slantedNormal, if_pos ha]
    norm_num
  constructor
  · rw [t1, t0]
    intro h
    have hx := congrArg Vector3.x h
    norm_num [Vector3.vectorProduct, slantedNormal] at hx
  · simp only [calculateContactBasis, t0, t1]
    norm_num [contactWithNormal, slantedNormal, Matrix3.setComponents, Matrix3.det]

theorem calculateDesiredDeltaVelocity_resting (c : Contact α) (bodies : Bodies α)
    (duration : α) (p0 : Nat) (h0 : c.body 0 = some p0)
    (h : |c.contactVelocity.x| < 1 / 4) :
    c.calculateDesiredDeltaVelocity bodies duration
      = some { c with desiredDeltaVelocity := -c.contactVelocity.x } := by
  simp only [calculateDesiredDeltaVelocity, h0, velocityLimit, if_pos h, zero_mul, sub_zero]

theorem calculateDesiredDeltaVelocity_moving (c : Contact α) (bodies : Bodies α)
    (duration : α) (p0 : Nat) (h0 : c.body 0 = some p0)
    (h : 1 / 4 ≤ |c.contactVelocity.x|) :
    c.calculateDesiredDeltaVelocity bodies duration
      = some { c with
          desiredDeltaVelocity :=
            -c.contactVelocity.x
              - c.restitution * (c.contactVelocity.x - velocityFromAcc c bodies p0 duration) } := by
  simp only [calculateDesiredDeltaVelocity, h0, velocityLimit, if_neg (not_lt.mpr h)]

theorem velocityFromAcc_eq (c : Contact α) (bodies : Bodies α) (p0 : Nat) (duration : α) :
    velocityFromAcc c bodies p0 duration
      = (if (bodies p0).isAwake then
            duration * (bodies p0).lastFrameAcceleration.scalarProduct c.contactNormal
          else 0)
        - (match c.body 1 with
            | some p1 =>
              if (bodies p1).isAwake then
                duration * (bodies p1).lastFrameAcceleration.scalarProduct c.contactNormal
              else 0
            | none => 0) := by
  unfold velocityFromAcc
  cases c.body 1 with
  | none =>
    by_cases ha : (bodies p0).isAwake = true
    · simp only [ha, if_true, Vector3.scale, Vector3.scalarProduct]; ring
    · simp only [ha, if_false]; simp
  | some p1 =>
    by_cases ha : (bodies p0).isAwake = true <;> by_cases hb : (bodies p1).isAwake = true
    · simp only [ha, hb, if_true, Vector3.scale, Vector3.scalarProduct]; ring
    · simp only [ha, hb, if_true, if_false, Vector3.scale, Vector3.scalarProduct]; simp; ring
    · simp only [ha, hb, if_true, if_false, Vector3.scale, Vector3.scalarProduct]; simp; ring
    · simp only [ha, hb, if_false]; simp

/-- C3: with `body[0]` present, if `|contactVelocity.x| < 0.25` then
`calculateDesiredDeltaVelocity` only sets `desiredDeltaVelocity`, to
`-contactVelocity.x`, whatever the restitution, duration, accelerations and awake
states; if `|contactVelocity.x| ≥ 0.25` it sets it with the configured restitution,
to `-contactVelocity.x - restitution * (contactVelocity.x - velocityFromAcc)`. -/
theorem calculateDesiredDeltaVelocity_dead_zone (c : Contact α) (bodies : Bodies α)
    (duration : α) (p0 : Nat) (h0 : c.body 0 = some p0) :
    (|c.contactVelocity.x| < 1 / 4 →
      c.calculateDesiredDeltaVelocity bodies duration
        = some { c with desiredDeltaVelocity := -c.contactVelocity.x })
    ∧ (1 / 4 ≤ |c.contactVelocity.x| →
      c.calculateDesiredDeltaVelocity bodies duration
        = some { c with
            desiredDeltaVelocity :=
              -c.contactVelocity.x
                - c.restitution * (c.contactVelocity.x - velocityFromAcc c bodies p0 duration) }) :=
  ⟨calculateDesiredDeltaVelocity_resting c bodies duration p0 h0,
   calculateDesiredDeltaVelocity_moving c bodies duration p0 h0⟩

/-- The dead zone on the spec's numbers: `contactVelocity.x = 0.1` gives
`-0.1` (restitution `0.5` ignored), `contactVelocity.x = 0.3` keeps the
restitution term. -/
theorem calculateDesiredDeltaVelocity_dead_zone_witness :
    (closingContact ℚ (1 / 2) (1 / 10)).body 0 = some 0
    ∧ |(closingContact ℚ (1 / 2) (1 / 10)).contactVelocity.x| < 1 / 4
    ∧ ((closingContact ℚ (1 / 2) (1 / 10)).calculateDesiredDeltaVelocity
          (acceleratedBodies ℚ ⟨1, 2, 3⟩) 1).map Contact.desiredDeltaVelocity = some (-(1 / 10))
    ∧ 1 / 4 ≤ |(closingContact ℚ (1 / 2) (3 / 10)).contactVelocity.x|
    ∧ ((closingContact ℚ (1 / 2) (3 / 10)).calculateDesiredDeltaVelocity
          (acceleratedBodies ℚ ⟨1, 2, 3⟩) 1).map Contact.desiredDeltaVelocity
        = some (-(3 / 10) - 1 / 2 * (3 / 10 - 1)) := by
  have h1 : |(closingContact ℚ (1 / 2) (1 / 10)).contactVelocity.x| < 1 / 4 := by
    norm_num [closingContact, abs_of_nonneg]
  have h2 : 1 / 4 ≤ |(closingContact ℚ (1 / 2) (3 / 10)).contactVelocity.x| := by
    norm_num [closingContact, abs_of_nonneg]
  refine ⟨rfl, h1, ?_, h2, ?_⟩
  · rw [(calculateDesiredDeltaVelocity_dead_zone (closingContact ℚ (1 / 2) (1 / 10))
      (acceleratedBodies ℚ ⟨1, 2, 3⟩) 1 0 rfl).1 h1]
    simp [closingContact]
  · rw [(calculateDesiredDeltaVelocity_dead_zone (closingContact ℚ (1 / 2) (3 / 10))
      (acceleratedBodies ℚ ⟨1, 2, 3⟩) 1 0 rfl).2 h2]
    norm_num [closingContact, velocityFromAcc, acceleratedBodies, pointBody,
      Vector3.scale, Vector3.scalarProduct]

/-- C4: with `body[0]` present and `|contactVelocity.x| ≥ 0.25`,
`calculateDesiredDeltaVelocity` sets `desiredDeltaVelocity` to
`-contactVelocity.x - restitution * (contactVelocity.x - velocityFromAcc)` where
`velocityFromAcc` is `duration * (a0 · n)` if body 0 is awake (else 0) minus
`duration * (a1 · n)` if body 1 is present and awake (else 0); no other field of the
contact changes. -/
theorem calculateDesiredDeltaVelocity_restitution (c : Contact α) (bodies : Bodies α)
    (duration : α) (p0 : Nat) (h0 : c.body 0 = some p0)
    (h : 1 / 4 ≤ |c.contactVelocity.x|) :
    ∃ c', c.calculateDesiredDeltaVelocity bodies duration = some c'
      ∧ c'.desiredDeltaVelocity
          = -c.contactVelocity.x
            - c.restitution *
              (c.contactVelocity.x -
                ((if (bodies p0).isAwake then
                    duration * (bodies p0).lastFrameAcceleration.scalarProduct c.contactNormal
                  else 0)
                 - (match c.body 1 with
                    | some p1 =>
                      if (bodies p1).isAwake then
                        duration
                          * (bodies p1).lastFrameAcceleration.scalarProduct c.contactNormal
                      else 0
                    | none => 0)))
      ∧ c' = { c with desiredDeltaVelocity := c'.desiredDeltaVelocity } := by
  refine ⟨_, calculateDesiredDeltaVelocity_moving c bodies duration p0 h0 h, ?_, rfl⟩
  simp only [velocityFromAcc_eq]

/-- The restitution formula on concrete numbers: body 0 awake with
acceleration `(1, 2, 3)`, body 1 asleep, duration 2, `contactVelocity.x = 0.3`,
restitution `0.5`: the result is `-0.3 - 0.5 * (0.3 - 2) = 11/20`. -/
theorem calculateDesiredDeltaVelocity_restitution_witness :
    (closingContact ℚ (1 / 2) (3 / 10)).body 0 = some 0
    ∧ 1 / 4 ≤ |(closingContact ℚ (1 / 2) (3 / 10)).contactVelocity.x|
    ∧ ∃ c', (closingContact ℚ (1 / 2) (3 / 10)).calculateDesiredDeltaVelocity
          (acceleratedBodies ℚ ⟨1, 2, 3⟩) 2 = some c'
        ∧ c'.desiredDeltaVelocity = 11 / 20 := by
  have h2 : 1 / 4 ≤ |(closingContact ℚ (1 / 2) (3 / 10)).contactVelocity.x| := by
    norm_num [closingContact, abs_of_nonneg]
  obtain ⟨c', hc, hd, _⟩ := calculateDesiredDeltaVelocity_restitution
    (closingContact ℚ (1 / 2) (3 / 10)) (acceleratedBodies ℚ ⟨1, 2, 3⟩) 2 0 rfl h2
  refine ⟨rfl, h2, c', hc, ?_⟩
  rw [hd]
  norm_num [closingContact, acceleratedBodies, pointBody, Vector3.scalarProduct]

end

end Chaos
namespace Chaos

open Contact

theorem update_inverseMass {β : Type} (bodies : Bodies β) (p q : Nat) (b : RigidBody β)
    (hb : b.inverseMass = (bodies p).inverseMass) :
    (Function.update bodies p b q).inverseMass = (bodies q).inverseMass := by
  by_cases h : q = p
  · subst h; simp [hb]
  · simp [Function.update_noteq h]

section

variable {α : Type} [LinearOrderedField α]

theorem calculateContactBasis_fields (real_sqrt : α → α) (c : Contact α) :
    (c.calculateContactBasis real_sqrt).body = c.body
    ∧ (c.calculateContactBasis real_sqrt).friction = c.friction
    ∧ (c.calculateContactBasis real_sqrt).contactNormal = c.contactNormal
    ∧ (c.calculateContactBasis real_sqrt).relativeContactPosition = c.relativeContactPosition
    ∧ (c.calculateContactBasis real_sqrt).desiredDeltaVelocity = c.desiredDeltaVelocity
    ∧ (c.calculateContactBasis real_sqrt).contactVelocity = c.contactVelocity
    ∧ (c.calculateContactBasis real_sqrt).contactToWorld.d0 = c.contactNormal.x
    ∧ (c.calculateContactBasis real_sqrt).contactToWorld.d3 = c.contactNormal.y
    ∧ (c.calculateContactBasis real_sqrt).contactToWorld.d6 = c.contactNormal.z :=
  ⟨rfl, rfl, rfl, rfl, rfl, rfl, rfl, rfl, rfl⟩

theorem update_velocity_inverseMass (bodies : Bodies α) (p q : Nat) (v w : Vector3 α) :
    (Function.update bodies p (((bodies p).addVelocity v).addRotation w) q).inverseMass
      = (bodies q).inverseMass :=
  update_inverseMass bodies p q _ rfl

/-- C5: for a frictionless contact with `body[0]` present, unit normal and basis
built by `calculateContactBasis`, whose denominator
`D = Σ_i inverseMass_i + n · ((I_i⁻¹ (r_i × n)) × r_i)` over the present bodies is
not zero, `calculateFrictionlessImpulse` returns `(desiredDeltaVelocity / D, 0, 0)`
and the changes returned by `applyVelocityChange` satisfy
`n · [(Δv0 + Δω0 × r0) - (Δv1 + Δω1 × r1)] = desiredDeltaVelocity`, the body-1 term
being zero when `body[1]` is absent. -/
theorem frictionless_impulse_changes_normal_velocity (real_sqrt : α → α) (c0 : Contact α)
    (bodies : Bodies α) (velocityChange rotationChange : Fin 2 → Vector3 α) (p0 : Nat) (D : α)
    (h0 : c0.body 0 = some p0) (hf : c0.friction = 0)
    (hn : c0.contactNormal.scalarProduct c0.contactNormal = 1)
    (hD : D = (bodies p0).inverseMass
        + c0.contactNormal.scalarProduct
            (((bodies p0).inverseInertiaTensorWorld.transform
              ((c0.relativeContactPosition 0).vectorProduct c0.contactNormal)).vectorProduct
              (c0.relativeContactPosition 0))
        + (match c0.body 1 with
            | none => 0
            | some p1 => (bodies p1).inverseMass
                + c0.contactNormal.scalarProduct
                  (((bodies p1).inverseInertiaTensorWorld.transform
                    ((c0.relativeContactPosition 1).vectorProduct
                      c0.contactNormal)).vectorProduct (c0.relativeContactPosition 1))))
    (hD0 : D ≠ 0) :
    (c0.calculateContactBasis real_sqrt).calculateFrictionlessImpulse bodies
        ((c0.calculateContactBasis real_sqrt).inverseInertiaTensors bodies p0)
      = some ⟨c0.desiredDeltaVelocity / D, 0, 0⟩
    ∧ ∃ a, (c0.calculateContactBasis real_sqrt).applyVelocityChange real_sqrt bodies
          velocityChange rotationChange = some a
        ∧ c0.contactNormal.scalarProduct
            (((a.linear 0).add
                ((a.angular 0).vectorProduct (c0.relativeContactPosition 0))).sub
              (match c0.body 1 with
                | none => Vector3.clear
                | some _ => (a.linear 1).add
                    ((a.angular 1).vectorProduct (c0.relativeContactPosition 1))))
          = c0.desiredDeltaVelocity := by
  obtain ⟨hb, hfr, hcn, hr, hd, -, h0', h3', h6'⟩ := calculateContactBasis_fields real_sqrt c0
  generalize c0.calculateContactBasis real_sqrt = c at *
  have hDc : c.frictionlessDeltaVelocity bodies (c.inverseInertiaTensors bodies p0) p0 = D := by
    rw [hD]
    simp only [frictionlessDeltaVelocity, inverseInertiaTensors, angularTerm, hb, hcn, hr]
    cases c0.body 1 with
    | none => simp [Vector3.scalarProduct]; ring
    | some p1 => simp [Vector3.scalarProduct]; ring
  have himp : c.calculateFrictionlessImpulse bodies (c.inverseInertiaTensors bodies p0)
      = some ⟨c0.desiredDeltaVelocity / D, 0, 0⟩ := by
    simp only [calculateFrictionlessImpulse, hb, h0, hDc, hd]
  refine ⟨himp, ?_⟩
  have hj : c0.desiredDeltaVelocity / D * D = c0.desiredDeltaVelocity :=
    div_mul_cancel₀ _ hD0
  simp only [Vector3.scalarProduct] at hn
  simp only [applyVelocityChange, hb, h0, hfr, hf, if_true, himp]
  generalize c0.desiredDeltaVelocity / D = j at hj
  rw [hD] at hj
  cases h1 : c0.body 1 with
  | none =>
    rw [h1] at hj
    refine ⟨_, rfl, ?_⟩
    simp [inverseInertiaTensors, hr, Vector3.scalarProduct, Vector3.add, Vector3.sub,
      Vector3.vectorProduct, Vector3.clear, Vector3.addScaledVector, Matrix3.transform,
      h0', h3', h6'] at hj ⊢
    linear_combination hj + j * (bodies p0).inverseMass * hn
  | some p1 =>
    rw [h1] at hj
    refine ⟨_, rfl, ?_⟩
    simp [inverseInertiaTensors, hr, hb, h1, Vector3.scalarProduct, Vector3.add, Vector3.sub,
      Vector3.vectorProduct, Vector3.clear, Vector3.addScaledVector, Matrix3.transform,
      h0', h3', h6', update_velocity_inverseMass] at hj ⊢
    linear_combination hj + j * ((bodies p0).inverseMass + (bodies p1).inverseMass) * hn

/-- The frictionless impulse on a contact with angular coupling: `D = 3`,
`desiredDeltaVelocity = 3`, and the normal relative velocity changes by 3. -/
theorem frictionless_impulse_changes_normal_velocity_witness :
    (leverContact ℚ).body 0 = some 0
    ∧ (leverContact ℚ).friction = 0
    ∧ (leverContact ℚ).contactNormal.scalarProduct (leverContact ℚ).contactNormal = 1
    ∧ ((leverContact ℚ).calculateContactBasis sqrtQ).calculateFrictionlessImpulse
          (unitBodies ℚ)
          (((leverContact ℚ).calculateContactBasis sqrtQ).inverseInertiaTensors
            (unitBodies ℚ) 0)
        = some ⟨3 / 3, 0, 0⟩
    ∧ ∃ a, ((leverContact ℚ).calculateContactBasis sqrtQ).applyVelocityChange sqrtQ
          (unitBodies ℚ) (fun _ => Vector3.clear) (fun _ => Vector3.clear) = some a
        ∧ (leverContact ℚ).contactNormal.scalarProduct
            (((a.linear 0).add
                ((a.angular 0).vectorProduct ((leverContact ℚ).relativeContactPosition 0))).sub
              ((a.linear 1).add
                ((a.angular 1).vectorProduct ((leverContact ℚ).relativeContactPosition 1))))
          = 3 := by
  have hn : (leverContact ℚ).contactNormal.scalarProduct (leverContact ℚ).contactNormal = 1 := by
    norm_num [leverContact, Vector3.scalarProduct]
  have h := frictionless_impulse_changes_normal_velocity sqrtQ (leverContact ℚ) (unitBodies ℚ)
    (fun _ => Vector3.clear) (fun _ => Vector3.clear) 0 3 rfl rfl hn
    (by norm_num [leverContact, unitBodies, pointBody, Vector3.scalarProduct,
          Vector3.vectorProduct, Matrix3.transform, Vector3.clear])
    (by norm_num)
  exact ⟨rfl, rfl, hn, h.1, h.2⟩

end

end Chaos
namespace Chaos

open Contact

section

variable {α : Type} [LinearOrderedField α]

theorem transform_clear (m : Matrix3 α) : m.transform Vector3.clear = Vector3.clear := by
  simp [Matrix3.transform, Vector3.clear]

theorem angularTerm_of_vectorProduct_eq_clear (c : Contact α) (m : Matrix3 α) (i : Fin 2)
    (h : (c.relativeContactPosition i).vectorProduct c.contactNormal = Vector3.clear) :
    c.angularTerm m i = 0 := by
  simp only [angularTerm, h, transform_clear]
  simp [Vector3.vectorProduct, Vector3.scalarProduct, Vector3.clear]

theorem applyVelocityChange_no_coupling (real_sqrt : α → α) (c : Contact α)
    (bodies : Bodies α) (velocityChange rotationChange : Fin 2 → Vector3 α) (p0 p1 : Nat)
    (h0 : c.body 0 = some p0) (h1 : c.body 1 = some p1) (hf : c.friction = 0)
    (hcol : c.contactToWorld.d0 = c.contactNormal.x ∧ c.contactToWorld.d3 = c.contactNormal.y
      ∧ c.contactToWorld.d6 = c.contactNormal.z)
    (hr0 : (c.relativeContactPosition 0).vectorProduct c.contactNormal = Vector3.clear)
    (hr1 : (c.relativeContactPosition 1).vectorProduct c.contactNormal = Vector3.clear) :
    c.calculateFrictionlessImpulse bodies (c.inverseInertiaTensors bodies p0)
        = some ⟨c.desiredDeltaVelocity / ((bodies p0).inverseMass + (bodies p1).inverseMass),
            0, 0⟩
    ∧ ∃ a, c.applyVelocityChange real_sqrt bodies velocityChange rotationChange = some a
      ∧ a.linear 0
          = c.contactNormal.scale
              (c.desiredDeltaVelocity / ((bodies p0).inverseMass + (bodies p1).inverseMass)
                * (bodies p0).inverseMass)
      ∧ a.linear 1
          = c.contactNormal.scale
              (-(c.desiredDeltaVelocity / ((bodies p0).inverseMass + (bodies p1).inverseMass)
                * (bodies p1).inverseMass))
      ∧ a.angular 0 = Vector3.clear ∧ a.angular 1 = Vector3.clear := by
  obtain ⟨h0', h3', h6'⟩ := hcol
  have ha0 := angularTerm_of_vectorProduct_eq_clear c (bodies p0).inverseInertiaTensorWorld 0 hr0
  have ha1 := angularTerm_of_vectorProduct_eq_clear c (bodies p1).inverseInertiaTensorWorld 1 hr1
  simp only [angularTerm] at ha0 ha1
  simp only [Vector3.vectorProduct, Vector3.clear, Vector3.mk.injEq] at hr0 hr1
  obtain ⟨hx0, hy0, hz0⟩ := hr0
  obtain ⟨hx1, hy1, hz1⟩ := hr1
  simp only [applyVelocityChange, calculateFrictionlessImpulse, frictionlessDeltaVelocity,
    inverseInertiaTensors, angularTerm, h0, h1, hf, if_true,
    Matrix.cons_val_zero, Matrix.cons_val_one, Matrix.head_cons, ha0, ha1, zero_add,
    add_zero, true_and]
  generalize c.desiredDeltaVelocity / ((bodies p0).inverseMass + (bodies p1).inverseMass) = j
  refine ⟨_, rfl, ?_, ?_, ?_, ?_⟩
  · simp [Vector3.addScaledVector, Vector3.clear, Vector3.scale, Matrix3.transform,
      h0', h3', h6']
    refine ⟨?_, ?_, ?_⟩ <;> ring
  · simp [Vector3.addScaledVector, Vector3.clear, Vector3.scale, Matrix3.transform,
      h0', h3', h6', update_velocity_inverseMass]
    refine ⟨?_, ?_, ?_⟩ <;> ring
  · have e : (c.relativeContactPosition 0).vectorProduct
        (c.contactToWorld.transform ⟨j, 0, 0⟩) = Vector3.clear := by
      simp only [Vector3.vectorProduct, Vector3.clear, Matrix3.transform, h0', h3', h6',
        Vector3.mk.injEq]
      refine ⟨?_, ?_, ?_⟩
      · linear_combination j * hx0
      · linear_combination j * hy0
      · linear_combination j * hz0
    simp [e, transform_clear]
  · have e : (c.contactToWorld.transform ⟨j, 0, 0⟩).vectorProduct
        (c.relativeContactPosition 1) = Vector3.clear := by
      simp only [Vector3.vectorProduct, Vector3.clear, Matrix3.transform, h0', h3', h6',
        Vector3.mk.injEq]
      refine ⟨?_, ?_, ?_⟩
      · linear_combination (-j) * hx1
      · linear_combination (-j) * hy1
      · linear_combination (-j) * hz1
    simp [e, transform_clear]

/-- C6: for a two-body frictionless contact with `r_i × n = 0` for both bodies,
zero acceleration bias (`velocityFromAcc = 0`) and `|contactVelocity.x| ≥ 0.25`,
after `calculateContactBasis` and `calculateDesiredDeltaVelocity` the desired change
is `-(1 + restitution) * contactVelocity.x`, the frictionless impulse is
`(j, 0, 0)` with `j = desiredDeltaVelocity / (inverseMass0 + inverseMass1)`, and
`applyVelocityChange` returns `velocityChange[0] = j * inverseMass0 * n`,
`velocityChange[1] = -j * inverseMass1 * n` and zero rotation changes. -/
theorem frictionless_two_body_scenario (real_sqrt : α → α) (c0 : Contact α)
    (bodies : Bodies α) (duration : α) (velocityChange rotationChange : Fin 2 → Vector3 α)
    (p0 p1 : Nat)
    (h0 : c0.body 0 = some p0) (h1 : c0.body 1 = some p1) (hf : c0.friction = 0)
    (hr0 : (c0.relativeContactPosition 0).vectorProduct c0.contactNormal = Vector3.clear)
    (hr1 : (c0.relativeContactPosition 1).vectorProduct c0.contactNormal = Vector3.clear)
    (hacc : velocityFromAcc c0 bodies p0 duration = 0)
    (hv : 1 / 4 ≤ |c0.contactVelocity.x|) :
    ∃ c a,
      (c0.calculateContactBasis real_sqrt).calculateDesiredDeltaVelocity bodies duration = some c
      ∧ c.desiredDeltaVelocity = -(1 + c0.restitution) * c0.contactVelocity.x
      ∧ c.calculateFrictionlessImpulse bodies (c.inverseInertiaTensors bodies p0)
          = some ⟨c.desiredDeltaVelocity / ((bodies p0).inverseMass + (bodies p1).inverseMass),
              0, 0⟩
      ∧ c.applyVelocityChange real_sqrt bodies velocityChange rotationChange = some a
      ∧ a.linear 0
          = c0.contactNormal.scale
              (c.desiredDeltaVelocity / ((bodies p0).inverseMass + (bodies p1).inverseMass)
                * (bodies p0).inverseMass)
      ∧ a.linear 1
          = c0.contactNormal.scale
              (-(c.desiredDeltaVelocity / ((bodies p0).inverseMass + (bodies p1).inverseMass)
                * (bodies p1).inverseMass))
      ∧ a.angular 0 = Vector3.clear ∧ a.angular 1 = Vector3.clear := by
  have hstep := calculateDesiredDeltaVelocity_moving (c0.calculateContactBasis real_sqrt)
    bodies duration p0 h0 hv
  have hvfa : velocityFromAcc (c0.calculateContactBasis real_sqrt) bodies p0 duration = 0 :=
    hacc
  rw [hvfa, sub_zero] at hstep
  obtain ⟨hi, a, ha, hl0, hl1, ha0, ha1⟩ := applyVelocityChange_no_coupling real_sqrt
    { c0.calculateContactBasis real_sqrt with
      desiredDeltaVelocity :=
        -(c0.calculateContactBasis real_sqrt).contactVelocity.x
          - (c0.calculateContactBasis real_sqrt).restitution
            * (c0.calculateContactBasis real_sqrt).contactVelocity.x }
    bodies velocityChange rotationChange p0 p1 h0 h1 hf ⟨rfl, rfl, rfl⟩ hr0 hr1
  refine ⟨_, a, hstep, ?_, hi, ha, hl0, hl1, ha0, ha1⟩
  show -c0.contactVelocity.x - c0.restitution * c0.contactVelocity.x
    = -(1 + c0.restitution) * c0.contactVelocity.x
  ring

/-- The spec's worked scenario: `contactVelocity.x = -2`, restitution `0.5`, unit
inverse masses: desired change 3, impulse `1.5`, velocity changes `+1.5 n` and
`-1.5 n`, no rotation change. -/
theorem frictionless_two_body_scenario_witness :
    ∃ c a,
      ((closingContact ℚ (1 / 2) (-2)).calculateContactBasis sqrtQ).calculateDesiredDeltaVelocity
          (fun _ => pointBody ℚ 1) 0 = some c
      ∧ c.desiredDeltaVelocity = 3
      ∧ c.calculateFrictionlessImpulse (fun _ => pointBody ℚ 1)
          (c.inverseInertiaTensors (fun _ => pointBody ℚ 1) 0) = some ⟨3 / 2, 0, 0⟩
      ∧ c.applyVelocityChange sqrtQ (fun _ => pointBody ℚ 1) (fun _ => Vector3.clear)
          (fun _ => Vector3.clear) = some a
      ∧ a.linear 0 = ⟨3 / 2, 0, 0⟩ ∧ a.linear 1 = ⟨-(3 / 2), 0, 0⟩
      ∧ a.angular 0 = Vector3.clear ∧ a.angular 1 = Vector3.clear := by
  obtain ⟨c, a, hc, hd, hi, ha, hl0, hl1, ha0, ha1⟩ := frictionless_two_body_scenario sqrtQ
    (closingContact ℚ (1 / 2) (-2)) (fun _ => pointBody ℚ 1) 0 (fun _ => Vector3.clear)
    (fun _ => Vector3.clear) 0 1 rfl rfl rfl
    (by simp [closingContact, Vector3.vectorProduct, Vector3.clear])
    (by simp [closingContact, Vector3.vectorProduct, Vector3.clear])
    (by simp [velocityFromAcc, closingContact, pointBody, Vector3.clear, Vector3.scale,
          Vector3.scalarProduct])
    (by norm_num [closingContact, abs_of_nonneg])
  have hd3 : c.desiredDeltaVelocity = 3 := by
    rw [hd]; norm_num [closingContact]
  rw [hd3] at hl0 hl1 hi
  refine ⟨c, a, hc, hd3, ?_, ha, ?_, ?_, ha0, ha1⟩
  · rw [hi]; norm_num [pointBody]
  · rw [hl0]; norm_num [closingContact, pointBody, Vector3.scale]
  · rw [hl1]; norm_num [closingContact, pointBody, Vector3.scale]

end

end Chaos
namespace Chaos

open Contact

section

variable {α : Type} [LinearOrderedField α]

theorem Matrix3.transform_inverse (m : Matrix3 α) (v : Vector3 α) (h : m.det ≠ 0) :
    m.transform (m.inverse.transform v) = v := by
  have h' := h
  simp only [Matrix3.det] at h'
  simp only [Matrix3.inverse, if_neg h, Matrix3.transform]
  ext
  · simp only [Matrix3.det]; field_simp; ring
  · simp only [Matrix3.det]; field_simp; ring
  · simp only [Matrix3.det]; field_simp; ring

theorem unclampedImpulse_of_det_eq_zero (c : Contact α) (m : Matrix3 α) (h : m.det = 0) :
    c.unclampedImpulse m = Vector3.clear := by
  simp [unclampedImpulse, Matrix3.inverse, h, Matrix3.zero, Matrix3.transform, Vector3.clear]

theorem transform_unclampedImpulse (c : Contact α) (m : Matrix3 α) (h : m.det ≠ 0) :
    m.transform (c.unclampedImpulse m)
      = ⟨c.desiredDeltaVelocity, -c.contactVelocity.y, -c.contactVelocity.z⟩ :=
  Matrix3.transform_inverse m _ h

end

theorem clampImpulse_on_cone (c : Contact ℝ) (m : Matrix3 ℝ) (j : Vector3 ℝ)
    (hf : 0 < c.friction) (hd : 0 < c.desiredDeltaVelocity) (hd0 : 0 < m.d0)
    (hrow : j.x * m.d0 + j.y * m.d1 + j.z * m.d2 = c.desiredDeltaVelocity)
    (hcone : Real.sqrt (j.y * j.y + j.z * j.z) > j.x * c.friction) :
    0 < (c.clampImpulse Real.sqrt m j).x
    ∧ Real.sqrt ((c.clampImpulse Real.sqrt m j).y * (c.clampImpulse Real.sqrt m j).y
          + (c.clampImpulse Real.sqrt m j).z * (c.clampImpulse Real.sqrt m j).z)
        = c.friction * (c.clampImpulse Real.sqrt m j).x
    ∧ (c.clampImpulse Real.sqrt m j).y / (c.friction * (c.clampImpulse Real.sqrt m j).x)
        = j.y / Real.sqrt (j.y * j.y + j.z * j.z)
    ∧ (c.clampImpulse Real.sqrt m j).z / (c.friction * (c.clampImpulse Real.sqrt m j).x)
        = j.z / Real.sqrt (j.y * j.y + j.z * j.z) := by
  have hnn : 0 ≤ j.y * j.y + j.z * j.z :=
    add_nonneg (mul_self_nonneg _) (mul_self_nonneg _)
  set P := Real.sqrt (j.y * j.y + j.z * j.z) with hP
  have hP0 : 0 ≤ P := Real.sqrt_nonneg _
  have hPsq : P * P = j.y * j.y + j.z * j.z := Real.mul_self_sqrt hnn
  have hPpos : 0 < P := by
    rcases hP0.lt_or_eq with h | h
    · exact h
    · exfalso
      have hz : j.y * j.y + j.z * j.z = 0 := by rw [← hPsq, ← h]; ring
      have hy0 : j.y = 0 := by nlinarith [mul_self_nonneg j.y, mul_self_nonneg j.z]
      have hz0 : j.z = 0 := by nlinarith [mul_self_nonneg j.y, mul_self_nonneg j.z]
      rw [hy0, hz0] at hrow
      have hx : j.x < 0 := by
        by_contra hx
        push_neg at hx
        have := mul_nonneg hx hf.le
        linarith
      nlinarith
  set q := m.d1 * (j.y / P) + m.d2 * (j.z / P) with hq
  have hrow' : j.x * m.d0 + P * q = c.desiredDeltaVelocity := by
    rw [← hrow, hq]; field_simp; ring
  have hden : 0 < m.d0 + c.friction * q := by
    by_cases hq0 : 0 ≤ q
    · have := mul_nonneg hf.le hq0
      linarith
    · push_neg at hq0
      have hx : 0 < j.x := by
        have : P * q < 0 := mul_neg_of_pos_of_neg hPpos hq0
        by_contra hx
        push_neg at hx
        nlinarith
      have h1 : P * q < j.x * c.friction * q := by
        have := mul_lt_mul_of_neg_right hcone hq0
        linarith
      have h2 : 0 < j.x * (m.d0 + c.friction * q) := by nlinarith
      exact (pos_iff_pos_of_mul_pos h2).mp hx
  have hunit : j.y / P * (j.y / P) + j.z / P * (j.z / P) = 1 := by
    field_simp
    linarith
  have hden' : m.d0 + m.d1 * c.friction * (j.y / P) + m.d2 * c.friction * (j.z / P)
      = m.d0 + c.friction * q := by rw [hq]; ring
  have hx' : 0 < c.desiredDeltaVelocity / (m.d0 + c.friction * q) := div_pos hd hden
  simp only [clampImpulse, ← hP, if_pos hcone, hden']
  set X := c.desiredDeltaVelocity / (m.d0 + c.friction * q) with hX
  have hfX : 0 < c.friction * X := mul_pos hf hx'
  refine ⟨hx', ?_, ?_, ?_⟩
  · have : j.y / P * (c.friction * X) * (j.y / P * (c.friction * X))
        + j.z / P * (c.friction * X) * (j.z / P * (c.friction * X))
        = (c.friction * X) * (c.friction * X) := by
      linear_combination (c.friction * X) * (c.friction * X) * hunit
    rw [this]
    exact Real.sqrt_mul_self hfX.le
  · field_simp; ring
  · field_simp; ring

theorem frictionDeltaVelocity_slidingContact (d vy : ℝ) :
    (slidingContact ℝ d vy).frictionDeltaVelocity (fun _ => pointBody ℝ 1)
        ((slidingContact ℝ d vy).inverseInertiaTensors (fun _ => pointBody ℝ 1) 0) 0
      = ⟨1, 0, 0, 0, 1, 0, 0, 0, 1⟩ := by
  simp [frictionDeltaVelocity, deltaVelWorldOf, inverseInertiaTensors, slidingContact,
    pointBody, Matrix3.mul, Matrix3.scale, Matrix3.transpose, Matrix3.setSkewSymmetric,
    Matrix3.zero, Vector3.clear]

theorem unclampedImpulse_identity (c : Contact ℝ) :
    c.unclampedImpulse ⟨1, 0, 0, 0, 1, 0, 0, 0, 1⟩
      = ⟨c.desiredDeltaVelocity, -c.contactVelocity.y, -c.contactVelocity.z⟩ := by
  simp [unclampedImpulse, Matrix3.inverse, Matrix3.det, Matrix3.transform]

/-- C7 fails as stated: for a contact with friction `1/2`, desired velocity
change `-1` and tangential contact velocity `-1` on a unit-inverse-mass body, the
unconstrained solution `(-1, 1, 0)` has tangential magnitude `1 > friction * (-1)`,
and `calculateFrictionImpulse` returns `(-1, -1/2, 0)`, whose tangential magnitude
`1/2` is not `friction * x' = -1/2`. -/
theorem calculateFrictionImpulse_negative_normal_impulse :
    (slidingContact ℝ (-1) (-1)).friction ≠ 0
    ∧ Real.sqrt
        (((slidingContact ℝ (-1) (-1)).unclampedImpulse
            ((slidingContact ℝ (-1) (-1)).frictionDeltaVelocity (fun _ => pointBody ℝ 1)
              ((slidingContact ℝ (-1) (-1)).inverseInertiaTensors (fun _ => pointBody ℝ 1) 0)
              0)).y
          * ((slidingContact ℝ (-1) (-1)).unclampedImpulse
            ((slidingContact ℝ (-1) (-1)).frictionDeltaVelocity (fun _ => pointBody ℝ 1)
              ((slidingContact ℝ (-1) (-1)).inverseInertiaTensors (fun _ => pointBody ℝ 1) 0)
              0)).y
          + ((slidingContact ℝ (-1) (-1)).unclampedImpulse
            ((slidingContact ℝ (-1) (-1)).frictionDeltaVelocity (fun _ => pointBody ℝ 1)
              ((slidingContact ℝ (-1) (-1)).inverseInertiaTensors (fun _ => pointBody ℝ 1) 0)
              0)).z
          * ((slidingContact ℝ (-1) (-1)).unclampedImpulse
            ((slidingContact ℝ (-1) (-1)).frictionDeltaVelocity (fun _ => pointBody ℝ 1)
              ((slidingContact ℝ (-1) (-1)).inverseInertiaTensors (fun _ => pointBody ℝ 1) 0)
              0)).z)
        > (slidingContact ℝ (-1) (-1)).friction
          * ((slidingContact ℝ (-1) (-1)).unclampedImpulse
            ((slidingContact ℝ (-1) (-1)).frictionDeltaVelocity (fun _ => pointBody ℝ 1)
              ((slidingContact ℝ (-1) (-1)).inverseInertiaTensors (fun _ => pointBody ℝ 1) 0)
              0)).x
    ∧ ∃ i, (slidingContact ℝ (-1) (-1)).calculateFrictionImpulse Real.sqrt
          (fun _ => pointBody ℝ 1)
          ((slidingContact ℝ (-1) (-1)).inverseInertiaTensors (fun _ => pointBody ℝ 1) 0)
          = some i
        ∧ i = ⟨-1, -(1 / 2), 0⟩
        ∧ Real.sqrt (i.y * i.y + i.z * i.z) ≠ (slidingContact ℝ (-1) (-1)).friction * i.x := by
  have hs : Real.sqrt (1 * 1 + 0 * 0) = 1 := by norm_num
  have hj : (slidingContact ℝ (-1) (-1)).unclampedImpulse ⟨1, 0, 0, 0, 1, 0, 0, 0, 1⟩
      = ⟨-1, 1, 0⟩ := by
    rw [unclampedImpulse_identity]; simp [slidingContact]
  rw [frictionDeltaVelocity_slidingContact, hj]
  refine ⟨by norm_num [slidingContact], ?_, ?_⟩
  · simp only [hs]; norm_num [slidingContact]
  · have hi : (slidingContact ℝ (-1) (-1)).calculateFrictionImpulse Real.sqrt
          (fun _ => pointBody ℝ 1)
          ((slidingContact ℝ (-1) (-1)).inverseInertiaTensors (fun _ => pointBody ℝ 1) 0)
          = some ⟨-1, -(1 / 2), 0⟩ := by
      have hb : (slidingContact ℝ (-1) (-1)).body 0 = some 0 := rfl
      simp only [calculateFrictionImpulse, hb, frictionDeltaVelocity_slidingContact, hj,
        clampImpulse, hs]
      norm_num [slidingContact]
    refine ⟨_, hi, rfl, ?_⟩
    have hnn : (0 : ℝ) ≤ Real.sqrt (-(1 / 2) * -(1 / 2) + 0 * 0) := Real.sqrt_nonneg _
    intro h
    rw [h] at hnn
    norm_num [slidingContact] at hnn

/-- C7, amended: for a contact with `body[0]` present, `friction > 0`,
`desiredDeltaVelocity > 0` and a positive entry `deltaVelocity.data[0]`, whenever the
unconstrained solution `j` has `sqrt(jy² + jz²) > friction * jx`, the impulse
returned by `calculateFrictionImpulse` satisfies `sqrt(y'² + z'²) = friction * x'`
and its tangential direction `(y', z') / sqrt(y'² + z'²)` equals
`(jy, jz) / sqrt(jy² + jz²)`. -/
theorem calculateFrictionImpulse_on_cone (c : Contact ℝ) (bodies : Bodies ℝ)
    (inverseInertiaTensor : Fin 2 → Matrix3 ℝ) (p0 : Nat) (j : Vector3 ℝ)
    (h0 : c.body 0 = some p0)
    (hj : j = c.unclampedImpulse (c.frictionDeltaVelocity bodies inverseInertiaTensor p0))
    (hf : 0 < c.friction) (hd : 0 < c.desiredDeltaVelocity)
    (hd0 : 0 < (c.frictionDeltaVelocity bodies inverseInertiaTensor p0).d0)
    (hcone : Real.sqrt (j.y * j.y + j.z * j.z) > c.friction * j.x) :
    ∃ i, c.calculateFrictionImpulse Real.sqrt bodies inverseInertiaTensor = some i
      ∧ Real.sqrt (i.y * i.y + i.z * i.z) = c.friction * i.x
      ∧ i.y / Real.sqrt (i.y * i.y + i.z * i.z) = j.y / Real.sqrt (j.y * j.y + j.z * j.z)
      ∧ i.z / Real.sqrt (i.y * i.y + i.z * i.z)
          = j.z / Real.sqrt (j.y * j.y + j.z * j.z) := by
  have hdet : (c.frictionDeltaVelocity bodies inverseInertiaTensor p0).det ≠ 0 := by
    intro hz
    rw [hj, unclampedImpulse_of_det_eq_zero c _ hz] at hcone
    simp [Vector3.clear] at hcone
  have hrow := congrArg Vector3.x (transform_unclampedImpulse c _ hdet)
  rw [← hj] at hrow
  simp only [Matrix3.transform] at hrow
  have hcone' : Real.sqrt (j.y * j.y + j.z * j.z) > j.x * c.friction := by
    rw [mul_comm j.x c.friction]; exact hcone
  obtain ⟨-, h1, h2, h3⟩ := clampImpulse_on_cone c _ j hf hd hd0 hrow hcone'
  have hres : c.calculateFrictionImpulse Real.sqrt bodies inverseInertiaTensor
      = some (c.clampImpulse Real.sqrt
          (c.frictionDeltaVelocity bodies inverseInertiaTensor p0) j) := by
    simp only [calculateFrictionImpulse, h0, ← hj]
  refine ⟨_, hres, h1, ?_, ?_⟩
  · rw [h1]; exact h2
  · rw [h1]; exact h3

/-- The clamp on concrete numbers: friction `1/2`, desired change 1, unconstrained
solution `(1, 2, 0)` outside the cone. -/
theorem calculateFrictionImpulse_on_cone_witness :
    ∃ i, (slidingContact ℝ 1 (-2)).calculateFrictionImpulse Real.sqrt
          (fun _ => pointBody ℝ 1)
          ((slidingContact ℝ 1 (-2)).inverseInertiaTensors (fun _ => pointBody ℝ 1) 0)
          = some i
      ∧ Real.sqrt (i.y * i.y + i.z * i.z) = (slidingContact ℝ 1 (-2)).friction * i.x
      ∧ i.y / Real.sqrt (i.y * i.y + i.z * i.z) = 2 / Real.sqrt (2 * 2 + 0 * 0)
      ∧ i.z / Real.sqrt (i.y * i.y + i.z * i.z) = 0 / Real.sqrt (2 * 2 + 0 * 0) := by
  have hs : Real.sqrt (2 * 2 + 0 * 0) = 2 := by
    rw [show (2 * 2 + 0 * 0 : ℝ) = 2 ^ 2 by norm_num]
    exact Real.sqrt_sq (by norm_num)
  exact calculateFrictionImpulse_on_cone (slidingContact ℝ 1 (-2)) (fun _ => pointBody ℝ 1)
    ((slidingContact ℝ 1 (-2)).inverseInertiaTensors (fun _ => pointBody ℝ 1) 0) 0 ⟨1, 2, 0⟩
    rfl
    (by rw [frictionDeltaVelocity_slidingContact, unclampedImpulse_identity]
        simp [slidingContact])
    (by norm_num [slidingContact])
    (by norm_num [slidingContact])
    (by rw [frictionDeltaVelocity_slidingContact]; norm_num)
    (by simp only [hs]; norm_num [slidingContact])

end Chaos
namespace Chaos

open Contact

section

variable {α : Type} [LinearOrderedField α]

set_option maxHeartbeats 4000000 in
theorem applyVelocityChange_friction_frame (real_sqrt : α → α) (c : Contact α)
    (bodies : Bodies α) (velocityChange rotationChange : Fin 2 → Vector3 α) (p0 : Nat)
    (j : Vector3 α)
    (h0 : c.body 0 = some p0) (hf : c.friction ≠ 0)
    (horth : c.contactToWorld.transpose.mul c.contactToWorld = ⟨1, 0, 0, 0, 1, 0, 0, 0, 1⟩)
    (himp : c.calculateFrictionImpulse real_sqrt bodies (c.inverseInertiaTensors bodies p0)
      = some j) :
    ∃ a, c.applyVelocityChange real_sqrt bodies velocityChange rotationChange = some a
      ∧ c.contactToWorld.transformTranspose
          (((a.linear 0).add
              ((a.angular 0).vectorProduct (c.relativeContactPosition 0))).sub
            (match c.body 1 with
              | none => Vector3.clear
              | some _ => (a.linear 1).add
                  ((a.angular 1).vectorProduct (c.relativeContactPosition 1))))
        = (c.frictionDeltaVelocity bodies (c.inverseInertiaTensors bodies p0) p0).transform j := by
  simp only [applyVelocityChange, h0, if_neg hf, himp]
  clear himp
  simp only [Matrix3.transpose, Matrix3.mul, Matrix3.mk.injEq] at horth
  obtain ⟨h00, h01, h02, h10, h11, h12, h20, h21, h22⟩ := horth
  cases h1 : c.body 1 with
  | none =>
    refine ⟨_, rfl, ?_⟩
    simp only [frictionDeltaVelocity, deltaVelWorldOf, inverseInertiaTensors, h1,
      Matrix.cons_val_zero, Function.update_same, Matrix3.transform,
      Matrix3.transformTranspose, Matrix3.mul, Matrix3.scale, Matrix3.transpose,
      Matrix3.setSkewSymmetric, Vector3.add, Vector3.sub, Vector3.vectorProduct,
      Vector3.clear, Vector3.addScaledVector, Vector3.mk.injEq]
    refine ⟨?_, ?_, ?_⟩
    · linear_combination (bodies p0).inverseMass * (j.x * h00 + j.y * h01 + j.z * h02)
    · linear_combination (bodies p0).inverseMass * (j.x * h10 + j.y * h11 + j.z * h12)
    · linear_combination (bodies p0).inverseMass * (j.x * h20 + j.y * h21 + j.z * h22)
  | some p1 =>
    refine ⟨_, rfl, ?_⟩
    simp only [frictionDeltaVelocity, deltaVelWorldOf, inverseInertiaTensors, h1,
      Matrix.cons_val_zero, Matrix.cons_val_one, Matrix.head_cons, Function.update_same,
      Function.update_idem, update_velocity_inverseMass, ne_eq, one_ne_zero,
      not_false_eq_true, Function.update_noteq, zero_ne_one, Matrix3.add,
      Matrix3.transform, Matrix3.transformTranspose, Matrix3.mul, Matrix3.scale,
      Matrix3.transpose, Matrix3.setSkewSymmetric, Vector3.add, Vector3.sub,
      Vector3.vectorProduct, Vector3.clear, Vector3.addScaledVector, Vector3.mk.injEq]
    refine ⟨?_, ?_, ?_⟩
    · linear_combination ((bodies p0).inverseMass + (bodies p1).inverseMass)
        * (j.x * h00 + j.y * h01 + j.z * h02)
    · linear_combination ((bodies p0).inverseMass + (bodies p1).inverseMass)
        * (j.x * h10 + j.y * h11 + j.z * h12)
    · linear_combination ((bodies p0).inverseMass + (bodies p1).inverseMass)
        * (j.x * h20 + j.y * h21 + j.z * h22)

/-- C8: for a contact with `body[0]` present, `friction ≠ 0`, orthonormal
`contactToWorld`, an invertible contact-frame matrix `deltaVelocity` and an
unconstrained solution `j` inside the friction cone (no clamping),
`calculateFrictionImpulse` returns `j` and the changes returned by
`applyVelocityChange` satisfy
`contactToWorldᵀ [(Δv0 + Δω0 × r0) - (Δv1 + Δω1 × r1)]
  = (desiredDeltaVelocity, -contactVelocity.y, -contactVelocity.z)`, the body-1 term
being zero when `body[1]` is absent. -/
theorem friction_impulse_kills_tangential_velocity (real_sqrt : α → α) (c : Contact α)
    (bodies : Bodies α) (velocityChange rotationChange : Fin 2 → Vector3 α) (p0 : Nat)
    (j : Vector3 α)
    (h0 : c.body 0 = some p0) (hf : c.friction ≠ 0)
    (horth : c.contactToWorld.transpose.mul c.contactToWorld = ⟨1, 0, 0, 0, 1, 0, 0, 0, 1⟩)
    (hdet : (c.frictionDeltaVelocity bodies (c.inverseInertiaTensors bodies p0) p0).det ≠ 0)
    (hj : j = c.unclampedImpulse
      (c.frictionDeltaVelocity bodies (c.inverseInertiaTensors bodies p0) p0))
    (hcone : ¬ real_sqrt (j.y * j.y + j.z * j.z) > j.x * c.friction) :
    c.calculateFrictionImpulse real_sqrt bodies (c.inverseInertiaTensors bodies p0) = some j
    ∧ ∃ a, c.applyVelocityChange real_sqrt bodies velocityChange rotationChange = some a
      ∧ c.contactToWorld.transformTranspose
          (((a.linear 0).add
              ((a.angular 0).vectorProduct (c.relativeContactPosition 0))).sub
            (match c.body 1 with
              | none => Vector3.clear
              | some _ => (a.linear 1).add
                  ((a.angular 1).vectorProduct (c.relativeContactPosition 1))))
        = ⟨c.desiredDeltaVelocity, -c.contactVelocity.y, -c.contactVelocity.z⟩ := by
  have hMj := transform_unclampedImpulse c _ hdet
  rw [← hj] at hMj
  have himp : c.calculateFrictionImpulse real_sqrt bodies (c.inverseInertiaTensors bodies p0)
      = some j := by
    simp only [calculateFrictionImpulse, h0, ← hj, clampImpulse, if_neg hcone]
  obtain ⟨a, ha, hv⟩ := applyVelocityChange_friction_frame real_sqrt c bodies velocityChange
    rotationChange p0 j h0 hf horth himp
  exact ⟨himp, a, ha, hv.trans hMj⟩

end

/-- The exact friction solve on a two-body contact with angular coupling: the
contact-frame matrix is `diag(3, 2, 3)`, the impulse `(4, 3, 0)` lies inside the
cone, and the contact-frame velocity changes by `(12, 6, 0)`. -/
theorem friction_impulse_kills_tangential_velocity_witness :
    (frictionLeverContact ℚ).calculateFrictionImpulse sqrtQ (unitBodies ℚ)
        ((frictionLeverContact ℚ).inverseInertiaTensors (unitBodies ℚ) 0)
      = some ⟨4, 3, 0⟩
    ∧ ∃ a, (frictionLeverContact ℚ).applyVelocityChange sqrtQ (unitBodies ℚ)
          (fun _ => Vector3.clear) (fun _ => Vector3.clear) = some a
      ∧ (frictionLeverContact ℚ).contactToWorld.transformTranspose
          (((a.linear 0).add
              ((a.angular 0).vectorProduct
                ((frictionLeverContact ℚ).relativeContactPosition 0))).sub
            ((a.linear 1).add
              ((a.angular 1).vectorProduct
                ((frictionLeverContact ℚ).relativeContactPosition 1))))
        = ⟨12, 6, 0⟩ := by
  have hM : (frictionLeverContact ℚ).frictionDeltaVelocity (unitBodies ℚ)
      ((frictionLeverContact ℚ).inverseInertiaTensors (unitBodies ℚ) 0) 0
      = ⟨3, 0, 0, 0, 2, 0, 0, 0, 3⟩ := by
    simp [frictionDeltaVelocity, deltaVelWorldOf, inverseInertiaTensors, frictionLeverContact,
      unitBodies, pointBody, Matrix3.mul, Matrix3.scale, Matrix3.transpose, Matrix3.add,
      Matrix3.setSkewSymmetric, Vector3.clear]
    norm_num
  have hs : sqrtQ (3 * 3 + 0 * 0) = 3 := by
    have h9 : Nat.sqrt 9 = 3 := by simpa using Nat.sqrt_eq 3
    rw [show (3 * 3 + 0 * 0 : ℚ) = 9 by norm_num]
    simp [sqrtQ, h9]
  exact friction_impulse_kills_tangential_velocity sqrtQ (frictionLeverContact ℚ)
    (unitBodies ℚ) (fun _ => Vector3.clear) (fun _ => Vector3.clear) 0 ⟨4, 3, 0⟩ rfl
    (by norm_num [frictionLeverContact])
    (by norm_num [frictionLeverContact, Matrix3.mul, Matrix3.transpose])
    (by rw [hM]; norm_num [Matrix3.det])
    (by rw [hM]
        norm_num [unclampedImpulse, Matrix3.inverse, Matrix3.det, Matrix3.transform,
          frictionLeverContact])
    (by rw [hs]; norm_num [frictionLeverContact])

end Chaos
namespace Chaos

open Contact ContactResolver

/-! ### The capped loop -/

theorem cappedLoop_total {β σ : Type} (n : Nat) (scan : σ → β × Nat)
    (iteration : Nat → β → σ → Option σ) (Inv : σ → Prop)
    (hstep : ∀ s, Inv s → (scan s).2 ≠ n →
      ∃ s', iteration (scan s).2 (scan s).1 s = some s' ∧ Inv s')
    (left : Nat) : ∀ (used : Nat) (s : σ), Inv s →
      ∃ u' s', cappedLoop n scan iteration left used s = some (u', s')
        ∧ used ≤ u' ∧ u' ≤ used + left ∧ Inv s' := by
  induction left with
  | zero => intro used s hs; exact ⟨used, s, rfl, le_rfl, le_rfl, hs⟩
  | succ left ih =>
    intro used s hs
    by_cases hb : (scan s).2 = n
    · exact ⟨used, s, by simp [cappedLoop, hb], le_rfl, Nat.le_add_right _ _, hs⟩
    · obtain ⟨s1, h1, hs1⟩ := hstep s hs hb
      obtain ⟨u', s', h', hl, hu, hi⟩ := ih (used + 1) s1 hs1
      refine ⟨u', s', ?_, by omega, by omega, hi⟩
      simp only [cappedLoop, if_neg hb, h1]
      exact h'

theorem cappedLoop_full {β σ : Type} (n : Nat) (scan : σ → β × Nat)
    (iteration : Nat → β → σ → Option σ) (Inv : σ → Prop)
    (hstep : ∀ s, Inv s → (scan s).2 ≠ n →
      ∃ s', iteration (scan s).2 (scan s).1 s = some s' ∧ Inv s')
    (left : Nat) : ∀ (used : Nat) (s : σ), Inv s →
      (∀ k < left, ∀ uk sk, cappedLoop n scan iteration k used s = some (uk, sk) →
        (scan sk).2 ≠ n) →
      ∃ s', cappedLoop n scan iteration left used s = some (used + left, s') := by
  induction left with
  | zero => intro used s _ _; exact ⟨s, rfl⟩
  | succ left ih =>
    intro used s hs hall
    have hb : (scan s).2 ≠ n := hall 0 (Nat.succ_pos _) used s rfl
    obtain ⟨s1, h1, hs1⟩ := hstep s hs hb
    have hunfold : ∀ k, cappedLoop n scan iteration (k + 1) used s
        = cappedLoop n scan iteration k (used + 1) s1 := by
      intro k
      simp only [cappedLoop, if_neg hb, h1]
    obtain ⟨s', h'⟩ := ih (used + 1) s1 hs1 (by
      intro k hk uk sk hrun
      exact hall (k + 1) (Nat.succ_lt_succ hk) uk sk (by rw [hunfold]; exact hrun))
    refine ⟨s', ?_⟩
    rw [hunfold, h']
    congr 2
    omega

section

variable {α : Type} [LinearOrderedField α]

/-! ### The selection scan -/

theorem worst_succ (metric : Nat → α) (n k : Nat) (epsilon : α) :
    (List.range (k + 1)).foldl
        (fun (acc : α × Nat) i => if metric i > acc.1 then (metric i, i) else acc)
        (epsilon, n)
      = (fun (acc : α × Nat) => if metric k > acc.1 then (metric k, k) else acc)
          ((List.range k).foldl
            (fun (acc : α × Nat) i => if metric i > acc.1 then (metric i, i) else acc)
            (epsilon, n)) := by
  rw [List.range_succ, List.foldl_append]
  rfl

/-- What the scan has established after the first `k` contacts (`k ≤ n`). -/
theorem worst_upto (metric : Nat → α) (n : Nat) (epsilon : α) (k : Nat) (hk : k ≤ n) :
    (∀ i < k, metric i ≤
        ((List.range k).foldl
          (fun (acc : α × Nat) i => if metric i > acc.1 then (metric i, i) else acc)
          (epsilon, n)).1)
    ∧ (((List.range k).foldl
          (fun (acc : α × Nat) i => if metric i > acc.1 then (metric i, i) else acc)
          (epsilon, n)) = (epsilon, n)
        ∨ (((List.range k).foldl
              (fun (acc : α × Nat) i => if metric i > acc.1 then (metric i, i) else acc)
              (epsilon, n)).2 < k
            ∧ epsilon < ((List.range k).foldl
              (fun (acc : α × Nat) i => if metric i > acc.1 then (metric i, i) else acc)
              (epsilon, n)).1)) := by
  induction k with
  | zero => simp
  | succ k ih =>
    obtain ⟨h1, h2⟩ := ih (Nat.le_of_succ_le hk)
    rw [worst_succ]
    generalize (List.range k).foldl
      (fun (acc : α × Nat) i => if metric i > acc.1 then (metric i, i) else acc)
      (epsilon, n) = acc at h1 h2
    by_cases hgt : metric k > acc.1
    · simp only [if_pos hgt]
      constructor
      · intro i hi
        rcases Nat.lt_succ_iff_lt_or_eq.mp hi with h | h
        · exact (h1 i h).trans hgt.le
        · rw [h]
      · right
        refine ⟨Nat.lt_succ_self k, ?_⟩
        rcases h2 with h | h
        · rw [h] at hgt; exact hgt
        · exact h.2.trans hgt
    · simp only [if_neg hgt]
      constructor
      · intro i hi
        rcases Nat.lt_succ_iff_lt_or_eq.mp hi with h | h
        · exact h1 i h
        · rw [h]; exact not_lt.mp hgt
      · rcases h2 with h | h
        · left; exact h
        · right; exact ⟨Nat.lt_succ_of_lt h.1, h.2⟩

theorem worst_index_le (metric : Nat → α) (n : Nat) (epsilon : α) :
    (worst metric n epsilon).2 ≤ n := by
  rcases (worst_upto metric n epsilon n le_rfl).2 with h | h
  · unfold worst; rw [h]
  · exact h.1.le

theorem worst_found (metric : Nat → α) (n : Nat) (epsilon : α)
    (h : ∃ i, i < n ∧ epsilon < metric i) : (worst metric n epsilon).2 ≠ n := by
  obtain ⟨i, hi, hgt⟩ := h
  obtain ⟨h1, h2⟩ := worst_upto metric n epsilon n le_rfl
  rcases h2 with h | h
  · have := h1 i hi
    rw [h] at this
    exact absurd hgt (not_lt.mpr this)
  · exact fun e => absurd h.1 (by unfold worst at e; rw [e]; exact lt_irrefl n)

end

end Chaos
namespace Chaos

open Contact ContactResolver

theorem matchAwakeState_some {β : Type} (c : Contact β) (bodies : Bodies β) (p0 : Nat)
    (h0 : c.body 0 = some p0) : ∃ bodies', c.matchAwakeState bodies = some bodies' := by
  unfold matchAwakeState
  cases c.body 1 with
  | none => exact ⟨_, rfl⟩
  | some p1 =>
    simp only [h0]
    split
    · split <;> exact ⟨_, rfl⟩
    · exact ⟨_, rfl⟩

section

variable {α : Type} [LinearOrderedField α]

/-! ### Body slots are never rewritten, and present bodies make the calls succeed -/

theorem positionUpdate_body (lc ac : Fin 2 → Vector3 α) (chosen : Fin 2 → Option Nat)
    (b d : Fin 2) (ci : Contact α) :
    (positionUpdate lc ac chosen b d ci).body = ci.body := by
  unfold positionUpdate
  split <;> rfl

theorem propagatePositions_body (lc ac : Fin 2 → Vector3 α) (index n : Nat)
    (c : Nat → Contact α) (i : Nat) :
    (propagatePositions lc ac index n c i).body = (c i).body := by
  unfold propagatePositions
  induction n with
  | zero => rfl
  | succ n ih =>
    rw [List.range_succ, List.foldl_append]
    simp only [List.foldl_cons, List.foldl_nil]
    by_cases h : i = n
    · subst h
      simp only [Function.update_same, positionUpdate_body]
      exact ih
    · rw [Function.update_noteq h]
      exact ih

theorem positionIteration_some (ops : BodyOps α) (real_sqrt : α → α) (n index : Nat)
    (max : α) (s : LoopState α) (hs : HasBody0 n s.c) (hi : index < n) :
    ∃ s', positionIteration ops real_sqrt n index max s = some s' ∧ HasBody0 n s'.c := by
  obtain ⟨p0, h0⟩ := hs index hi
  obtain ⟨bodies', hb⟩ := matchAwakeState_some (s.c index) s.bodies p0 h0
  have hrun : positionIteration ops real_sqrt n index max s
      = some ⟨propagatePositions
          ((s.c index).applyPositionChange ops real_sqrt bodies' s.linear s.angular max).linear
          ((s.c index).applyPositionChange ops real_sqrt bodies' s.linear s.angular max).angular
          index n s.c,
        ((s.c index).applyPositionChange ops real_sqrt bodies' s.linear s.angular max).bodies,
        ((s.c index).applyPositionChange ops real_sqrt bodies' s.linear s.angular max).linear,
        ((s.c index).applyPositionChange ops real_sqrt bodies' s.linear s.angular max).angular⟩ := by
    simp only [positionIteration, hb]
  refine ⟨_, hrun, ?_⟩
  intro i hin
  obtain ⟨p, hp⟩ := hs i hin
  exact ⟨p, by simp only [propagatePositions_body]; exact hp⟩

theorem calculateDesiredDeltaVelocity_some (c : Contact α) (bodies : Bodies α)
    (duration : α) (p0 : Nat) (h0 : c.body 0 = some p0) :
    ∃ c', c.calculateDesiredDeltaVelocity bodies duration = some c' ∧ c'.body = c.body := by
  simp only [calculateDesiredDeltaVelocity, h0]
  exact ⟨_, rfl, rfl⟩

theorem velocityUpdate_some (bodies : Bodies α) (duration : α)
    (vc rc : Fin 2 → Vector3 α) (chosen : Fin 2 → Option Nat) (b d : Fin 2)
    (ci : Contact α) (p0 : Nat) (h0 : ci.body 0 = some p0) :
    ∃ c', velocityUpdate bodies duration vc rc chosen b d ci = some c'
      ∧ c'.body = ci.body := by
  unfold velocityUpdate
  split
  · exact calculateDesiredDeltaVelocity_some _ bodies duration p0 h0
  · exact ⟨ci, rfl, rfl⟩

theorem propagateVelocities_some (bodies : Bodies α) (duration : α)
    (vc rc : Fin 2 → Vector3 α) (index n : Nat) (c : Nat → Contact α)
    (hc : ∀ i, ∃ p, (c i).body 0 = some p ∨ n ≤ i) :
    ∃ c', propagateVelocities bodies duration vc rc index n c = some c'
      ∧ ∀ i, (c' i).body = (c i).body := by
  unfold propagateVelocities
  induction n with
  | zero => exact ⟨c, rfl, fun _ => rfl⟩
  | succ n ih =>
    obtain ⟨c1, h1, hb1⟩ := ih (fun i => by
      obtain ⟨p, hp⟩ := hc i
      exact ⟨p, hp.imp id (fun h => Nat.le_of_succ_le h)⟩)
    rw [List.range_succ, List.foldlM_append, h1]
    simp only [List.foldlM_cons, List.foldlM_nil, Option.some_bind, Option.bind_eq_bind]
    obtain ⟨p, hp⟩ := hc n
    have hp0 : (c1 n).body 0 = some p := by
      rw [hb1 n]
      rcases hp with h | h
      · exact h
      · exact absurd h (Nat.not_succ_le_self n)
    obtain ⟨a, ha, hab⟩ := velocityUpdate_some bodies duration vc rc (c1 index).body 0 0
      (c1 n) p hp0
    obtain ⟨b, hb, hbb⟩ := velocityUpdate_some bodies duration vc rc (c1 index).body 0 1
      a p (by rw [hab]; exact hp0)
    obtain ⟨c2, hc2, hcb⟩ := velocityUpdate_some bodies duration vc rc (c1 index).body 1 0
      b p (by rw [hbb, hab]; exact hp0)
    obtain ⟨d, hd, hdb⟩ := velocityUpdate_some bodies duration vc rc (c1 index).body 1 1
      c2 p (by rw [hcb, hbb, hab]; exact hp0)
    refine ⟨Function.update c1 n d, ?_, ?_⟩
    · simp only [ha, hb, hc2, hd]
      rfl
    · intro i
      by_cases h : i = n
      · subst h
        simp only [Function.update_same]
        rw [hdb, hcb, hbb, hab, hb1]
      · rw [Function.update_noteq h]
        exact hb1 i

theorem applyVelocityChange_some (real_sqrt : α → α) (c : Contact α) (bodies : Bodies α)
    (vc rc : Fin 2 → Vector3 α) (p0 : Nat) (h0 : c.body 0 = some p0) :
    ∃ a, c.applyVelocityChange real_sqrt bodies vc rc = some a := by
  simp only [applyVelocityChange, h0, calculateFrictionlessImpulse, calculateFrictionImpulse]
  by_cases hf : c.friction = 0
  · simp only [if_pos hf]
    cases c.body 1 <;> exact ⟨_, rfl⟩
  · simp only [if_neg hf]
    cases c.body 1 <;> exact ⟨_, rfl⟩

theorem velocityIteration_some (real_sqrt : α → α) (n : Nat) (duration : α) (index : Nat)
    (s : LoopState α) (hs : HasBody0 n s.c) (hi : index < n) :
    ∃ s', velocityIteration real_sqrt n duration index s = some s' ∧ HasBody0 n s'.c := by
  obtain ⟨p0, h0⟩ := hs index hi
  obtain ⟨bodies', hb⟩ := matchAwakeState_some (s.c index) s.bodies p0 h0
  obtain ⟨a, ha⟩ := applyVelocityChange_some real_sqrt (s.c index) bodies' s.linear s.angular
    p0 h0
  obtain ⟨c', hc', hbody⟩ := propagateVelocities_some a.bodies duration a.linear a.angular
    index n s.c (fun i => by
      by_cases h : i < n
      · obtain ⟨p, hp⟩ := hs i h
        exact ⟨p, Or.inl hp⟩
      · exact ⟨0, Or.inr (not_lt.mp h)⟩)
  refine ⟨⟨c', a.bodies, a.linear, a.angular⟩, by simp only [velocityIteration, hb, ha, hc'], ?_⟩
  intro i hin
  obtain ⟨p, hp⟩ := hs i hin
  exact ⟨p, by rw [hbody i]; exact hp⟩

theorem calculateInternals_some (real_sqrt : α → α) (c : Contact α) (bodies : Bodies α)
    (duration : α) (h : (c.body 0 ≠ none) ∨ (c.body 1 ≠ none)) :
    ∃ c' p, c.calculateInternals real_sqrt bodies duration = some c'
      ∧ c'.body 0 = some p := by
  have hc1 : ∃ p, (if c.body 0 = none then c.swapBodies else c).body 0 = some p := by
    by_cases h0 : c.body 0 = none
    · have h1 : c.body 1 ≠ none := h.resolve_left (fun hne => hne h0)
      obtain ⟨p, hp⟩ := Option.ne_none_iff_exists'.mp h1
      exact ⟨p, by simp [h0, swapBodies, hp]⟩
    · obtain ⟨p, hp⟩ := Option.ne_none_iff_exists'.mp h0
      exact ⟨p, by simp [h0, hp]⟩
  simp only [calculateInternals]
  generalize (if c.body 0 = none then c.swapBodies else c) = c1 at hc1 ⊢
  obtain ⟨p, hp⟩ := hc1
  cases h1 : c1.body 1 with
  | none =>
    simp only [hp, h1, calculateContactBasis, calculateLocalVelocity,
      calculateDesiredDeltaVelocity]
    exact ⟨_, p, rfl, hp⟩
  | some p1 =>
    simp only [hp, h1, calculateContactBasis, calculateLocalVelocity,
      calculateDesiredDeltaVelocity]
    exact ⟨_, p, rfl, hp⟩

end

end Chaos
namespace Chaos

open Contact ContactResolver

section

variable {α : Type} [LinearOrderedField α]

theorem prepareContacts_upto (real_sqrt : α → α) (w : World α) (duration : α) (k : Nat)
    (hbody : ∀ i, i < k → (w.c i).body 0 ≠ none ∨ (w.c i).body 1 ≠ none) :
    ∃ w', prepareContacts real_sqrt w k duration = some w'
      ∧ HasBody0 k w'.c ∧ (∀ i, k ≤ i → w'.c i = w.c i) := by
  unfold prepareContacts
  induction k with
  | zero => exact ⟨w, rfl, fun i hi => absurd hi (Nat.not_lt_zero i), fun _ _ => rfl⟩
  | succ k ih =>
    obtain ⟨w1, h1, hb1, hrest⟩ := ih (fun i hi => hbody i (Nat.lt_succ_of_lt hi))
    rw [List.range_succ, List.foldlM_append, h1]
    simp only [List.foldlM_cons, List.foldlM_nil, Option.some_bind, Option.bind_eq_bind]
    have hk := hbody k (Nat.lt_succ_self k)
    rw [← hrest k le_rfl] at hk
    obtain ⟨ck, p, hck, hp⟩ := calculateInternals_some real_sqrt (w1.c k) w1.bodies duration hk
    refine ⟨{ w1 with c := Function.update w1.c k ck }, ?_, ?_, ?_⟩
    · simp only [hck]
      rfl
    · intro i hi
      by_cases h : i = k
      · subst h
        exact ⟨p, by simp only [Function.update_same]; exact hp⟩
      · have hlt : i < k := lt_of_le_of_ne (Nat.lt_succ_iff.mp hi) h
        obtain ⟨q, hq⟩ := hb1 i hlt
        exact ⟨q, by simp only [Function.update_noteq h]; exact hq⟩
    · intro i hi
      have h : i ≠ k := by omega
      simp only [Function.update_noteq h]
      exact hrest i (by omega)

theorem isValid_iff (r : ContactResolver α) :
    r.isValid = true ↔ 0 < r.velocityIterations ∧ 0 < r.positionIterations
      ∧ 0 < r.velocityEpsilon ∧ 0 < r.positionEpsilon := by
  simp [isValid, and_assoc]

/-- C9: when `numContacts = 0`, or when some iteration cap is zero or some epsilon
is not positive (the configuration is invalid), `resolveContacts` returns at once:
the contact array and the body store (every contact field, every body's velocity,
rotation, position, orientation and awake flag) are exactly those it was given, and
so is the resolver. -/
theorem resolveContacts_noop (ops : BodyOps α) (real_sqrt : α → α) (r : ContactResolver α)
    (w : World α) (numContacts : Nat) (duration : α)
    (h : numContacts = 0 ∨ r.velocityIterations = 0 ∨ r.positionIterations = 0
      ∨ r.velocityEpsilon ≤ 0 ∨ r.positionEpsilon ≤ 0) :
    resolveContacts ops real_sqrt r w numContacts duration = some (r, w) := by
  unfold resolveContacts
  by_cases hn : numContacts = 0
  · rw [if_pos hn]
  · rw [if_neg hn]
    have hinv : r.isValid = false := by
      rcases h with h | h | h | h | h
      · exact absurd h hn
      · simp [isValid, h]
      · simp [isValid, h]
      · simp [isValid, not_lt.mpr h]
      · simp [isValid, not_lt.mpr h]
    simp [hinv]

theorem adjustPositions_total (ops : BodyOps α) (real_sqrt : α → α) (r : ContactResolver α)
    (w : World α) (n : Nat) (duration : α) (hw : HasBody0 n w.c) :
    ∃ r' w', adjustPositions ops real_sqrt r w n duration = some (r', w')
      ∧ r' = { r with positionIterationsUsed := r'.positionIterationsUsed }
      ∧ r'.positionIterationsUsed ≤ r.positionIterations
      ∧ HasBody0 n w'.c := by
  obtain ⟨u, s, hrun, -, hu, hs⟩ := cappedLoop_total n
    (fun s : LoopState α => worst (fun i => (s.c i).penetration) n r.positionEpsilon)
    (fun index max s => positionIteration ops real_sqrt n index max s)
    (fun s => HasBody0 n s.c)
    (fun s hs hne => positionIteration_some ops real_sqrt n _ _ s hs
      (lt_of_le_of_ne (worst_index_le _ _ _) hne))
    r.positionIterations 0 ⟨w.c, w.bodies, fun _ => Vector3.clear, fun _ => Vector3.clear⟩ hw
  refine ⟨{ r with positionIterationsUsed := u }, ⟨s.c, s.bodies⟩, ?_, rfl, by simpa using hu, hs⟩
  simp only [adjustPositions, adjustPositionsLoop, hrun]

theorem adjustPositions_full (ops : BodyOps α) (real_sqrt : α → α) (r : ContactResolver α)
    (w : World α) (n : Nat) (duration : α) (hw : HasBody0 n w.c)
    (hall : ∀ k, k < r.positionIterations → ∀ rk wk,
      adjustPositions ops real_sqrt { r with positionIterations := k } w n duration
        = some (rk, wk) →
      ∃ i, i < n ∧ r.positionEpsilon < (wk.c i).penetration) :
    ∃ r' w', adjustPositions ops real_sqrt r w n duration = some (r', w')
      ∧ r'.positionIterationsUsed = r.positionIterations := by
  obtain ⟨s, hrun⟩ := cappedLoop_full n
    (fun s : LoopState α => worst (fun i => (s.c i).penetration) n r.positionEpsilon)
    (fun index max s => positionIteration ops real_sqrt n index max s)
    (fun s => HasBody0 n s.c)
    (fun s hs hne => positionIteration_some ops real_sqrt n _ _ s hs
      (lt_of_le_of_ne (worst_index_le _ _ _) hne))
    r.positionIterations 0 ⟨w.c, w.bodies, fun _ => Vector3.clear, fun _ => Vector3.clear⟩ hw
    (by
      intro k hk uk sk hk_run
      apply worst_found
      exact hall k hk { r with positionIterations := k, positionIterationsUsed := uk }
        ⟨sk.c, sk.bodies⟩ (by simp only [adjustPositions, adjustPositionsLoop, hk_run]))
  refine ⟨{ r with positionIterationsUsed := 0 + r.positionIterations }, ⟨s.c, s.bodies⟩, ?_,
    by simp⟩
  simp only [adjustPositions, adjustPositionsLoop, hrun]

theorem adjustVelocities_total (real_sqrt : α → α) (r : ContactResolver α)
    (w : World α) (n : Nat) (duration : α) (hw : HasBody0 n w.c) :
    ∃ r' w', adjustVelocities real_sqrt r w n duration = some (r', w')
      ∧ r' = { r with velocityIterationsUsed := r'.velocityIterationsUsed }
      ∧ r'.velocityIterationsUsed ≤ r.velocityIterations := by
  obtain ⟨u, s, hrun, -, hu, -⟩ := cappedLoop_total n
    (fun s : LoopState α => worst (fun i => (s.c i).desiredDeltaVelocity) n r.velocityEpsilon)
    (fun index _ s => velocityIteration real_sqrt n duration index s)
    (fun s => HasBody0 n s.c)
    (fun s hs hne => velocityIteration_some real_sqrt n duration _ s hs
      (lt_of_le_of_ne (worst_index_le _ _ _) hne))
    r.velocityIterations 0 ⟨w.c, w.bodies, fun _ => Vector3.clear, fun _ => Vector3.clear⟩ hw
  refine ⟨{ r with velocityIterationsUsed := u }, ⟨s.c, s.bodies⟩, ?_, rfl, by simpa using hu⟩
  simp only [adjustVelocities, adjustVelocitiesLoop, hrun]

theorem adjustVelocities_full (real_sqrt : α → α) (r : ContactResolver α)
    (w : World α) (n : Nat) (duration : α) (hw : HasBody0 n w.c)
    (hall : ∀ k, k < r.velocityIterations → ∀ rk wk,
      adjustVelocities real_sqrt { r with velocityIterations := k } w n duration
        = some (rk, wk) →
      ∃ i, i < n ∧ r.velocityEpsilon < (wk.c i).desiredDeltaVelocity) :
    ∃ r' w', adjustVelocities real_sqrt r w n duration = some (r', w')
      ∧ r'.velocityIterationsUsed = r.velocityIterations := by
  obtain ⟨s, hrun⟩ := cappedLoop_full n
    (fun s : LoopState α => worst (fun i => (s.c i).desiredDeltaVelocity) n r.velocityEpsilon)
    (fun index _ s => velocityIteration real_sqrt n duration index s)
    (fun s => HasBody0 n s.c)
    (fun s hs hne => velocityIteration_some real_sqrt n duration _ s hs
      (lt_of_le_of_ne (worst_index_le _ _ _) hne))
    r.velocityIterations 0 ⟨w.c, w.bodies, fun _ => Vector3.clear, fun _ => Vector3.clear⟩ hw
    (by
      intro k hk uk sk hk_run
      apply worst_found
      exact hall k hk { r with velocityIterations := k, velocityIterationsUsed := uk }
        ⟨sk.c, sk.bodies⟩ (by simp only [adjustVelocities, adjustVelocitiesLoop, hk_run]))
  refine ⟨{ r with velocityIterationsUsed := 0 + r.velocityIterations }, ⟨s.c, s.bodies⟩, ?_,
    by simp⟩
  simp only [adjustVelocities, adjustVelocitiesLoop, hrun]

/-- C10: for a valid resolver and a non-empty batch in which every contact has a
body, `resolveContacts` returns (prepare, then the position loop, then the velocity
loop, each of them returning), with `positionIterationsUsed ≤ positionIterations`
and `velocityIterationsUsed ≤ velocityIterations`. If at the start of every position
iteration `k < positionIterations` (the state the position loop reaches when capped
at `k`) some contact's penetration exceeds `positionEpsilon`, then
`positionIterationsUsed = positionIterations`; likewise for the velocity loop with
`desiredDeltaVelocity` and `velocityEpsilon`. -/
theorem resolveContacts_iteration_caps (ops : BodyOps α) (real_sqrt : α → α)
    (r : ContactResolver α) (w : World α) (numContacts : Nat) (duration : α)
    (hvalid : r.isValid = true) (hn : 0 < numContacts)
    (hbody : ∀ i, i < numContacts → (w.c i).body 0 ≠ none ∨ (w.c i).body 1 ≠ none) :
    ∃ w1 r2 w2 r3 w3,
      prepareContacts real_sqrt w numContacts duration = some w1
      ∧ adjustPositions ops real_sqrt r w1 numContacts duration = some (r2, w2)
      ∧ adjustVelocities real_sqrt r2 w2 numContacts duration = some (r3, w3)
      ∧ resolveContacts ops real_sqrt r w numContacts duration = some (r3, w3)
      ∧ r3.positionIterationsUsed ≤ r.positionIterations
      ∧ r3.velocityIterationsUsed ≤ r.velocityIterations
      ∧ ((∀ k, k < r.positionIterations → ∀ rk wk,
            adjustPositions ops real_sqrt { r with positionIterations := k } w1 numContacts
              duration = some (rk, wk) →
            ∃ i, i < numContacts ∧ r.positionEpsilon < (wk.c i).penetration) →
          r3.positionIterationsUsed = r.positionIterations)
      ∧ ((∀ k, k < r.velocityIterations → ∀ rk wk,
            adjustVelocities real_sqrt { r2 with velocityIterations := k } w2 numContacts
              duration = some (rk, wk) →
            ∃ i, i < numContacts ∧ r.velocityEpsilon < (wk.c i).desiredDeltaVelocity) →
          r3.velocityIterationsUsed = r.velocityIterations) := by
  obtain ⟨w1, h1, hb1, -⟩ := prepareContacts_upto real_sqrt w duration numContacts hbody
  obtain ⟨r2, w2, h2, hr2, hle2, hb2⟩ := adjustPositions_total ops real_sqrt r w1 numContacts
    duration hb1
  obtain ⟨r3, w3, h3, hr3, hle3⟩ := adjustVelocities_total real_sqrt r2 w2 numContacts
    duration hb2
  have hr3p : r3.positionIterationsUsed = r2.positionIterationsUsed := by rw [hr3]
  have hr2v : r2.velocityIterations = r.velocityIterations := by rw [hr2]
  have hr2e : r2.velocityEpsilon = r.velocityEpsilon := by rw [hr2]
  refine ⟨w1, r2, w2, r3, w3, h1, h2, h3, ?_, ?_, ?_, ?_, ?_⟩
  · simp only [resolveContacts, if_neg (Nat.pos_iff_ne_zero.mp hn), hvalid, h1, h2, h3]
    simp
  · rw [hr3p]; exact hle2
  · rw [← hr2v]; exact hle3
  · intro hall
    obtain ⟨r2', w2', h2', hfull⟩ := adjustPositions_full ops real_sqrt r w1 numContacts
      duration hb1 hall
    rw [h2] at h2'
    have e : r2 = r2' := congrArg Prod.fst (Option.some.inj h2')
    rw [hr3p, e]
    exact hfull
  · intro hall
    obtain ⟨r3', w3', h3', hfull⟩ := adjustVelocities_full real_sqrt r2 w2 numContacts
      duration hb2 (by
        intro k hk rk wk hrun
        rw [hr2e]
        exact hall k (by rw [← hr2v]; exact hk) rk wk hrun)
    rw [h3] at h3'
    have e : r3 = r3' := congrArg Prod.fst (Option.some.inj h3')
    rw [e, hfull, hr2v]

end

/-- A call with no contacts, and a call with a zero epsilon, both on a batch
that a valid call would change. -/
theorem resolveContacts_noop_witness :
    resolveContacts (sampleOps ℚ) sqrtQ (twoStepResolver ℚ) (sandwichWorld ℚ) 0 (1 / 60)
        = some (twoStepResolver ℚ, sandwichWorld ℚ)
    ∧ resolveContacts (sampleOps ℚ) sqrtQ { twoStepResolver ℚ with positionEpsilon := 0 }
          (sandwichWorld ℚ) 2 (1 / 60)
        = some ({ twoStepResolver ℚ with positionEpsilon := 0 }, sandwichWorld ℚ) :=
  ⟨resolveContacts_noop (sampleOps ℚ) sqrtQ (twoStepResolver ℚ) (sandwichWorld ℚ) 0 (1 / 60)
      (Or.inl rfl),
   resolveContacts_noop (sampleOps ℚ) sqrtQ { twoStepResolver ℚ with positionEpsilon := 0 }
      (sandwichWorld ℚ) 2 (1 / 60) (Or.inr (Or.inr (Or.inr (Or.inr (le_refl (0 : ℚ))))))⟩

/-- A batch that never converges: a body held between two opposite contacts.
Both loops use their two iterations. -/
theorem resolveContacts_iteration_caps_witness :
    ∃ r3 w3, resolveContacts (sampleOps ℚ) sqrtQ (twoStepResolver ℚ) (sandwichWorld ℚ) 2 0
        = some (r3, w3)
      ∧ r3.positionIterationsUsed = 2 ∧ r3.velocityIterationsUsed = 2 := by
  obtain ⟨w1, r2, w2, r3, w3, h1, h2, -, hres, -, -, hpos, hvel⟩ :=
    resolveContacts_iteration_caps (sampleOps ℚ) sqrtQ (twoStepResolver ℚ) (sandwichWorld ℚ)
      2 0 (by decide!) (by norm_num)
      (fun i _ => Or.inl (by simp [sandwichWorld, contactWithNormal]))
  refine ⟨r3, w3, hres, hpos ?_, hvel ?_⟩
  · intro k hk rk wk hrun
    have hk2 : k < 2 := hk
    interval_cases k
    · have D : ((prepareContacts sqrtQ (sandwichWorld ℚ) 2 0).bind (fun w1 =>
          adjustPositions (sampleOps ℚ) sqrtQ { twoStepResolver ℚ with positionIterations := 0 }
            w1 2 0)).map
          (fun p => decide ((twoStepResolver ℚ).positionEpsilon < (p.2.c 0).penetration))
          = some true := by decide!
      rw [h1, Option.some_bind, hrun] at D
      exact ⟨0, by norm_num, of_decide_eq_true (Option.some.inj D)⟩
    · have D : ((prepareContacts sqrtQ (sandwichWorld ℚ) 2 0).bind (fun w1 =>
          adjustPositions (sampleOps ℚ) sqrtQ { twoStepResolver ℚ with positionIterations := 1 }
            w1 2 0)).map
          (fun p => decide ((twoStepResolver ℚ).positionEpsilon < (p.2.c 1).penetration))
          = some true := by decide!
      rw [h1, Option.some_bind, hrun] at D
      exact ⟨1, by norm_num, of_decide_eq_true (Option.some.inj D)⟩
  · intro k hk rk wk hrun
    have hk2 : k < 2 := hk
    interval_cases k
    · have D : (((prepareContacts sqrtQ (sandwichWorld ℚ) 2 0).bind (fun w1 =>
          adjustPositions (sampleOps ℚ) sqrtQ (twoStepResolver ℚ) w1 2 0)).bind (fun p =>
          adjustVelocities sqrtQ { p.1 with velocityIterations := 0 } p.2 2 0)).map
          (fun p => decide ((twoStepResolver ℚ).velocityEpsilon
            < (p.2.c 0).desiredDeltaVelocity))
          = some true := by decide!
      rw [h1, Option.some_bind, h2, Option.some_bind, hrun] at D
      exact ⟨0, by norm_num, of_decide_eq_true (Option.some.inj D)⟩
    · have D : (((prepareContacts sqrtQ (sandwichWorld ℚ) 2 0).bind (fun w1 =>
          adjustPositions (sampleOps ℚ) sqrtQ (twoStepResolver ℚ) w1 2 0)).bind (fun p =>
          adjustVelocities sqrtQ { p.1 with velocityIterations := 1 } p.2 2 0)).map
          (fun p => decide ((twoStepResolver ℚ).velocityEpsilon
            < (p.2.c 1).desiredDeltaVelocity))
          = some true := by decide!
      rw [h1, Option.some_bind, h2, Option.some_bind, hrun] at D
      exact ⟨1, by norm_num, of_decide_eq_true (Option.some.inj D)⟩

end Chaos
namespace Chaos

open Contact ContactResolver

/-- C18, evaluated on the code: the four-argument constructor called with
`velocityIterations = 3` and `positionIterations = 5` yields `positionIterations = 3`
(its body calls the one-argument `setIterations` with the velocity cap and never
reads the position cap), where `setIterations(3, 5)` followed by `setEpsilon` yields
`positionIterations = 5`; the other three fields are as the claim says. -/
theorem construct4_ignores_positionIterations :
    ((twoStepResolver ℚ).construct4 3 5 (1 / 100) (1 / 1000)).positionIterations = 3
    ∧ ((twoStepResolver ℚ).construct4 3 5 (1 / 100) (1 / 1000)).velocityIterations = 3
    ∧ ((twoStepResolver ℚ).construct4 3 5 (1 / 100) (1 / 1000)).velocityEpsilon = 1 / 100
    ∧ ((twoStepResolver ℚ).construct4 3 5 (1 / 100) (1 / 1000)).positionEpsilon = 1 / 1000
    ∧ (((twoStepResolver ℚ).setIterations 3 5).setEpsilon (1 / 100)
        (1 / 1000)).positionIterations = 5
    ∧ (twoStepResolver ℚ).construct4 3 5 (1 / 100) (1 / 1000)
        ≠ ((twoStepResolver ℚ).setIterations 3 5).setEpsilon (1 / 100) (1 / 1000) := by
  refine ⟨rfl, rfl, rfl, rfl, rfl, ?_⟩
  intro h
  have := congrArg ContactResolver.positionIterations h
  simp [construct4, setIterationsBoth, setIterations, setEpsilon] at this

/-- C19: for a contact with two bodies `matchAwakeState` returns, and afterwards
the two bodies have the same awake state: if exactly one was awake both are awake
and that is the only change (the sleeping one was set awake); if both were awake or
both asleep the body store is unchanged. With `body[1]` absent the body store is
unchanged. -/
theorem matchAwakeState_matches {β : Type} (c : Contact β) (bodies : Bodies β) :
    (c.body 1 = none → c.matchAwakeState bodies = some bodies)
    ∧ (∀ p0 p1, c.body 0 = some p0 → c.body 1 = some p1 →
        ∃ bodies', c.matchAwakeState bodies = some bodies'
          ∧ (bodies' p0).isAwake = (bodies' p1).isAwake
          ∧ ((bodies p0).isAwake ≠ (bodies p1).isAwake →
              (bodies' p0).isAwake = true ∧ (bodies' p1).isAwake = true
              ∧ (∀ q, q ≠ p0 → q ≠ p1 → bodies' q = bodies q)
              ∧ ((bodies p0).isAwake = true → bodies' p0 = bodies p0
                  ∧ bodies' p1 = (bodies p1).setAwake)
              ∧ ((bodies p1).isAwake = true → bodies' p1 = bodies p1
                  ∧ bodies' p0 = (bodies p0).setAwake))
          ∧ ((bodies p0).isAwake = (bodies p1).isAwake → bodies' = bodies)) := by
  constructor
  · intro h1
    simp only [matchAwakeState, h1]
  · intro p0 p1 h0 h1
    simp only [matchAwakeState, h0, h1]
    cases ha : (bodies p0).isAwake <;> cases hb : (bodies p1).isAwake
    · exact ⟨bodies, by simp, by rw [ha, hb], by simp, by simp⟩
    · have hne : p0 ≠ p1 := by
        intro e; rw [e, hb] at ha; exact Bool.noConfusion ha
      refine ⟨Function.update bodies p0 (bodies p0).setAwake, by simp, ?_, ?_, ?_⟩
      · simp [Function.update_noteq hne.symm, hb, RigidBody.setAwake]
      · intro _
        refine ⟨by simp [RigidBody.setAwake], by simp [Function.update_noteq hne.symm, hb],
          ?_, by simp, ?_⟩
        · intro q hq0 _
          simp [Function.update_noteq hq0]
        · intro _
          simp [Function.update_noteq hne.symm]
      · intro h; exact Bool.noConfusion h
    · have hne : p0 ≠ p1 := by
        intro e; rw [e, hb] at ha; exact Bool.noConfusion ha
      refine ⟨Function.update bodies p1 (bodies p1).setAwake, by simp, ?_, ?_, ?_⟩
      · simp [Function.update_noteq hne, ha, RigidBody.setAwake]
      · intro _
        refine ⟨by simp [Function.update_noteq hne, ha], by simp [RigidBody.setAwake],
          ?_, ?_, by simp⟩
        · intro q _ hq1
          simp [Function.update_noteq hq1]
        · intro _
          simp [Function.update_noteq hne]
      · intro h; exact Bool.noConfusion h
    · exact ⟨bodies, by simp, by rw [ha, hb], by simp, by simp⟩

/-- Body 0 awake and body 1 asleep: after `matchAwakeState` both are awake. -/
theorem matchAwakeState_matches_witness :
    ∃ bodies', (closingContact ℚ 0 0).matchAwakeState (acceleratedBodies ℚ ⟨0, 0, 0⟩)
        = some bodies'
      ∧ (bodies' 0).isAwake = true ∧ (bodies' 1).isAwake = true
      ∧ bodies' 0 = acceleratedBodies ℚ ⟨0, 0, 0⟩ 0 := by
  obtain ⟨bodies', h, -, hne, -⟩ := (matchAwakeState_matches (closingContact ℚ 0 0)
    (acceleratedBodies ℚ ⟨0, 0, 0⟩)).2 0 1 rfl rfl
  obtain ⟨h0, h1, -, hfirst, -⟩ := hne (by simp [acceleratedBodies])
  exact ⟨bodies', h, h0, h1, (hfirst (by simp [acceleratedBodies])).1⟩

section

variable {α : Type} [LinearOrderedField α]

/-- What `calculateInternals` leaves in the contact, in terms of the contact `c1`
it works on after the optional swap. -/
theorem calculateInternals_result (real_sqrt : α → α) (c c' : Contact α)
    (bodies : Bodies α) (duration : α)
    (h : c.calculateInternals real_sqrt bodies duration = some c') :
    c'.body = (if c.body 0 = none then c.swapBodies else c).body
    ∧ c'.contactNormal = (if c.body 0 = none then c.swapBodies else c).contactNormal
    ∧ c'.contactToWorld
        = ((if c.body 0 = none then c.swapBodies else c).calculateContactBasis
            real_sqrt).contactToWorld
    ∧ ∃ v0, c'.calculateLocalVelocity bodies 0 duration = some v0
        ∧ (c'.body 1 = none → c'.contactVelocity = v0)
        ∧ (c'.body 1 ≠ none →
            ∃ v1, c'.calculateLocalVelocity bodies 1 duration = some v1
              ∧ c'.contactVelocity = v0.sub v1) := by
  simp only [calculateInternals] at h
  generalize (if c.body 0 = none then c.swapBodies else c) = c1 at h ⊢
  cases h0 : c1.body 0 with
  | none => simp only [h0] at h; exact Option.noConfusion h
  | some p0 =>
    cases h1 : c1.body 1 with
    | none =>
      simp only [h0, h1, calculateContactBasis, calculateLocalVelocity,
        calculateDesiredDeltaVelocity, Option.some.injEq] at h
      subst h
      refine ⟨rfl, rfl, rfl, ?_⟩
      simp only [calculateLocalVelocity, h0, h1]
      exact ⟨_, rfl, fun _ => rfl, fun hne => absurd rfl hne⟩
    | some p1 =>
      simp only [h0, h1, calculateContactBasis, calculateLocalVelocity,
        calculateDesiredDeltaVelocity, Option.some.injEq] at h
      subst h
      refine ⟨rfl, rfl, rfl, ?_⟩
      simp only [calculateLocalVelocity, h0, h1]
      exact ⟨_, rfl, fun hn => Option.noConfusion hn, fun _ => ⟨_, rfl, rfl⟩⟩

/-- C16: for a contact with at least one body `calculateInternals` returns a
contact whose `body[0]` is non-null. If `body[0]` was null on entry the two slots
are exchanged, `contactNormal` is negated, and the basis is the one built from the
negated normal; if `body[0]` was non-null the slots and the normal are unchanged. -/
theorem calculateInternals_normalises (real_sqrt : α → α) (c : Contact α)
    (bodies : Bodies α) (duration : α)
    (h : c.body 0 ≠ none ∨ c.body 1 ≠ none) :
    ∃ c', c.calculateInternals real_sqrt bodies duration = some c'
      ∧ c'.body 0 ≠ none
      ∧ (c.body 0 = none →
          c'.body 0 = c.body 1 ∧ c'.body 1 = c.body 0
          ∧ c'.contactNormal = c.contactNormal.scale (-1)
          ∧ c'.contactToWorld
              = (c.swapBodies.calculateContactBasis real_sqrt).contactToWorld)
      ∧ (c.body 0 ≠ none →
          c'.body = c.body ∧ c'.contactNormal = c.contactNormal
          ∧ c'.contactToWorld = (c.calculateContactBasis real_sqrt).contactToWorld) := by
  obtain ⟨c', p, hc', hp⟩ := calculateInternals_some real_sqrt c bodies duration h
  obtain ⟨hb, hn, hw, -⟩ := calculateInternals_result real_sqrt c c' bodies duration hc'
  refine ⟨c', hc', by rw [hp]; exact Option.some_ne_none p, ?_, ?_⟩
  · intro h0
    rw [if_pos h0] at hb hn hw
    exact ⟨by rw [hb]; simp [swapBodies], by rw [hb]; simp [swapBodies], hn, hw⟩
  · intro h0
    rw [if_neg h0] at hb hn hw
    exact ⟨hb, hn, hw⟩

/-- A contact whose only body sits in slot 1 is turned round. -/
theorem calculateInternals_normalises_witness :
    ∃ c', ({ contactWithNormal ℚ ⟨1, 0, 0⟩ with body := ![none, some 0] }).calculateInternals
          sqrtQ (fun _ => pointBody ℚ 1) 0 = some c'
      ∧ c'.body 0 = some 0 ∧ c'.body 1 = none ∧ c'.contactNormal = ⟨-1, 0, 0⟩ := by
  obtain ⟨c', h, -, hswap, -⟩ := calculateInternals_normalises sqrtQ
    { contactWithNormal ℚ ⟨1, 0, 0⟩ with body := ![none, some 0] } (fun _ => pointBody ℚ 1) 0
    (Or.inr (by simp))
  obtain ⟨h0, h1, hn, -⟩ := hswap rfl
  refine ⟨c', h, by rw [h0]; rfl, by rw [h1]; rfl, ?_⟩
  rw [hn]
  simp [contactWithNormal, Vector3.scale]

/-- C20: `calculateLocalVelocity` returns `contactToWorldᵀ (ω × r + v)` plus
`contactToWorldᵀ (a * duration)` with its `x` component replaced by 0, so the `x`
component of the result is that of `contactToWorldᵀ (ω × r + v)` and does not depend
on the last-frame acceleration `a`, while `y` and `z` include the acceleration
term. `calculateInternals` leaves in `contactVelocity` this vector for body 0,
minus the one for body 1 when `body[1]` is present. -/
theorem calculateLocalVelocity_removes_normal_acceleration (real_sqrt : α → α)
    (c : Contact α) (bodies : Bodies α) (duration : α) :
    (∀ (i : Fin 2) (p : Nat), c.body i = some p →
      ∃ v, c.calculateLocalVelocity bodies i duration = some v
        ∧ v = (c.contactToWorld.transformTranspose
                (((bodies p).rotation.vectorProduct (c.relativeContactPosition i)).add
                  (bodies p).velocity)).add
              { c.contactToWorld.transformTranspose
                  ((bodies p).lastFrameAcceleration.scale duration) with x := 0 }
        ∧ v.x = (c.contactToWorld.transformTranspose
                  (((bodies p).rotation.vectorProduct (c.relativeContactPosition i)).add
                    (bodies p).velocity)).x
        ∧ v.y = (c.contactToWorld.transformTranspose
                  (((bodies p).rotation.vectorProduct (c.relativeContactPosition i)).add
                    (bodies p).velocity)).y
                + (c.contactToWorld.transformTranspose
                    ((bodies p).lastFrameAcceleration.scale duration)).y
        ∧ v.z = (c.contactToWorld.transformTranspose
                  (((bodies p).rotation.vectorProduct (c.relativeContactPosition i)).add
                    (bodies p).velocity)).z
                + (c.contactToWorld.transformTranspose
                    ((bodies p).lastFrameAcceleration.scale duration)).z)
    ∧ (∀ c', c.calculateInternals real_sqrt bodies duration = some c' →
        ∃ v0, c'.calculateLocalVelocity bodies 0 duration = some v0
          ∧ (c'.body 1 = none → c'.contactVelocity = v0)
          ∧ (c'.body 1 ≠ none →
              ∃ v1, c'.calculateLocalVelocity bodies 1 duration = some v1
                ∧ c'.contactVelocity = v0.sub v1)) := by
  constructor
  · intro i p hp
    refine ⟨_, by simp only [calculateLocalVelocity, hp], rfl, ?_, rfl, rfl⟩
    simp [Vector3.add]
  · intro c' h
    exact (calculateInternals_result real_sqrt c c' bodies duration h).2.2.2

end

/-- C20 (witness). Two bodies at rest whose last frame acceleration is `(1, 2, 3)`,
identity contact basis, duration 2: the local velocity of body 0 is `(0, 4, 6)`,
the acceleration term having lost its normal component, and `calculateInternals`
leaves the difference of the two local velocities. -/
theorem calculateLocalVelocity_removes_normal_acceleration_witness :
    (∃ v, (frictionLeverContact ℚ).calculateLocalVelocity (acceleratedBodies ℚ ⟨1, 2, 3⟩) 0 2
          = some v ∧ v.x = 0 ∧ v.y = 4 ∧ v.z = 6)
      ∧ ∃ c' v0 v1,
          (frictionLeverContact ℚ).calculateInternals sqrtQ (acceleratedBodies ℚ ⟨1, 2, 3⟩) 2
            = some c'
          ∧ c'.calculateLocalVelocity (acceleratedBodies ℚ ⟨1, 2, 3⟩) 0 2 = some v0
          ∧ c'.calculateLocalVelocity (acceleratedBodies ℚ ⟨1, 2, 3⟩) 1 2 = some v1
          ∧ c'.contactVelocity = v0.sub v1 := by
  have T := calculateLocalVelocity_removes_normal_acceleration sqrtQ (frictionLeverContact ℚ)
    (acceleratedBodies ℚ ⟨1, 2, 3⟩) 2
  constructor
  · obtain ⟨v, hv, -, hx, hy, hz⟩ := T.1 0 0 rfl
    refine ⟨v, hv, ?_, ?_, ?_⟩
    · rw [hx]; decide!
    · rw [hy]; decide!
    · rw [hz]; decide!
  · have hs : ((frictionLeverContact ℚ).calculateInternals sqrtQ
        (acceleratedBodies ℚ ⟨1, 2, 3⟩) 2).isSome = true := by decide!
    obtain ⟨c', hc'⟩ := Option.isSome_iff_exists.mp hs
    have hb : ((frictionLeverContact ℚ).calculateInternals sqrtQ
        (acceleratedBodies ℚ ⟨1, 2, 3⟩) 2).map (fun c' => c'.body 1) = some (some 1) := by
      decide!
    rw [hc'] at hb
    simp only [Option.map_some', Option.some.injEq] at hb
    obtain ⟨v0, h0, -, h1⟩ := T.2 c' hc'
    obtain ⟨v1, h1, hcv⟩ := h1 (by rw [hb]; simp)
    exact ⟨c', v0, v1, hc', h0, h1, hcv⟩

end Chaos
namespace Chaos

open Contact ContactResolver

/-- C14: for a present body `i` (with `angularInertia[i]`, `linearInertia[i]` as
the first loop of `applyPositionChange` computes them) and non-zero total inertia,
the second loop sets `linearChange[i]` to the normal times the final
`linearMove[i]`, the final `angularMove[i]` satisfies `|angularMove[i]| ≤ 0.2 * |r_i - (r_i · n) n|`,
the final `angularMove[i] + linearMove[i]` equals
`sign_i * penetration * (angularInertia[i] + linearInertia[i]) / totalInertia`
(sign `+1` for body 0, `-1` for body 1), and when the proportional `angularMove`
is within the limit both moves keep their proportional values. -/
theorem moves_within_angular_limit (ops : BodyOps ℝ) (c : Contact ℝ) (bodies : Bodies ℝ)
    (i : Fin 2) (penetration angularInertia linearInertia : ℝ) (st : Applied ℝ)
    (hin : c.inertiaOf bodies i = some (angularInertia, linearInertia))
    (hT : c.totalInertia bodies ≠ 0) :
    (c.applyPositionChangeBody ops Real.sqrt penetration (c.totalInertia bodies)
        (fun k => c.inertiaOf bodies k) i st).linear i
      = c.contactNormal.scale
          (c.moves Real.sqrt i penetration (c.totalInertia bodies) angularInertia
            linearInertia).2
    ∧ |(c.moves Real.sqrt i penetration (c.totalInertia bodies) angularInertia
        linearInertia).1|
      ≤ 1 / 5 * Vector3.magnitude Real.sqrt
          ((c.relativeContactPosition i).sub
            (c.contactNormal.scale
              ((c.relativeContactPosition i).scalarProduct c.contactNormal)))
    ∧ (c.moves Real.sqrt i penetration (c.totalInertia bodies) angularInertia
          linearInertia).1
        + (c.moves Real.sqrt i penetration (c.totalInertia bodies) angularInertia
          linearInertia).2
      = (if i = 0 then 1 else -1) * penetration * (angularInertia + linearInertia)
          / c.totalInertia bodies
    ∧ (|(if i = 0 then 1 else -1) * penetration
          * (angularInertia / c.totalInertia bodies)|
        ≤ 1 / 5 * Vector3.magnitude Real.sqrt
            ((c.relativeContactPosition i).sub
              (c.contactNormal.scale
                ((c.relativeContactPosition i).scalarProduct c.contactNormal))) →
        c.moves Real.sqrt i penetration (c.totalInertia bodies) angularInertia
            linearInertia
          = ((if i = 0 then 1 else -1) * penetration
              * (angularInertia / c.totalInertia bodies),
             (if i = 0 then 1 else -1) * penetration
              * (linearInertia / c.totalInertia bodies))) := by
  have hproj : (c.relativeContactPosition i).sub
      (c.contactNormal.scale ((c.relativeContactPosition i).scalarProduct c.contactNormal))
      = (c.relativeContactPosition i).addScaledVector c.contactNormal
          (-(c.relativeContactPosition i).scalarProduct c.contactNormal) := by
    simp only [Vector3.sub, Vector3.scale, Vector3.addScaledVector, Vector3.mk.injEq]
    refine ⟨?_, ?_, ?_⟩ <;> ring
  rw [hproj]
  refine ⟨?_, ?_⟩
  · have hb : ∃ p, c.body i = some p := by
      cases hc : c.body i with
      | none => simp [inertiaOf, hc] at hin
      | some p => exact ⟨p, rfl⟩
    obtain ⟨p, hp⟩ := hb
    simp only [applyPositionChangeBody, hp, hin, Function.update_same]
  generalize c.totalInertia bodies = T at hT ⊢
  have hmax : 0 ≤ (1 / 5 : ℝ) * Vector3.magnitude Real.sqrt
      ((c.relativeContactPosition i).addScaledVector c.contactNormal
        (-(c.relativeContactPosition i).scalarProduct c.contactNormal)) :=
    mul_nonneg (by norm_num) (Real.sqrt_nonneg _)
  simp only [moves, angularLimit]
  generalize (1 / 5 : ℝ) * Vector3.magnitude Real.sqrt
      ((c.relativeContactPosition i).addScaledVector c.contactNormal
        (-(c.relativeContactPosition i).scalarProduct c.contactNormal)) = M at hmax ⊢
  generalize (if i = 0 then (1 : ℝ) else -1) = sign
  by_cases h1 : sign * penetration * (angularInertia / T) < -M
  · simp only [if_pos h1]
    refine ⟨by rw [abs_neg, abs_of_nonneg hmax], by field_simp; ring, ?_⟩
    intro hle
    exact absurd h1 (not_lt.mpr (neg_le_of_abs_le hle))
  · simp only [if_neg h1]
    by_cases h2 : sign * penetration * (angularInertia / T) > M
    · simp only [if_pos h2]
      refine ⟨by rw [abs_of_nonneg hmax], by field_simp; ring, ?_⟩
      intro hle
      exact absurd h2 (not_lt.mpr (le_of_abs_le hle))
    · simp only [if_neg h2]
      refine ⟨abs_le.mpr ⟨not_lt.mp h1, not_lt.mp h2⟩, by field_simp; ring, fun _ => trivial⟩

/-- A contact arm of length 1 and a proportional angular move of `1/3`: the final
angular move is the limit `1/5` and the linear move takes the rest, `7/15`. -/
theorem moves_within_angular_limit_witness :
    (leverContact ℝ).inertiaOf (unitBodies ℝ) 0 = some (1, 1)
    ∧ (leverContact ℝ).totalInertia (unitBodies ℝ) = 3
    ∧ (leverContact ℝ).moves Real.sqrt 0 1 ((leverContact ℝ).totalInertia (unitBodies ℝ)) 1 1
        = (1 / 5, 7 / 15)
    ∧ |((leverContact ℝ).moves Real.sqrt 0 1 ((leverContact ℝ).totalInertia (unitBodies ℝ))
          1 1).1|
        ≤ 1 / 5 * Vector3.magnitude Real.sqrt
            (((leverContact ℝ).relativeContactPosition 0).sub
              ((leverContact ℝ).contactNormal.scale
                (((leverContact ℝ).relativeContactPosition 0).scalarProduct
                  (leverContact ℝ).contactNormal)))
    ∧ ((leverContact ℝ).moves Real.sqrt 0 1 ((leverContact ℝ).totalInertia (unitBodies ℝ))
          1 1).1
        + ((leverContact ℝ).moves Real.sqrt 0 1
            ((leverContact ℝ).totalInertia (unitBodies ℝ)) 1 1).2
      = (if (0 : Fin 2) = 0 then 1 else -1) * 1 * (1 + 1)
          / (leverContact ℝ).totalInertia (unitBodies ℝ) := by
  have hin : (leverContact ℝ).inertiaOf (unitBodies ℝ) 0 = some (1, 1) := by
    simp [inertiaOf, angularTerm, leverContact, unitBodies, pointBody, Vector3.vectorProduct,
      Vector3.scalarProduct, Matrix3.transform]
  have hT : (leverContact ℝ).totalInertia (unitBodies ℝ) = 3 := by
    simp [totalInertia, inertiaOf, angularTerm, leverContact, unitBodies, pointBody,
      Vector3.vectorProduct, Vector3.scalarProduct, Matrix3.transform, Vector3.clear]
    norm_num
  obtain ⟨-, h1, h2, -⟩ := moves_within_angular_limit (sampleOps ℝ) (leverContact ℝ)
    (unitBodies ℝ) 0 1 1 1 ⟨unitBodies ℝ, fun _ => Vector3.clear, fun _ => Vector3.clear⟩
    hin (by rw [hT]; norm_num)
  refine ⟨hin, hT, ?_, h1, h2⟩
  rw [hT]
  have hs : Real.sqrt (0 * 0 + 1 * 1 + 0 * 0) = 1 := by norm_num
  simp only [moves, angularLimit, leverContact, Vector3.addScaledVector, Vector3.scalarProduct,
    Vector3.magnitude, Matrix.cons_val_zero]
  norm_num

end Chaos
namespace Chaos

open Contact ContactResolver

section

variable {α : Type} [LinearOrderedField α]

/-- The scan after the first `k` contacts (`k ≤ n`): nothing found yet and no
metric above the epsilon, or the lowest index among the first `k` at which the
metric takes its maximum, that maximum being above the epsilon. -/
theorem worst_upto_exact (metric : Nat → α) (n : Nat) (epsilon : α) (k : Nat) (hk : k ≤ n) :
    (((List.range k).foldl
          (fun (acc : α × Nat) i => if metric i > acc.1 then (metric i, i) else acc)
          (epsilon, n)) = (epsilon, n)
        ∧ ∀ i, i < k → metric i ≤ epsilon)
    ∨ (((List.range k).foldl
          (fun (acc : α × Nat) i => if metric i > acc.1 then (metric i, i) else acc)
          (epsilon, n)).2 < k
        ∧ ((List.range k).foldl
          (fun (acc : α × Nat) i => if metric i > acc.1 then (metric i, i) else acc)
          (epsilon, n)).1
          = metric ((List.range k).foldl
              (fun (acc : α × Nat) i => if metric i > acc.1 then (metric i, i) else acc)
              (epsilon, n)).2
        ∧ epsilon < ((List.range k).foldl
          (fun (acc : α × Nat) i => if metric i > acc.1 then (metric i, i) else acc)
          (epsilon, n)).1
        ∧ (∀ i, i < k → metric i ≤ ((List.range k).foldl
          (fun (acc : α × Nat) i => if metric i > acc.1 then (metric i, i) else acc)
          (epsilon, n)).1)
        ∧ (∀ i, i < ((List.range k).foldl
              (fun (acc : α × Nat) i => if metric i > acc.1 then (metric i, i) else acc)
              (epsilon, n)).2 →
            metric i < ((List.range k).foldl
              (fun (acc : α × Nat) i => if metric i > acc.1 then (metric i, i) else acc)
              (epsilon, n)).1)) := by
  induction k with
  | zero => left; exact ⟨rfl, fun i hi => absurd hi (Nat.not_lt_zero i)⟩
  | succ k ih =>
    have ih' := ih (Nat.le_of_succ_le hk)
    rw [worst_succ]
    generalize (List.range k).foldl
      (fun (acc : α × Nat) i => if metric i > acc.1 then (metric i, i) else acc)
      (epsilon, n) = acc at ih' ⊢
    by_cases hgt : metric k > acc.1
    · simp only [if_pos hgt]
      right
      refine ⟨Nat.lt_succ_self k, trivial, ?_, ?_, ?_⟩
      · rcases ih' with ⟨he, -⟩ | ⟨-, -, he, -, -⟩
        · rw [he] at hgt; exact hgt
        · exact he.trans hgt
      · intro i hi
        rcases Nat.lt_succ_iff_lt_or_eq.mp hi with h | h
        · rcases ih' with ⟨he, hall⟩ | ⟨-, -, -, hall, -⟩
          · rw [he] at hgt; exact (hall i h).trans hgt.le
          · exact (hall i h).trans hgt.le
        · rw [h]
      · intro i hi
        rcases ih' with ⟨he, hall⟩ | ⟨-, -, -, hall, -⟩
        · rw [he] at hgt; exact lt_of_le_of_lt (hall i hi) hgt
        · exact lt_of_le_of_lt (hall i hi) hgt
    · simp only [if_neg hgt]
      rcases ih' with ⟨he, hall⟩ | ⟨hlt, hm, he, hall, hlow⟩
      · left
        refine ⟨he, ?_⟩
        intro i hi
        rcases Nat.lt_succ_iff_lt_or_eq.mp hi with h | h
        · exact hall i h
        · rw [h]; rw [he] at hgt; exact not_lt.mp hgt
      · right
        refine ⟨Nat.lt_succ_of_lt hlt, hm, he, ?_, hlow⟩
        intro i hi
        rcases Nat.lt_succ_iff_lt_or_eq.mp hi with h | h
        · exact hall i h
        · rw [h]; exact not_lt.mp hgt

/-- The scan finds nothing exactly when no metric exceeds the epsilon. -/
theorem worst_none (metric : Nat → α) (n : Nat) (epsilon : α)
    (h : ∀ i, i < n → metric i ≤ epsilon) : worst metric n epsilon = (epsilon, n) := by
  rcases worst_upto_exact metric n epsilon n le_rfl with ⟨he, -⟩ | ⟨hlt, hm, he, -, -⟩
  · exact he
  · exact absurd he (not_lt.mpr (by rw [hm]; exact h _ hlt))

/-- The scan returns the lowest index at which the metric takes its maximum, and
that maximum, when the maximum exceeds the epsilon. -/
theorem worst_eq (metric : Nat → α) (n : Nat) (epsilon : α) (index : Nat)
    (hi : index < n) (he : epsilon < metric index)
    (hmax : ∀ i, i < n → metric i ≤ metric index)
    (hlow : ∀ i, i < index → metric i < metric index) :
    worst metric n epsilon = (metric index, index) := by
  rcases worst_upto_exact metric n epsilon n le_rfl with ⟨-, hall⟩ | ⟨hlt, hm, -, hall, hl⟩
  · exact absurd he (not_lt.mpr (hall index hi))
  · have hj : (worst metric n epsilon).2 = index := by
      rcases Nat.lt_trichotomy (worst metric n epsilon).2 index with h | h | h
      · have := hlow _ h
        have h2 := hall index hi
        rw [hm] at h2
        exact absurd this (not_lt.mpr h2)
      · exact h
      · have := hl index h
        rw [hm] at this
        exact absurd this (not_lt.mpr (hmax _ hlt))
    have h1 : (worst metric n epsilon).1 = metric index := by
      have := hm
      unfold worst
      rw [this]
      exact congrArg metric hj
    exact Prod.ext h1 hj

/-- When some metric exceeds the epsilon there is a lowest index at which the
metric takes its maximum. -/
theorem exists_lowest_max (metric : Nat → α) (n : Nat) (epsilon : α)
    (h : ∃ i, i < n ∧ epsilon < metric i) :
    ∃ index, index < n ∧ epsilon < metric index
      ∧ (∀ i, i < n → metric i ≤ metric index)
      ∧ (∀ i, i < index → metric i < metric index) := by
  rcases worst_upto_exact metric n epsilon n le_rfl with ⟨-, hall⟩ | ⟨hlt, hm, he, hall, hl⟩
  · obtain ⟨i, hi, hgt⟩ := h
    exact absurd hgt (not_lt.mpr (hall i hi))
  · refine ⟨_, hlt, by rw [← hm]; exact he, ?_, ?_⟩
    · intro i hi; rw [← hm]; exact hall i hi
    · intro i hi; rw [← hm]; exact hl i hi

/-- C11: in every iteration of `adjustPositions` the contact chosen is the one
with the lowest index among those whose penetration is the maximum of the batch,
provided that maximum exceeds `positionEpsilon`, and `applyPositionChange` is called
on it with that maximum; if no penetration exceeds `positionEpsilon` the loop stops
at once, with contacts, bodies and counter unchanged (so `adjustPositions` returns
the world it was given). `adjustVelocities` does the same with
`desiredDeltaVelocity` and `velocityEpsilon`. -/
theorem worst_first_selection (ops : BodyOps α) (real_sqrt : α → α)
    (r : ContactResolver α) (w : World α) (s : LoopState α)
    (numContacts left used : Nat) (duration : α) :
    ((∀ i, i < numContacts → (s.c i).penetration ≤ r.positionEpsilon) →
      adjustPositionsLoop ops real_sqrt r.positionEpsilon numContacts left used s
        = some (used, s))
    ∧ ((∀ i, i < numContacts → (w.c i).penetration ≤ r.positionEpsilon) →
        adjustPositions ops real_sqrt r w numContacts duration
          = some ({ r with positionIterationsUsed := 0 }, w))
    ∧ ((∃ i, i < numContacts ∧ r.positionEpsilon < (s.c i).penetration) →
        ∃ index, index < numContacts ∧ r.positionEpsilon < (s.c index).penetration
          ∧ (∀ i, i < numContacts → (s.c i).penetration ≤ (s.c index).penetration)
          ∧ (∀ i, i < index → (s.c i).penetration < (s.c index).penetration))
    ∧ (∀ index, index < numContacts → r.positionEpsilon < (s.c index).penetration →
        (∀ i, i < numContacts → (s.c i).penetration ≤ (s.c index).penetration) →
        (∀ i, i < index → (s.c i).penetration < (s.c index).penetration) →
        adjustPositionsLoop ops real_sqrt r.positionEpsilon numContacts (left + 1) used s
            = (positionIteration ops real_sqrt numContacts index (s.c index).penetration
                s).bind
              (fun s' => adjustPositionsLoop ops real_sqrt r.positionEpsilon numContacts
                left (used + 1) s')
          ∧ positionIteration ops real_sqrt numContacts index (s.c index).penetration s
            = ((s.c index).matchAwakeState s.bodies).map (fun bodies =>
                ⟨propagatePositions
                    ((s.c index).applyPositionChange ops real_sqrt bodies s.linear s.angular
                      (s.c index).penetration).linear
                    ((s.c index).applyPositionChange ops real_sqrt bodies s.linear s.angular
                      (s.c index).penetration).angular
                    index numContacts s.c,
                  ((s.c index).applyPositionChange ops real_sqrt bodies s.linear s.angular
                    (s.c index).penetration).bodies,
                  ((s.c index).applyPositionChange ops real_sqrt bodies s.linear s.angular
                    (s.c index).penetration).linear,
                  ((s.c index).applyPositionChange ops real_sqrt bodies s.linear s.angular
                    (s.c index).penetration).angular⟩))
    ∧ ((∀ i, i < numContacts → (s.c i).desiredDeltaVelocity ≤ r.velocityEpsilon) →
        adjustVelocitiesLoop real_sqrt r.velocityEpsilon numContacts duration left used s
          = some (used, s))
    ∧ ((∀ i, i < numContacts → (w.c i).desiredDeltaVelocity ≤ r.velocityEpsilon) →
        adjustVelocities real_sqrt r w numContacts duration
          = some ({ r with velocityIterationsUsed := 0 }, w))
    ∧ ((∃ i, i < numContacts ∧ r.velocityEpsilon < (s.c i).desiredDeltaVelocity) →
        ∃ index, index < numContacts ∧ r.velocityEpsilon < (s.c index).desiredDeltaVelocity
          ∧ (∀ i, i < numContacts →
              (s.c i).desiredDeltaVelocity ≤ (s.c index).desiredDeltaVelocity)
          ∧ (∀ i, i < index →
              (s.c i).desiredDeltaVelocity < (s.c index).desiredDeltaVelocity))
    ∧ (∀ index, index < numContacts → r.velocityEpsilon < (s.c index).desiredDeltaVelocity →
        (∀ i, i < numContacts →
          (s.c i).desiredDeltaVelocity ≤ (s.c index).desiredDeltaVelocity) →
        (∀ i, i < index → (s.c i).desiredDeltaVelocity < (s.c index).desiredDeltaVelocity) →
        adjustVelocitiesLoop real_sqrt r.velocityEpsilon numContacts duration (left + 1)
            used s
          = (velocityIteration real_sqrt numContacts duration index s).bind
              (fun s' => adjustVelocitiesLoop real_sqrt r.velocityEpsilon numContacts
                duration left (used + 1) s')) := by
  have stop : ∀ {σ : Type} (scan : σ → α × Nat) (iteration : Nat → α → σ → Option σ)
      (st : σ) (k u : Nat), (scan st).2 = numContacts →
      cappedLoop numContacts scan iteration k u st = some (u, st) := by
    intro σ scan iteration st k u h
    cases k with
    | zero => rfl
    | succ k => simp only [cappedLoop, if_pos h]
  refine ⟨?_, ?_, ?_, ?_, ?_, ?_, ?_, ?_⟩
  · intro h
    exact stop _ _ s left used (by rw [worst_none _ _ _ h])
  · intro h
    have := stop (fun s : LoopState α => worst (fun i => (s.c i).penetration) numContacts
        r.positionEpsilon)
      (fun index max s => positionIteration ops real_sqrt numContacts index max s)
      ⟨w.c, w.bodies, fun _ => Vector3.clear, fun _ => Vector3.clear⟩ r.positionIterations 0
      (by
        show (worst (fun i => (w.c i).penetration) numContacts r.positionEpsilon).2
          = numContacts
        rw [worst_none _ _ _ h])
    simp only [adjustPositions, adjustPositionsLoop, this]
  · exact exists_lowest_max _ _ _
  · intro index hi he hmax hlow
    have hw := worst_eq (fun i => (s.c i).penetration) numContacts r.positionEpsilon index
      hi he hmax hlow
    constructor
    · simp only [adjustPositionsLoop, cappedLoop, hw, if_neg (Nat.ne_of_lt hi)]
      cases positionIteration ops real_sqrt numContacts index (s.c index).penetration s <;> rfl
    · simp only [positionIteration]
      cases (s.c index).matchAwakeState s.bodies <;> rfl
  · intro h
    exact stop _ _ s left used (by rw [worst_none _ _ _ h])
  · intro h
    have := stop (fun s : LoopState α => worst (fun i => (s.c i).desiredDeltaVelocity)
        numContacts r.velocityEpsilon)
      (fun index _ s => velocityIteration real_sqrt numContacts duration index s)
      ⟨w.c, w.bodies, fun _ => Vector3.clear, fun _ => Vector3.clear⟩ r.velocityIterations 0
      (by
        show (worst (fun i => (w.c i).desiredDeltaVelocity) numContacts r.velocityEpsilon).2
          = numContacts
        rw [worst_none _ _ _ h])
    simp only [adjustVelocities, adjustVelocitiesLoop, this]
  · exact exists_lowest_max _ _ _
  · intro index hi he hmax hlow
    have hw := worst_eq (fun i => (s.c i).desiredDeltaVelocity) numContacts r.velocityEpsilon
      index hi he hmax hlow
    simp only [adjustVelocitiesLoop, cappedLoop, hw, if_neg (Nat.ne_of_lt hi)]
    cases velocityIteration real_sqrt numContacts duration index s <;> rfl

end

/-- Two contacts with equal penetration 1: the first is chosen, its penetration
goes to 0 and the other's to 2; with `positionEpsilon = 5` nothing is chosen and
the world is returned as it was. -/
theorem worst_first_selection_witness :
    adjustPositionsLoop (sampleOps ℚ) sqrtQ (twoStepResolver ℚ).positionEpsilon 2 1 0
        ⟨(sandwichWorld ℚ).c, (sandwichWorld ℚ).bodies, fun _ => Vector3.clear,
          fun _ => Vector3.clear⟩
      = (positionIteration (sampleOps ℚ) sqrtQ 2 0 ((sandwichWorld ℚ).c 0).penetration
          ⟨(sandwichWorld ℚ).c, (sandwichWorld ℚ).bodies, fun _ => Vector3.clear,
            fun _ => Vector3.clear⟩).bind
          (fun s' => adjustPositionsLoop (sampleOps ℚ) sqrtQ
            (twoStepResolver ℚ).positionEpsilon 2 0 1 s')
    ∧ (adjustPositionsLoop (sampleOps ℚ) sqrtQ (twoStepResolver ℚ).positionEpsilon 2 1 0
        ⟨(sandwichWorld ℚ).c, (sandwichWorld ℚ).bodies, fun _ => Vector3.clear,
          fun _ => Vector3.clear⟩).map
        (fun p => (p.1, (p.2.c 0).penetration, (p.2.c 1).penetration)) = some (1, 0, 2)
    ∧ adjustPositions (sampleOps ℚ) sqrtQ { twoStepResolver ℚ with positionEpsilon := 5 }
          (sandwichWorld ℚ) 2 0
        = some ({ twoStepResolver ℚ with positionEpsilon := 5, positionIterationsUsed := 0 },
            sandwichWorld ℚ) := by
  have hpen : ∀ i, ((sandwichWorld ℚ).c i).penetration = 1 := fun _ => rfl
  refine ⟨?_, by decide!, ?_⟩
  · exact ((worst_first_selection (sampleOps ℚ) sqrtQ (twoStepResolver ℚ) (sandwichWorld ℚ)
      ⟨(sandwichWorld ℚ).c, (sandwichWorld ℚ).bodies, fun _ => Vector3.clear,
        fun _ => Vector3.clear⟩ 2 0 0 0).2.2.2.1 0 (by norm_num)
      (by rw [hpen]; norm_num [twoStepResolver])
      (fun i _ => by rw [hpen, hpen])
      (fun i hi => absurd hi (Nat.not_lt_zero i))).1
  · exact (worst_first_selection (sampleOps ℚ) sqrtQ
      { twoStepResolver ℚ with positionEpsilon := 5 } (sandwichWorld ℚ)
      ⟨(sandwichWorld ℚ).c, (sandwichWorld ℚ).bodies, fun _ => Vector3.clear,
        fun _ => Vector3.clear⟩ 2 0 0 0).2.1
      (fun i _ => by rw [hpen]; norm_num)

end Chaos
namespace Chaos

open Contact ContactResolver

section

variable {α : Type} [LinearOrderedField α]

/-! ### Propagation -/

theorem positionUpdate_eq (lc ac : Fin 2 → Vector3 α) (chosen : Fin 2 → Option Nat)
    (b d : Fin 2) (ci : Contact α) :
    positionUpdate lc ac chosen b d ci
      = { ci with penetration := ci.penetration + penetrationShare lc ac chosen b d ci } := by
  unfold positionUpdate penetrationShare
  by_cases h : ci.body b ≠ none ∧ ci.body b = chosen d
  · simp only [if_pos h]
    congr 1
    ring
  · simp only [if_neg h, add_zero]

/-- The four guarded updates that the propagation of `adjustPositions` makes to
one contact. -/
theorem positionUpdates_eq (lc ac : Fin 2 → Vector3 α) (chosen : Fin 2 → Option Nat)
    (ci : Contact α) :
    positionUpdate lc ac chosen 1 1
        (positionUpdate lc ac chosen 1 0
          (positionUpdate lc ac chosen 0 1 (positionUpdate lc ac chosen 0 0 ci)))
      = { ci with
          penetration :=
            ci.penetration
              + (penetrationShare lc ac chosen 0 0 ci + penetrationShare lc ac chosen 0 1 ci
                + penetrationShare lc ac chosen 1 0 ci
                + penetrationShare lc ac chosen 1 1 ci) } := by
  simp only [positionUpdate_eq, penetrationShare]
  congr 1
  ring

theorem propagatePositions_apply (lc ac : Fin 2 → Vector3 α) (index n : Nat)
    (c : Nat → Contact α) (i : Nat) :
    propagatePositions lc ac index n c i
      = if i < n then
          { c i with
            penetration :=
              (c i).penetration
                + (penetrationShare lc ac (c index).body 0 0 (c i)
                  + penetrationShare lc ac (c index).body 0 1 (c i)
                  + penetrationShare lc ac (c index).body 1 0 (c i)
                  + penetrationShare lc ac (c index).body 1 1 (c i)) }
        else c i := by
  revert i
  induction n with
  | zero => intro i; simp [propagatePositions]
  | succ n ih =>
    intro i
    have hbody := propagatePositions_body lc ac index n c index
    have hn : propagatePositions lc ac index n c n = c n := by
      rw [ih n, if_neg (lt_irrefl n)]
    have step : propagatePositions lc ac index (n + 1) c
        = Function.update (propagatePositions lc ac index n c) n
            (positionUpdate lc ac (propagatePositions lc ac index n c index).body 1 1
              (positionUpdate lc ac (propagatePositions lc ac index n c index).body 1 0
                (positionUpdate lc ac (propagatePositions lc ac index n c index).body 0 1
                  (positionUpdate lc ac (propagatePositions lc ac index n c index).body 0 0
                    (propagatePositions lc ac index n c n))))) := by
      unfold propagatePositions
      rw [List.range_succ, List.foldl_append]
      rfl
    rw [step, hbody, hn, positionUpdates_eq]
    by_cases h : i = n
    · subst h
      rw [Function.update_same, if_pos (Nat.lt_succ_self i)]
    · rw [Function.update_noteq h, ih i]
      by_cases hlt : i < n
      · rw [if_pos hlt, if_pos (Nat.lt_succ_of_lt hlt)]
      · rw [if_neg hlt, if_neg (by omega)]

/-- C12: when one iteration of `adjustPositions` resolves contact `index`, the
arrays it keeps are the displacements `applyPositionChange` returned, and every
contact `i` of the batch has its penetration changed by the sum, over the pairs
`(b, d)` for which its slot `b` holds the body of slot `d` of the chosen contact,
of `(b = 0 ? -1 : +1) * ((linearChange[d] + angularChange[d] × r_b) · n)` with its own
`r_b` and `n`; no other field of the contact changes (normal, basis and relative
positions are not recomputed), and a contact sharing no body with the chosen one is
unchanged. -/
theorem position_propagation (ops : BodyOps α) (real_sqrt : α → α) (numContacts index : Nat)
    (max : α) (s s' : LoopState α)
    (h : positionIteration ops real_sqrt numContacts index max s = some s') :
    (∃ bodies, (s.c index).matchAwakeState s.bodies = some bodies
      ∧ s'.linear = ((s.c index).applyPositionChange ops real_sqrt bodies s.linear s.angular
          max).linear
      ∧ s'.angular = ((s.c index).applyPositionChange ops real_sqrt bodies s.linear
          s.angular max).angular)
    ∧ ∀ i, i < numContacts →
        s'.c i = { s.c i with
            penetration :=
              (s.c i).penetration
                + (penetrationShare s'.linear s'.angular (s.c index).body 0 0 (s.c i)
                  + penetrationShare s'.linear s'.angular (s.c index).body 0 1 (s.c i)
                  + penetrationShare s'.linear s'.angular (s.c index).body 1 0 (s.c i)
                  + penetrationShare s'.linear s'.angular (s.c index).body 1 1 (s.c i)) }
        ∧ (s'.c i).contactNormal = (s.c i).contactNormal
        ∧ (s'.c i).contactToWorld = (s.c i).contactToWorld
        ∧ (s'.c i).relativeContactPosition = (s.c i).relativeContactPosition
        ∧ ((∀ b d, ¬ sharesBody (s.c index).body b d (s.c i)) → s'.c i = s.c i) := by
  simp only [positionIteration] at h
  cases hm : (s.c index).matchAwakeState s.bodies with
  | none => rw [hm] at h; exact Option.noConfusion h
  | some bodies =>
    rw [hm] at h
    simp only [Option.some.injEq] at h
    subst h
    refine ⟨⟨bodies, rfl, rfl, rfl⟩, ?_⟩
    intro i hi
    have hval := propagatePositions_apply
      ((s.c index).applyPositionChange ops real_sqrt bodies s.linear s.angular max).linear
      ((s.c index).applyPositionChange ops real_sqrt bodies s.linear s.angular max).angular
      index numContacts s.c i
    rw [if_pos hi] at hval
    have hn := congrArg Contact.contactNormal hval
    have hw := congrArg Contact.contactToWorld hval
    have hr := congrArg Contact.relativeContactPosition hval
    refine ⟨hval, hn, hw, hr, ?_⟩
    intro hno
    refine hval.trans ?_
    have z : ∀ b d, penetrationShare
        ((s.c index).applyPositionChange ops real_sqrt bodies s.linear s.angular max).linear
        ((s.c index).applyPositionChange ops real_sqrt bodies s.linear s.angular max).angular
        (s.c index).body b d (s.c i) = 0 := by
      intro b d
      unfold penetrationShare
      exact if_neg (hno b d)
    simp only [z, add_zero]

end

/-- Resolving contact 0 (normal `(1, 0, 0)`, penetration 1) moves the shared body
by `(1, 0, 0)`: contact 1, with normal `(3/5, 4/5, 0)`, goes from `1/2` to
`1/2 - 3/5`, its normal untouched, and contact 2 on another body is unchanged. -/
theorem position_propagation_witness :
    ∃ s', positionIteration (sampleOps ℚ) sqrtQ 3 0 1
          ⟨(cornerWorld ℚ).c, (cornerWorld ℚ).bodies, fun _ => Vector3.clear,
            fun _ => Vector3.clear⟩ = some s'
      ∧ s'.linear 0 = ⟨1, 0, 0⟩
      ∧ (s'.c 0).penetration = 0
      ∧ (s'.c 1).penetration = -(1 / 10)
      ∧ (s'.c 1).contactNormal = ⟨3 / 5, 4 / 5, 0⟩
      ∧ s'.c 2 = (cornerWorld ℚ).c 2 := by
  obtain ⟨s', hs', -⟩ := positionIteration_some (sampleOps ℚ) sqrtQ 3 0 1
    ⟨(cornerWorld ℚ).c, (cornerWorld ℚ).bodies, fun _ => Vector3.clear,
      fun _ => Vector3.clear⟩
    (fun i _ => by
      by_cases h0 : i = 0
      · exact ⟨0, by simp [cornerWorld, h0, contactWithNormal]⟩
      · by_cases h1 : i = 1
        · exact ⟨0, by simp [cornerWorld, h1, contactWithNormal]⟩
        · exact ⟨7, by simp [cornerWorld, h0, h1]⟩)
    (by norm_num)
  obtain ⟨-, hall⟩ := position_propagation (sampleOps ℚ) sqrtQ 3 0 1 _ s' hs'
  have D : (positionIteration (sampleOps ℚ) sqrtQ 3 0 1
      ⟨(cornerWorld ℚ).c, (cornerWorld ℚ).bodies, fun _ => Vector3.clear,
        fun _ => Vector3.clear⟩).map
      (fun s' => ((s'.linear 0).x, (s'.linear 0).y, (s'.linear 0).z, (s'.c 0).penetration,
        (s'.c 1).penetration)) = some (1, 0, 0, 0, -(1 / 10)) := by decide!
  rw [hs'] at D
  simp only [Option.map_some', Option.some.injEq, Prod.mk.injEq] at D
  obtain ⟨dx, dy, dz, d0, d1⟩ := D
  refine ⟨s', hs', Vector3.ext dx dy dz, d0, d1, ?_, ?_⟩
  · rw [(hall 1 (by norm_num)).2.1]
    simp [cornerWorld, contactWithNormal]
  · exact (hall 2 (by norm_num)).2.2.2.2 (by
      intro b d
      fin_cases b <;> fin_cases d <;> simp [sharesBody, cornerWorld, contactWithNormal])

end Chaos
namespace Chaos

open Contact ContactResolver

section

variable {α : Type} [LinearOrderedField α]

theorem Vector3.add_clear (v : Vector3 α) : v.add Vector3.clear = v := by
  simp [Vector3.add, Vector3.clear]

/-- One guarded update of the velocity propagation, on a contact `c` that
differs from `ci` in `contactVelocity` and `desiredDeltaVelocity` only: the
contact velocity grows by the share of the pair, the other fields stay those of
`ci`, and once a pair has matched the contact is what
`calculateDesiredDeltaVelocity` makes of `ci` with the accumulated velocity. -/
theorem velocityUpdate_step (bodies : Bodies α) (duration : α)
    (vc rc : Fin 2 → Vector3 α) (chosen : Fin 2 → Option Nat) (b d : Fin 2)
    (ci c c' : Contact α) (m : Prop)
    (hform : c = { ci with contactVelocity := c.contactVelocity,
                           desiredDeltaVelocity := c.desiredDeltaVelocity })
    (hm : m → ({ ci with contactVelocity := c.contactVelocity }).calculateDesiredDeltaVelocity
              bodies duration = some c)
    (hnm : ¬ m → c = ci)
    (h : velocityUpdate bodies duration vc rc chosen b d c = some c') :
    c' = { ci with contactVelocity := c'.contactVelocity,
                   desiredDeltaVelocity := c'.desiredDeltaVelocity }
    ∧ c'.contactVelocity = c.contactVelocity.add (velocityShare vc rc chosen b d ci)
    ∧ ((m ∨ sharesBody chosen b d ci) →
        ({ ci with contactVelocity := c'.contactVelocity }).calculateDesiredDeltaVelocity
          bodies duration = some c')
    ∧ (¬ (m ∨ sharesBody chosen b d ci) → c' = ci) := by
  have hbody : c.body = ci.body := by rw [hform]
  have hrcp : c.relativeContactPosition = ci.relativeContactPosition := by rw [hform]
  have hctw : c.contactToWorld = ci.contactToWorld := by rw [hform]
  unfold velocityUpdate at h
  by_cases hs : sharesBody chosen b d ci
  · have hs' : c.body b ≠ none ∧ c.body b = chosen d := by rw [hbody]; exact hs
    rw [if_pos hs'] at h
    have hshare : velocityShare vc rc chosen b d ci
        = (ci.contactToWorld.transformTranspose
            ((vc d).add ((rc d).vectorProduct (ci.relativeContactPosition b)))).scale
            (if b = 0 then 1 else -1) := by
      unfold velocityShare
      exact if_pos hs
    rw [hshare]
    simp only [hrcp, hctw] at h
    generalize c.contactVelocity.add
      ((ci.contactToWorld.transformTranspose
        ((vc d).add ((rc d).vectorProduct (ci.relativeContactPosition b)))).scale
        (if b = 0 then 1 else -1)) = v at h ⊢
    rw [hform] at h
    simp only [calculateDesiredDeltaVelocity] at h
    cases h0 : ci.body 0 with
    | none => rw [h0] at h; exact Option.noConfusion h
    | some p0 =>
      rw [h0] at h
      simp only [Option.some.injEq] at h
      subst h
      refine ⟨rfl, rfl, ?_, fun hn => absurd (Or.inr hs) hn⟩
      intro _
      simp only [calculateDesiredDeltaVelocity, h0]
      rfl
  · have hs' : ¬ (c.body b ≠ none ∧ c.body b = chosen d) := by rw [hbody]; exact hs
    rw [if_neg hs'] at h
    simp only [Option.some.injEq] at h
    subst h
    have hshare : velocityShare vc rc chosen b d ci = Vector3.clear := by
      unfold velocityShare
      exact if_neg hs
    rw [hshare, Vector3.add_clear]
    refine ⟨hform, rfl, ?_, ?_⟩
    · intro h'
      exact hm (h'.resolve_right hs)
    · intro h'
      exact hnm (fun hmm => h' (Or.inl hmm))

/-- The four guarded updates that the propagation of `adjustVelocities` makes to
one contact, when all four return. -/
theorem velocityUpdates_eq (bodies : Bodies α) (duration : α)
    (vc rc : Fin 2 → Vector3 α) (chosen : Fin 2 → Option Nat) (ci c1 c2 c3 c4 : Contact α)
    (h1 : velocityUpdate bodies duration vc rc chosen 0 0 ci = some c1)
    (h2 : velocityUpdate bodies duration vc rc chosen 0 1 c1 = some c2)
    (h3 : velocityUpdate bodies duration vc rc chosen 1 0 c2 = some c3)
    (h4 : velocityUpdate bodies duration vc rc chosen 1 1 c3 = some c4) :
    c4 = { ci with contactVelocity := c4.contactVelocity,
                   desiredDeltaVelocity := c4.desiredDeltaVelocity }
    ∧ c4.contactVelocity
        = (((ci.contactVelocity.add (velocityShare vc rc chosen 0 0 ci)).add
              (velocityShare vc rc chosen 0 1 ci)).add
            (velocityShare vc rc chosen 1 0 ci)).add
          (velocityShare vc rc chosen 1 1 ci)
    ∧ ((∃ b d, sharesBody chosen b d ci) →
        ({ ci with contactVelocity := c4.contactVelocity }).calculateDesiredDeltaVelocity
          bodies duration = some c4)
    ∧ ((∀ b d, ¬ sharesBody chosen b d ci) → c4 = ci) := by
  obtain ⟨f1, v1, m1, n1⟩ := velocityUpdate_step bodies duration vc rc chosen 0 0 ci ci c1
    False rfl (fun hf => hf.elim) (fun _ => rfl) h1
  obtain ⟨f2, v2, m2, n2⟩ := velocityUpdate_step bodies duration vc rc chosen 0 1 ci c1 c2
    _ f1 m1 n1 h2
  obtain ⟨f3, v3, m3, n3⟩ := velocityUpdate_step bodies duration vc rc chosen 1 0 ci c2 c3
    _ f2 m2 n2 h3
  obtain ⟨f4, v4, m4, n4⟩ := velocityUpdate_step bodies duration vc rc chosen 1 1 ci c3 c4
    _ f3 m3 n3 h4
  refine ⟨f4, by rw [v4, v3, v2, v1], ?_, ?_⟩
  · rintro ⟨b, d, hs⟩
    apply m4
    fin_cases b <;> fin_cases d
    · exact Or.inl (Or.inl (Or.inl (Or.inr hs)))
    · exact Or.inl (Or.inl (Or.inr hs))
    · exact Or.inl (Or.inr hs)
    · exact Or.inr hs
  · intro hno
    apply n4
    rintro (((( hf | h ) | h ) | h ) | h)
    · exact hf
    · exact hno 0 0 h
    · exact hno 0 1 h
    · exact hno 1 0 h
    · exact hno 1 1 h

theorem propagateVelocities_apply (bodies : Bodies α) (duration : α)
    (vc rc : Fin 2 → Vector3 α) (index n : Nat) (c c' : Nat → Contact α)
    (h : propagateVelocities bodies duration vc rc index n c = some c') :
    (∀ i, i < n →
      c' i = { c i with contactVelocity := (c' i).contactVelocity,
                        desiredDeltaVelocity := (c' i).desiredDeltaVelocity }
      ∧ (c' i).contactVelocity
          = ((((c i).contactVelocity.add (velocityShare vc rc (c index).body 0 0 (c i))).add
                (velocityShare vc rc (c index).body 0 1 (c i))).add
              (velocityShare vc rc (c index).body 1 0 (c i))).add
            (velocityShare vc rc (c index).body 1 1 (c i))
      ∧ ((∃ b d, sharesBody (c index).body b d (c i)) →
          ({ c i with contactVelocity := (c' i).contactVelocity }).calculateDesiredDeltaVelocity
            bodies duration = some (c' i))
      ∧ ((∀ b d, ¬ sharesBody (c index).body b d (c i)) → c' i = c i))
    ∧ (∀ i, n ≤ i → c' i = c i) := by
  revert c'
  induction n with
  | zero =>
    intro c' h
    simp only [propagateVelocities, List.range_zero, List.foldlM_nil] at h
    have e : c = c' := Option.some.inj h
    subst e
    exact ⟨fun i hi => absurd hi (Nat.not_lt_zero i), fun _ _ => rfl⟩
  | succ n ih =>
    intro c' h
    unfold propagateVelocities at h
    rw [List.range_succ, List.foldlM_append] at h
    cases hn : propagateVelocities bodies duration vc rc index n c with
    | none =>
      unfold propagateVelocities at hn
      rw [hn] at h
      exact Option.noConfusion h
    | some cn =>
      obtain ⟨ihlt, ihge⟩ := ih cn hn
      unfold propagateVelocities at hn
      rw [hn] at h
      simp only [List.foldlM_cons, List.foldlM_nil, Option.some_bind, Option.bind_eq_bind] at h
      have hbody : (cn index).body = (c index).body := by
        by_cases hi : index < n
        · rw [(ihlt index hi).1]
        · rw [ihge index (not_lt.mp hi)]
      have hcn : cn n = c n := ihge n le_rfl
      rw [hbody, hcn] at h
      cases h1 : velocityUpdate bodies duration vc rc (c index).body 0 0 (c n) with
      | none => simp [h1] at h
      | some c1 =>
      simp only [h1] at h
      cases h2 : velocityUpdate bodies duration vc rc (c index).body 0 1 c1 with
      | none => simp [h2] at h
      | some c2 =>
      simp only [h2] at h
      cases h3 : velocityUpdate bodies duration vc rc (c index).body 1 0 c2 with
      | none => simp [h3] at h
      | some c3 =>
      simp only [h3] at h
      cases h4 : velocityUpdate bodies duration vc rc (c index).body 1 1 c3 with
      | none => simp [h4] at h
      | some c4 =>
      simp only [h4] at h
      have e : Function.update cn n c4 = c' := by
        simpa using h
      subst e
      have key := velocityUpdates_eq bodies duration vc rc (c index).body (c n) c1 c2 c3 c4
        h1 h2 h3 h4
      constructor
      · intro i hi
        by_cases hin : i = n
        · subst hin
          simp only [Function.update_same]
          exact key
        · simp only [Function.update_noteq hin]
          exact ihlt i (by omega)
      · intro i hi
        have hin : i ≠ n := by omega
        simp only [Function.update_noteq hin]
        exact ihge i (by omega)

/-- C13: when one iteration of `adjustVelocities` resolves contact `index`, the
arrays and bodies it keeps are those `applyVelocityChange` returned, and every
contact `i` of the batch has `contactVelocity` increased by the sum, over the pairs
`(b, d)` for which its slot `b` holds the body of slot `d` of the chosen contact, of
`(b = 0 ? +1 : -1) * contactToWorldᵀ (velocityChange[d] + rotationChange[d] × r_b)`
with its own basis and `r_b`; if some pair matches, the contact is then what
`calculateDesiredDeltaVelocity` makes of it with the updated `contactVelocity`; only
`contactVelocity` and `desiredDeltaVelocity` change, and a contact sharing no body
with the chosen one is unchanged. -/
theorem velocity_propagation (real_sqrt : α → α) (numContacts : Nat) (duration : α)
    (index : Nat) (s s' : LoopState α)
    (h : velocityIteration real_sqrt numContacts duration index s = some s') :
    (∃ bodies, (s.c index).matchAwakeState s.bodies = some bodies
      ∧ (s.c index).applyVelocityChange real_sqrt bodies s.linear s.angular
          = some ⟨s'.bodies, s'.linear, s'.angular⟩)
    ∧ ∀ i, i < numContacts →
        s'.c i = { s.c i with contactVelocity := (s'.c i).contactVelocity,
                              desiredDeltaVelocity := (s'.c i).desiredDeltaVelocity }
        ∧ (s'.c i).contactVelocity
            = ((((s.c i).contactVelocity.add
                    (velocityShare s'.linear s'.angular (s.c index).body 0 0 (s.c i))).add
                  (velocityShare s'.linear s'.angular (s.c index).body 0 1 (s.c i))).add
                (velocityShare s'.linear s'.angular (s.c index).body 1 0 (s.c i))).add
              (velocityShare s'.linear s'.angular (s.c index).body 1 1 (s.c i))
        ∧ ((∃ b d, sharesBody (s.c index).body b d (s.c i)) →
            ({ s.c i with
                contactVelocity := (s'.c i).contactVelocity }).calculateDesiredDeltaVelocity
              s'.bodies duration = some (s'.c i))
        ∧ ((∀ b d, ¬ sharesBody (s.c index).body b d (s.c i)) → s'.c i = s.c i) := by
  simp only [velocityIteration] at h
  cases hm : (s.c index).matchAwakeState s.bodies with
  | none => simp [hm] at h
  | some bodies =>
    simp only [hm] at h
    cases ha : (s.c index).applyVelocityChange real_sqrt bodies s.linear s.angular with
    | none => simp [ha] at h
    | some a =>
      simp only [ha] at h
      cases hp : propagateVelocities a.bodies duration a.linear a.angular index numContacts
          s.c with
      | none => simp [hp] at h
      | some c' =>
        simp only [hp, Option.some.injEq] at h
        subst h
        exact ⟨⟨bodies, rfl, ha⟩,
          (propagateVelocities_apply a.bodies duration a.linear a.angular index numContacts
            s.c c' hp).1⟩

end

/-- Resolving contact 0 (normal `(1, 0, 0)`) changes the shared body's velocity by
`(1, 0, 0)`: contact 1, with normal `(3/5, 4/5, 0)`, has its normal contact velocity
taken from `-7/5` to `-4/5` and its desired change recomputed to `4/5`, and
contact 2 on another body is unchanged. -/
theorem velocity_propagation_witness :
    ∃ w1 s', prepareContacts sqrtQ (cornerWorld ℚ) 3 0 = some w1
      ∧ velocityIteration sqrtQ 3 0 0
          ⟨w1.c, w1.bodies, fun _ => Vector3.clear, fun _ => Vector3.clear⟩ = some s'
      ∧ (w1.c 1).contactVelocity.x = -(7 / 5)
      ∧ (s'.c 1).contactVelocity.x = -(4 / 5)
      ∧ (s'.c 1).desiredDeltaVelocity = 4 / 5
      ∧ s'.c 2 = w1.c 2 := by
  obtain ⟨w1, h1, hb1, -⟩ := prepareContacts_upto sqrtQ (cornerWorld ℚ) 0 3
    (fun i _ => Or.inl (by
      by_cases h0 : i = 0
      · simp [cornerWorld, h0, contactWithNormal]
      · by_cases h1 : i = 1
        · simp [cornerWorld, h1, contactWithNormal]
        · simp [cornerWorld, h0, h1]))
  obtain ⟨s', hs', -⟩ := velocityIteration_some sqrtQ 3 0 0
    ⟨w1.c, w1.bodies, fun _ => Vector3.clear, fun _ => Vector3.clear⟩ hb1 (by norm_num)
  obtain ⟨-, hall⟩ := velocity_propagation sqrtQ 3 0 0 _ s' hs'
  have D : ((prepareContacts sqrtQ (cornerWorld ℚ) 3 0).bind (fun w1 =>
      (velocityIteration sqrtQ 3 0 0
        ⟨w1.c, w1.bodies, fun _ => Vector3.clear, fun _ => Vector3.clear⟩).map
        (fun s' => ((w1.c 1).contactVelocity.x, (s'.c 1).contactVelocity.x,
          (s'.c 1).desiredDeltaVelocity))))
      = some (-(7 / 5), -(4 / 5), 4 / 5) := by decide!
  have B : (prepareContacts sqrtQ (cornerWorld ℚ) 3 0).map (fun w1 =>
      ((w1.c 0).body 0, (w1.c 0).body 1, (w1.c 2).body 0, (w1.c 2).body 1))
      = some (some 0, none, some 7, none) := by decide!
  rw [h1, Option.some_bind, hs'] at D
  rw [h1] at B
  simp only [Option.map_some', Option.some.injEq, Prod.mk.injEq] at D B
  obtain ⟨d1, d2, d3⟩ := D
  obtain ⟨b00, b01, b20, b21⟩ := B
  refine ⟨w1, s', h1, hs', d1, d2, d3, ?_⟩
  exact (hall 2 (by norm_num)).2.2.2 (by
    intro b d
    fin_cases b <;> fin_cases d <;> simp [sharesBody, b00, b01, b20, b21])

end Chaos
namespace Chaos

open Contact ContactResolver

/-- The counter the shared loop returns is the counter it started from plus the
number of iterations it performed, and it stops because the cap is reached or
because the scan finds nothing. -/
theorem cappedLoop_counts {β σ : Type} (n : Nat) (scan : σ → β × Nat)
    (iteration : Nat → β → σ → Option σ) (left : Nat) :
    ∀ (used : Nat) (s : σ) (u' : Nat) (s' : σ),
      cappedLoop n scan iteration left used s = some (u', s') →
      ∃ k, k ≤ left ∧ u' = used + k ∧ performed n scan iteration k s = some s'
        ∧ (k = left ∨ (scan s').2 = n) := by
  induction left with
  | zero =>
    intro used s u' s' h
    simp only [cappedLoop, Option.some.injEq, Prod.mk.injEq] at h
    obtain ⟨hu, hs⟩ := h
    subst hu; subst hs
    exact ⟨0, le_rfl, rfl, rfl, Or.inl rfl⟩
  | succ left ih =>
    intro used s u' s' h
    by_cases hb : (scan s).2 = n
    · simp only [cappedLoop, if_pos hb, Option.some.injEq, Prod.mk.injEq] at h
      obtain ⟨hu, hs⟩ := h
      subst hu; subst hs
      exact ⟨0, Nat.zero_le _, rfl, rfl, Or.inr hb⟩
    · simp only [cappedLoop, if_neg hb] at h
      cases hit : iteration (scan s).2 (scan s).1 s with
      | none => simp [hit] at h
      | some s1 =>
        simp only [hit] at h
        obtain ⟨k, hk, hu, hp, hend⟩ := ih (used + 1) s1 u' s' h
        refine ⟨k + 1, Nat.succ_le_succ hk, by omega, ?_, ?_⟩
        · simp only [performed, if_neg hb, hit]
          exact hp
        · rcases hend with h1 | h1
          · exact Or.inl (by omega)
          · exact Or.inr h1

/-- C17 fails as stated: a resolver whose counters an earlier call left at 7,
called with `numContacts = 0`, or with a zero epsilon on two contacts, still has
both counters at 7 afterwards, not 0. -/
theorem resolveContacts_keeps_stale_counters :
    (resolveContacts (sampleOps ℚ) sqrtQ (twoStepResolver ℚ) (sandwichWorld ℚ) 0 0).map
        (fun p => (p.1.positionIterationsUsed, p.1.velocityIterationsUsed)) = some (7, 7)
    ∧ (resolveContacts (sampleOps ℚ) sqrtQ { twoStepResolver ℚ with velocityEpsilon := 0 }
          (sandwichWorld ℚ) 2 0).map
        (fun p => (p.1.positionIterationsUsed, p.1.velocityIterationsUsed)) = some (7, 7) := by
  constructor <;> decide!

section

variable {α : Type} [LinearOrderedField α]

theorem resolveContacts_guarded (ops : BodyOps α) (real_sqrt : α → α)
    (r : ContactResolver α) (w : World α) (numContacts : Nat) (duration : α)
    (h : numContacts = 0 ∨ r.isValid = false) :
    resolveContacts ops real_sqrt r w numContacts duration = some (r, w) := by
  unfold resolveContacts
  by_cases hn : numContacts = 0
  · rw [if_pos hn]
  · rw [if_neg hn]
    have hinv : r.isValid = false := h.resolve_left hn
    simp [hinv]

/-- C17, amended: a call with `numContacts = 0` or an invalid configuration
returns at once and leaves both counters (and everything else) as they were. A call
with `numContacts > 0` and a valid configuration gives the same result whatever
values the counters held before, and when it returns `positionIterationsUsed` and
`velocityIterationsUsed` are the numbers of position and velocity iterations it
performed: that many iterations lead from the prepared batch to the state after the
position loop, and from there to the final state, each loop ending at its cap or
because no contact was left to choose. -/
theorem resolveContacts_counters (ops : BodyOps α) (real_sqrt : α → α)
    (r : ContactResolver α) (w : World α) (numContacts : Nat) (duration : α) (a b : Nat) :
    ((numContacts = 0 ∨ r.isValid = false) →
      resolveContacts ops real_sqrt r w numContacts duration = some (r, w))
    ∧ (0 < numContacts → r.isValid = true →
        resolveContacts ops real_sqrt
            { r with velocityIterationsUsed := a, positionIterationsUsed := b } w numContacts
            duration
          = resolveContacts ops real_sqrt r w numContacts duration
        ∧ ∀ r' w', resolveContacts ops real_sqrt r w numContacts duration = some (r', w') →
            ∃ w1 s2 s3, prepareContacts real_sqrt w numContacts duration = some w1
              ∧ performed numContacts
                  (fun s : LoopState α =>
                    worst (fun i => (s.c i).penetration) numContacts r.positionEpsilon)
                  (fun index max s => positionIteration ops real_sqrt numContacts index max s)
                  r'.positionIterationsUsed
                  ⟨w1.c, w1.bodies, fun _ => Vector3.clear, fun _ => Vector3.clear⟩ = some s2
              ∧ (r'.positionIterationsUsed = r.positionIterations
                  ∨ (worst (fun i => (s2.c i).penetration) numContacts r.positionEpsilon).2
                      = numContacts)
              ∧ performed numContacts
                  (fun s : LoopState α =>
                    worst (fun i => (s.c i).desiredDeltaVelocity) numContacts
                      r.velocityEpsilon)
                  (fun index _ s => velocityIteration real_sqrt numContacts duration index s)
                  r'.velocityIterationsUsed
                  ⟨s2.c, s2.bodies, fun _ => Vector3.clear, fun _ => Vector3.clear⟩ = some s3
              ∧ (r'.velocityIterationsUsed = r.velocityIterations
                  ∨ (worst (fun i => (s3.c i).desiredDeltaVelocity) numContacts
                      r.velocityEpsilon).2 = numContacts)
              ∧ w' = ⟨s3.c, s3.bodies⟩) := by
  refine ⟨resolveContacts_guarded ops real_sqrt r w numContacts duration, ?_⟩
  intro hn hvalid
  have hvalid' : ContactResolver.isValid
      { r with velocityIterationsUsed := a, positionIterationsUsed := b } = true := hvalid
  constructor
  · simp only [resolveContacts, if_neg (Nat.pos_iff_ne_zero.mp hn), hvalid, hvalid',
      adjustPositions, adjustVelocities]
    cases prepareContacts real_sqrt w numContacts duration with
    | none => rfl
    | some w1 =>
      simp only []
      cases adjustPositionsLoop ops real_sqrt r.positionEpsilon numContacts
          r.positionIterations 0
          ⟨w1.c, w1.bodies, fun _ => Vector3.clear, fun _ => Vector3.clear⟩ with
      | none => rfl
      | some p =>
        simp only []
        cases adjustVelocitiesLoop real_sqrt r.velocityEpsilon numContacts duration
            r.velocityIterations 0
            ⟨p.2.c, p.2.bodies, fun _ => Vector3.clear, fun _ => Vector3.clear⟩ with
        | none => rfl
        | some q => rfl
  · intro r' w' h
    simp only [resolveContacts, if_neg (Nat.pos_iff_ne_zero.mp hn), hvalid] at h
    cases h1 : prepareContacts real_sqrt w numContacts duration with
    | none => simp [h1] at h
    | some w1 =>
      simp only [h1, adjustPositions, adjustPositionsLoop] at h
      cases h2 : cappedLoop numContacts
          (fun s : LoopState α =>
            worst (fun i => (s.c i).penetration) numContacts r.positionEpsilon)
          (fun index max s => positionIteration ops real_sqrt numContacts index max s)
          r.positionIterations 0
          ⟨w1.c, w1.bodies, fun _ => Vector3.clear, fun _ => Vector3.clear⟩ with
      | none => simp [h2] at h
      | some p =>
        obtain ⟨u2, s2⟩ := p
        simp only [h2, adjustVelocities, adjustVelocitiesLoop] at h
        cases h3 : cappedLoop numContacts
            (fun s : LoopState α =>
              worst (fun i => (s.c i).desiredDeltaVelocity) numContacts r.velocityEpsilon)
            (fun index _ s => velocityIteration real_sqrt numContacts duration index s)
            r.velocityIterations 0
            ⟨s2.c, s2.bodies, fun _ => Vector3.clear, fun _ => Vector3.clear⟩ with
        | none => simp [h3] at h
        | some q =>
          obtain ⟨u3, s3⟩ := q
          simp only [h3, Option.some.injEq, Prod.mk.injEq] at h
          obtain ⟨hr, hw⟩ := h
          obtain ⟨k2, -, hu2, hp2, he2⟩ := cappedLoop_counts _ _ _ _ _ _ _ _ h2
          obtain ⟨k3, -, hu3, hp3, he3⟩ := cappedLoop_counts _ _ _ _ _ _ _ _ h3
          have e2 : u2 = k2 := by omega
          have e3 : u3 = k3 := by omega
          subst e2; subst e3
          exact ⟨w1, s2, s3, rfl, hp2, he2, hp3, he3, rfl⟩

end

/-- The never-converging batch, on a resolver whose counters stood at 7: both
counters are 2 afterwards, and two iterations of each kind were performed. -/
theorem resolveContacts_counters_witness :
    resolveContacts (sampleOps ℚ) sqrtQ
        { twoStepResolver ℚ with velocityIterationsUsed := 40, positionIterationsUsed := 50 }
        (sandwichWorld ℚ) 2 0
      = resolveContacts (sampleOps ℚ) sqrtQ (twoStepResolver ℚ) (sandwichWorld ℚ) 2 0
    ∧ ∃ r' w', resolveContacts (sampleOps ℚ) sqrtQ (twoStepResolver ℚ) (sandwichWorld ℚ) 2 0
        = some (r', w')
      ∧ r'.positionIterationsUsed = 2 ∧ r'.velocityIterationsUsed = 2
      ∧ ∃ w1 s2, prepareContacts sqrtQ (sandwichWorld ℚ) 2 0 = some w1
          ∧ performed 2
              (fun s : LoopState ℚ =>
                worst (fun i => (s.c i).penetration) 2 (twoStepResolver ℚ).positionEpsilon)
              (fun index max s => positionIteration (sampleOps ℚ) sqrtQ 2 index max s)
              2 ⟨w1.c, w1.bodies, fun _ => Vector3.clear, fun _ => Vector3.clear⟩
            = some s2 := by
  obtain ⟨hsame, hcount⟩ := (resolveContacts_counters (sampleOps ℚ) sqrtQ (twoStepResolver ℚ)
    (sandwichWorld ℚ) 2 0 40 50).2 (by norm_num) (by decide!)
  refine ⟨hsame, ?_⟩
  have D : (resolveContacts (sampleOps ℚ) sqrtQ (twoStepResolver ℚ) (sandwichWorld ℚ) 2 0).map
      (fun p => (p.1.positionIterationsUsed, p.1.velocityIterationsUsed)) = some (2, 2) := by
    decide!
  cases hres : resolveContacts (sampleOps ℚ) sqrtQ (twoStepResolver ℚ) (sandwichWorld ℚ) 2 0 with
  | none => rw [hres] at D; exact Option.noConfusion D
  | some p =>
    obtain ⟨r', w'⟩ := p
    rw [hres] at D
    simp only [Option.map_some', Option.some.injEq, Prod.mk.injEq] at D
    obtain ⟨w1, s2, s3, h1, hp2, -, -, -, -⟩ := hcount r' w' hres
    rw [D.1] at hp2
    exact ⟨r', w', rfl, D.1, D.2, w1, s2, h1, hp2⟩

end Chaos

/-! ## The quotients of `applyPositionChange` -/

namespace Chaos

theorem sqrtQ_nonneg (x : ℚ) : 0 ≤ sqrtQ x := by
  unfold sqrtQ
  exact div_nonneg (Nat.cast_nonneg _) (Nat.cast_nonneg _)

section CheckedDivision

variable {α : Type} [LinearOrderedField α]

theorem Contact.checkedMoves_some (real_sqrt : α → α) (c : Contact α) (i : Fin 2)
    (penetration totalInertia angularInertia linearInertia : α) (hT : totalInertia ≠ 0) :
    c.checkedMoves real_sqrt i penetration totalInertia angularInertia linearInertia
      = some (c.moves real_sqrt i penetration totalInertia angularInertia linearInertia) := by
  unfold Contact.checkedMoves Contact.moves Contact.checkedDiv
  simp only [if_neg hT]
  split_ifs <;> rfl

theorem Contact.checkedMoves_none (real_sqrt : α → α) (c : Contact α) (i : Fin 2)
    (penetration angularInertia linearInertia : α) :
    c.checkedMoves real_sqrt i penetration 0 angularInertia linearInertia = none := by
  unfold Contact.checkedMoves Contact.checkedDiv
  simp

/-- With a non-negative square root, a body without angular inertia gets no
angular move. -/
theorem Contact.moves_fst_eq_zero (real_sqrt : α → α) (hs : ∀ x, 0 ≤ real_sqrt x)
    (c : Contact α) (i : Fin 2) (penetration totalInertia linearInertia : α) :
    (c.moves real_sqrt i penetration totalInertia 0 linearInertia).1 = 0 := by
  have hm : ∀ v : Vector3 α, 0 ≤ angularLimit * v.magnitude real_sqrt := fun v =>
    mul_nonneg (by unfold angularLimit; norm_num) (hs _)
  unfold Contact.moves
  simp only [zero_div, mul_zero]
  have h := hm ((c.relativeContactPosition i).addScaledVector c.contactNormal
      (-(c.relativeContactPosition i).scalarProduct c.contactNormal))
  rw [if_neg (by linarith), if_neg (by simp only [gt_iff_lt, not_lt]; exact h)]

theorem Contact.checkedPositionChangeBody_some (ops : BodyOps α) (real_sqrt : α → α)
    (hs : ∀ x, 0 ≤ real_sqrt x) (c : Contact α) (penetration totalInertia : α)
    (inertia : Fin 2 → Option (α × α)) (i : Fin 2) (st : Applied α) (hT : totalInertia ≠ 0) :
    c.checkedPositionChangeBody ops real_sqrt penetration totalInertia inertia i st
      = some (c.applyPositionChangeBody ops real_sqrt penetration totalInertia inertia i st) := by
  unfold Contact.checkedPositionChangeBody Contact.applyPositionChangeBody
  cases hb : c.body i with
  | none => rfl
  | some p =>
    cases hi : inertia i with
    | none => rfl
    | some ai =>
      obtain ⟨angularInertia, linearInertia⟩ := ai
      simp only [Contact.checkedMoves_some real_sqrt c i penetration totalInertia
        angularInertia linearInertia hT]
      by_cases h0 : (c.moves real_sqrt i penetration totalInertia angularInertia
          linearInertia).1 = 0
      · simp only [if_pos h0]
      · have ha : angularInertia ≠ 0 := by
          intro h
          apply h0
          rw [h]
          exact c.moves_fst_eq_zero real_sqrt hs i penetration totalInertia linearInertia
        simp only [if_neg h0, Contact.checkedDiv, if_neg ha]

theorem Contact.checkedPositionChangeBody_none (ops : BodyOps α) (real_sqrt : α → α)
    (c : Contact α) (penetration : α) (inertia : Fin 2 → Option (α × α)) (i : Fin 2)
    (st : Applied α) (p : Nat) (ai : α × α) (hb : c.body i = some p)
    (hi : inertia i = some ai) :
    c.checkedPositionChangeBody ops real_sqrt penetration 0 inertia i st = none := by
  unfold Contact.checkedPositionChangeBody
  obtain ⟨angularInertia, linearInertia⟩ := ai
  simp only [hb, hi, Contact.checkedMoves_none]

theorem Contact.checkedPositionChangeBody_absent (ops : BodyOps α) (real_sqrt : α → α)
    (c : Contact α) (penetration totalInertia : α) (inertia : Fin 2 → Option (α × α))
    (i : Fin 2) (st : Applied α) (hb : c.body i = none) :
    c.checkedPositionChangeBody ops real_sqrt penetration totalInertia inertia i st
      = some st := by
  unfold Contact.checkedPositionChangeBody
  simp only [hb]

/-- C15 (counterexample). For the contact between the two immovable bodies the
total inertia is zero, and `applyPositionChange` does divide by it: with every
quotient checked the call has no result. -/
theorem applyPositionChange_immovable_divides_by_zero :
    (closingContact ℚ 0 0).totalInertia (immovableBodies ℚ) = 0
      ∧ ((closingContact ℚ 0 0).checkedPositionChange (sampleOps ℚ) sqrtQ (immovableBodies ℚ)
          (fun _ => Vector3.clear) (fun _ => Vector3.clear) 1).isSome = false := by
  constructor <;> decide!

/-- C15 (amended). `applyPositionChange` has no guard on the total inertia: for
each present body it takes the quotients by `totalInertia` before any test.
So, with a non-negative square root, when the total inertia is not zero every
quotient the call takes is defined and the call leaves what the proportional
split and the angular limit give; when the total inertia is zero and a body is
present the call divides by zero and has no defined result; only a contact
without bodies is left as it was. -/
theorem applyPositionChange_unguarded (ops : BodyOps α) (real_sqrt : α → α)
    (hs : ∀ x, 0 ≤ real_sqrt x) (c : Contact α) (bodies : Bodies α)
    (linearChange angularChange : Fin 2 → Vector3 α) (penetration : α) :
    (c.totalInertia bodies ≠ 0 →
        c.checkedPositionChange ops real_sqrt bodies linearChange angularChange penetration
          = some (c.applyPositionChange ops real_sqrt bodies linearChange angularChange
              penetration))
      ∧ (c.totalInertia bodies = 0 → (c.body 0 ≠ none ∨ c.body 1 ≠ none) →
        c.checkedPositionChange ops real_sqrt bodies linearChange angularChange penetration
          = none)
      ∧ (c.body 0 = none → c.body 1 = none →
        c.checkedPositionChange ops real_sqrt bodies linearChange angularChange penetration
          = some ⟨bodies, linearChange, angularChange⟩) := by
  refine ⟨fun hT => ?_, fun hT hb => ?_, fun h0 h1 => ?_⟩
  · unfold Contact.checkedPositionChange Contact.applyPositionChange
    simp only [Contact.checkedPositionChangeBody_some ops real_sqrt hs c penetration _ _ _ _ hT]
  · unfold Contact.checkedPositionChange
    simp only [hT]
    cases h0 : c.body 0 with
    | some p =>
      have hi : c.inertiaOf bodies 0 = some
          (c.angularTerm (bodies p).inverseInertiaTensorWorld 0, (bodies p).inverseMass) := by
        unfold Contact.inertiaOf
        simp only [h0]
      rw [c.checkedPositionChangeBody_none ops real_sqrt penetration _ 0 _ p _ h0 hi]
    | none =>
      rw [c.checkedPositionChangeBody_absent ops real_sqrt penetration 0 _ 0 _ h0]
      cases h1 : c.body 1 with
      | none => rcases hb with hb | hb <;> contradiction
      | some p =>
        have hi : c.inertiaOf bodies 1 = some
            (c.angularTerm (bodies p).inverseInertiaTensorWorld 1, (bodies p).inverseMass) := by
          unfold Contact.inertiaOf
          simp only [h1]
        exact c.checkedPositionChangeBody_none ops real_sqrt penetration _ 1 _ p _ h1 hi
  · unfold Contact.checkedPositionChange
    simp only [c.checkedPositionChangeBody_absent ops real_sqrt penetration _ _ 0 _ h0,
      c.checkedPositionChangeBody_absent ops real_sqrt penetration _ _ 1 _ h1]

end CheckedDivision

/-- C15 (witness). Between two unit bodies the total inertia is 3 and every
quotient is defined; between two immovable bodies it is zero and the call has no
defined result. -/
theorem applyPositionChange_unguarded_witness :
    (∀ x, 0 ≤ sqrtQ x)
      ∧ (leverContact ℚ).totalInertia (unitBodies ℚ) = 3
      ∧ (leverContact ℚ).checkedPositionChange (sampleOps ℚ) sqrtQ (unitBodies ℚ)
          (fun _ => Vector3.clear) (fun _ => Vector3.clear) 1
        = some ((leverContact ℚ).applyPositionChange (sampleOps ℚ) sqrtQ (unitBodies ℚ)
            (fun _ => Vector3.clear) (fun _ => Vector3.clear) 1)
      ∧ (closingContact ℚ 0 0).checkedPositionChange (sampleOps ℚ) sqrtQ (immovableBodies ℚ)
          (fun _ => Vector3.clear) (fun _ => Vector3.clear) 1 = none := by
  have hT : (leverContact ℚ).totalInertia (unitBodies ℚ) = 3 := by decide!
  have hZ : (closingContact ℚ 0 0).totalInertia (immovableBodies ℚ) = 0 := by decide!
  refine ⟨sqrtQ_nonneg, hT, ?_, ?_⟩
  · exact (applyPositionChange_unguarded (sampleOps ℚ) sqrtQ sqrtQ_nonneg (leverContact ℚ)
      (unitBodies ℚ) (fun _ => Vector3.clear) (fun _ => Vector3.clear) 1).1
        (by rw [hT]; norm_num)
  · exact (applyPositionChange_unguarded (sampleOps ℚ) sqrtQ sqrtQ_nonneg (closingContact ℚ 0 0)
      (immovableBodies ℚ) (fun _ => Vector3.clear) (fun _ => Vector3.clear) 1).2.1 hZ
        (Or.inl (by decide))

end Chaos

/-! ## The scale of the contact basis and its second branch -/

namespace Chaos

open Contact

theorem basisScale_eq (real_sqrt : ℝ → ℝ) (c : Contact ℝ) :
    basisScale real_sqrt c = 1 / real_sqrt (basisRadicand c) := by
  unfold basisScale basisRadicand
  split_ifs <;> rfl

theorem contactTangent0_eq_basisScale (real_sqrt : ℝ → ℝ) (c : Contact ℝ) :
    contactTangent0 real_sqrt c
      = (if |c.contactNormal.x| > |c.contactNormal.y| then
          ⟨c.contactNormal.z * basisScale real_sqrt c, 0,
            -c.contactNormal.x * basisScale real_sqrt c⟩
        else
          ⟨0, -c.contactNormal.z * basisScale real_sqrt c,
            c.contactNormal.y * basisScale real_sqrt c⟩) := by
  unfold contactTangent0 basisScale
  split_ifs <;> rfl

/-- For a unit normal the argument of the square root lies between `1/2` and 1. -/
theorem basisRadicand_bounds (c : Contact ℝ)
    (hn : c.contactNormal.scalarProduct c.contactNormal = 1) :
    1 / 2 ≤ basisRadicand c ∧ basisRadicand c ≤ 1 := by
  simp only [Vector3.scalarProduct] at hn
  unfold basisRadicand
  split_ifs with h
  · have h2 : c.contactNormal.y ^ 2 < c.contactNormal.x ^ 2 := sq_lt_sq.mpr h
    constructor <;> nlinarith [sq_nonneg c.contactNormal.y, sq_nonneg c.contactNormal.z]
  · have h2 : c.contactNormal.x ^ 2 ≤ c.contactNormal.y ^ 2 := sq_le_sq.mpr (not_lt.mp h)
    constructor <;> nlinarith [sq_nonneg c.contactNormal.x, sq_nonneg c.contactNormal.z]

/-- C22: for every unit contact normal the quantity under the square root in the
branch `calculateContactBasis` takes (`n.z² + n.x²` when `|n.x| > |n.y|`,
`n.z² + n.y²` otherwise) is at least `1/2` (and at most 1), so its square root is
not zero, the scale `s = 1 / sqrt(...)` the first tangent is built from is
defined, and `1 ≤ s ≤ sqrt 2`. -/
theorem calculateContactBasis_scale_bounded (c : Contact ℝ)
    (hn : c.contactNormal.scalarProduct c.contactNormal = 1) :
    basisRadicand c
        = (if |c.contactNormal.x| > |c.contactNormal.y| then
            c.contactNormal.z * c.contactNormal.z + c.contactNormal.x * c.contactNormal.x
          else
            c.contactNormal.z * c.contactNormal.z + c.contactNormal.y * c.contactNormal.y)
    ∧ 1 / 2 ≤ basisRadicand c
    ∧ Real.sqrt (basisRadicand c) ≠ 0
    ∧ checkedDiv 1 (Real.sqrt (basisRadicand c)) = some (basisScale Real.sqrt c)
    ∧ 1 ≤ basisScale Real.sqrt c
    ∧ basisScale Real.sqrt c ≤ Real.sqrt 2
    ∧ contactTangent0 Real.sqrt c
        = (if |c.contactNormal.x| > |c.contactNormal.y| then
            ⟨c.contactNormal.z * basisScale Real.sqrt c, 0,
              -c.contactNormal.x * basisScale Real.sqrt c⟩
          else
            ⟨0, -c.contactNormal.z * basisScale Real.sqrt c,
              c.contactNormal.y * basisScale Real.sqrt c⟩) := by
  obtain ⟨hlo, hhi⟩ := basisRadicand_bounds c hn
  have hpos : 0 < basisRadicand c := by linarith
  have hs : 0 < Real.sqrt (basisRadicand c) := Real.sqrt_pos.mpr hpos
  have hs1 : Real.sqrt (basisRadicand c) ≤ 1 := by
    exact Real.sqrt_le_iff.mpr ⟨by norm_num, by linarith⟩
  have h2 : 1 ≤ Real.sqrt 2 * Real.sqrt (basisRadicand c) := by
    rw [← Real.sqrt_mul (by norm_num : (0:ℝ) ≤ 2)]
    rw [Real.le_sqrt' (by norm_num)]
    linarith
  refine ⟨rfl, hlo, hs.ne', ?_, ?_, ?_, contactTangent0_eq_basisScale Real.sqrt c⟩
  · rw [basisScale_eq]
    simp only [checkedDiv, if_neg hs.ne']
  · rw [basisScale_eq, le_div_iff₀ hs]
    linarith
  · rw [basisScale_eq, div_le_iff₀ hs]
    exact h2

/-- C22 (witness). The unit normal `(0, 1, 0)`: the second branch is taken, the
quantity under the square root is 1 and the scale is 1. -/
theorem calculateContactBasis_scale_bounded_witness :
    (contactWithNormal ℝ ⟨0, 1, 0⟩).contactNormal.scalarProduct
        (contactWithNormal ℝ ⟨0, 1, 0⟩).contactNormal = 1
      ∧ 1 / 2 ≤ basisRadicand (contactWithNormal ℝ ⟨0, 1, 0⟩)
      ∧ 1 ≤ basisScale Real.sqrt (contactWithNormal ℝ ⟨0, 1, 0⟩)
      ∧ basisScale Real.sqrt (contactWithNormal ℝ ⟨0, 1, 0⟩) ≤ Real.sqrt 2 := by
  have hn : (contactWithNormal ℝ ⟨0, 1, 0⟩).contactNormal.scalarProduct
      (contactWithNormal ℝ ⟨0, 1, 0⟩).contactNormal = 1 := by
    simp [contactWithNormal, Vector3.scalarProduct]
  have T := calculateContactBasis_scale_bounded (contactWithNormal ℝ ⟨0, 1, 0⟩) hn
  exact ⟨hn, T.2.1, T.2.2.2.2.1, T.2.2.2.2.2.1⟩

/-- In the second branch the scale squared times `n.z² + n.y²` is 1. -/
theorem basisScale_sq_second_branch (c : Contact ℝ)
    (hn : c.contactNormal.scalarProduct c.contactNormal = 1)
    (hb : |c.contactNormal.x| ≤ |c.contactNormal.y|) :
    basisScale Real.sqrt c * basisScale Real.sqrt c
      * (c.contactNormal.z * c.contactNormal.z + c.contactNormal.y * c.contactNormal.y)
      = 1 := by
  obtain ⟨hlo, -⟩ := basisRadicand_bounds c hn
  have hr : basisRadicand c
      = c.contactNormal.z * c.contactNormal.z + c.contactNormal.y * c.contactNormal.y := by
    unfold basisRadicand
    rw [if_neg (not_lt.mpr hb)]
  have hpos : 0 < basisRadicand c := by linarith
  have hs : 0 < Real.sqrt (basisRadicand c) := Real.sqrt_pos.mpr hpos
  rw [basisScale_eq, ← hr]
  have hq : Real.sqrt (basisRadicand c) * Real.sqrt (basisRadicand c) = basisRadicand c :=
    Real.mul_self_sqrt hpos.le
  field_simp

/-- C23: in the branch `|n.x| ≤ |n.y|` of `calculateContactBasis`, for every unit
normal `n` the first tangent is `t0 = (0, -n.z s, n.y s)`, a unit vector orthogonal
to `n`; the second tangent is `n × t0`, a unit vector orthogonal to both; and the
matrix `contactToWorld` with columns `n`, `t0`, `t1` is orthonormal (its transpose
times itself is the identity) with determinant 1. -/
theorem calculateContactBasis_second_branch_orthonormal (c : Contact ℝ)
    (hn : c.contactNormal.scalarProduct c.contactNormal = 1)
    (hb : |c.contactNormal.x| ≤ |c.contactNormal.y|) :
    contactTangent0 Real.sqrt c
        = ⟨0, -c.contactNormal.z * basisScale Real.sqrt c,
            c.contactNormal.y * basisScale Real.sqrt c⟩
    ∧ (contactTangent0 Real.sqrt c).scalarProduct (contactTangent0 Real.sqrt c) = 1
    ∧ (contactTangent0 Real.sqrt c).scalarProduct c.contactNormal = 0
    ∧ contactTangent1 Real.sqrt c
        = c.contactNormal.vectorProduct (contactTangent0 Real.sqrt c)
    ∧ (contactTangent1 Real.sqrt c).scalarProduct (contactTangent1 Real.sqrt c) = 1
    ∧ (contactTangent1 Real.sqrt c).scalarProduct c.contactNormal = 0
    ∧ (contactTangent1 Real.sqrt c).scalarProduct (contactTangent0 Real.sqrt c) = 0
    ∧ (c.calculateContactBasis Real.sqrt).contactToWorld
        = Matrix3.setComponents c.contactNormal (contactTangent0 Real.sqrt c)
            (contactTangent1 Real.sqrt c)
    ∧ (c.calculateContactBasis Real.sqrt).contactToWorld.transpose.mul
          (c.calculateContactBasis Real.sqrt).contactToWorld
        = ⟨1, 0, 0, 0, 1, 0, 0, 0, 1⟩
    ∧ (c.calculateContactBasis Real.sqrt).contactToWorld.det = 1 := by
  have hx : ¬ |c.contactNormal.x| > |c.contactNormal.y| := not_lt.mpr hb
  have hs := basisScale_sq_second_branch c hn hb
  have t0 : contactTangent0 Real.sqrt c
      = ⟨0, -c.contactNormal.z * basisScale Real.sqrt c,
          c.contactNormal.y * basisScale Real.sqrt c⟩ := by
    rw [contactTangent0_eq_basisScale, if_neg hx]
  have t1 : contactTangent1 Real.sqrt c
      = ⟨c.contactNormal.y * (c.contactNormal.y * basisScale Real.sqrt c)
            - c.contactNormal.z * (-c.contactNormal.z * basisScale Real.sqrt c),
          -c.contactNormal.x * (c.contactNormal.y * basisScale Real.sqrt c),
          c.contactNormal.x * (-c.contactNormal.z * basisScale Real.sqrt c)⟩ := by
    simp only [contactTangent1, t0, if_neg hx]
  simp only [Vector3.scalarProduct] at hn
  generalize basisScale Real.sqrt c = s at hs t0 t1
  have e1 : ∀ nx ny nz : ℝ,
      (ny * (ny * s) - nz * (-nz * s)) * (ny * (ny * s) - nz * (-nz * s))
        + -nx * (ny * s) * (-nx * (ny * s)) + nx * (-nz * s) * (nx * (-nz * s))
      = (s * s * (nz * nz + ny * ny)) * (nx * nx + ny * ny + nz * nz) := by
    intros; ring
  have e2 : ∀ ny nz : ℝ, 0 * 0 + -nz * s * (-nz * s) + ny * s * (ny * s)
      = s * s * (nz * nz + ny * ny) := by
    intros; ring
  have e3 : ∀ nx ny nz : ℝ,
      nx * (-nz * s) * (nx * (-nz * s)) - nx * (-nx * (ny * s)) * (ny * s)
        - 0 * ny * (nx * (-nz * s))
        + (ny * (ny * s) - nz * (-nz * s)) * ny * (ny * s)
        + 0 * nz * (-nx * (ny * s))
        - (ny * (ny * s) - nz * (-nz * s)) * nz * (-nz * s)
      = (s * s * (nz * nz + ny * ny)) * (nx * nx + ny * ny + nz * nz) := by
    intros; ring
  refine ⟨t0, ?_, ?_, ?_, ?_, ?_, ?_, rfl, ?_, ?_⟩
  · rw [t0]; simp only [Vector3.scalarProduct]; rw [e2, hs]
  · rw [t0]; simp only [Vector3.scalarProduct]; ring
  · rw [t1, t0]; simp only [Vector3.vectorProduct]
    ext <;> simp only [] <;> ring
  · rw [t1]; simp only [Vector3.scalarProduct]
    rw [e1, hs, hn]; norm_num
  · rw [t1]; simp only [Vector3.scalarProduct]; ring
  · rw [t1, t0]; simp only [Vector3.scalarProduct]; ring
  · simp only [calculateContactBasis, t0, t1, Matrix3.setComponents, Matrix3.transpose,
      Matrix3.mul]
    ext <;> simp only [] <;> first
      | exact hn
      | (rw [e1, hs, hn]; norm_num)
      | (rw [e2, hs])
      | ring
  · simp only [calculateContactBasis, t0, t1, Matrix3.setComponents, Matrix3.det]
    rw [e3, hs, hn]; norm_num

/-- C23 (witness). The unit normals `(0, 1, 0)` and `(0, 0, 1)` take the second
branch; the bases built are `(n, (0, 0, 1), (1, 0, 0))` and
`(n, (0, -1, 0), (1, 0, 0))`. -/
theorem calculateContactBasis_second_branch_orthonormal_witness :
    (contactTangent0 Real.sqrt (contactWithNormal ℝ ⟨0, 1, 0⟩) = ⟨0, 0, 1⟩
      ∧ contactTangent1 Real.sqrt (contactWithNormal ℝ ⟨0, 1, 0⟩)
          = (⟨0, 1, 0⟩ : Vector3 ℝ).vectorProduct ⟨0, 0, 1⟩
      ∧ ((contactWithNormal ℝ ⟨0, 1, 0⟩).calculateContactBasis Real.sqrt).contactToWorld.det
          = 1)
    ∧ (contactTangent0 Real.sqrt (contactWithNormal ℝ ⟨0, 0, 1⟩) = ⟨0, -1, 0⟩
      ∧ contactTangent1 Real.sqrt (contactWithNormal ℝ ⟨0, 0, 1⟩)
          = (⟨0, 0, 1⟩ : Vector3 ℝ).vectorProduct ⟨0, -1, 0⟩
      ∧ ((contactWithNormal ℝ ⟨0, 0, 1⟩).calculateContactBasis Real.sqrt).contactToWorld.det
          = 1) := by
  have hy := calculateContactBasis_second_branch_orthonormal (contactWithNormal ℝ ⟨0, 1, 0⟩)
    (by simp [contactWithNormal, Vector3.scalarProduct])
    (by simp [contactWithNormal])
  have hz := calculateContactBasis_second_branch_orthonormal (contactWithNormal ℝ ⟨0, 0, 1⟩)
    (by simp [contactWithNormal, Vector3.scalarProduct])
    (by simp [contactWithNormal])
  have sy : basisScale Real.sqrt (contactWithNormal ℝ ⟨0, 1, 0⟩) = 1 := by
    simp [basisScale, contactWithNormal]
  have sz : basisScale Real.sqrt (contactWithNormal ℝ ⟨0, 0, 1⟩) = 1 := by
    simp [basisScale, contactWithNormal]
  have ty : contactTangent0 Real.sqrt (contactWithNormal ℝ ⟨0, 1, 0⟩) = ⟨0, 0, 1⟩ := by
    rw [hy.1, sy]; simp [contactWithNormal]
  have tz : contactTangent0 Real.sqrt (contactWithNormal ℝ ⟨0, 0, 1⟩) = ⟨0, -1, 0⟩ := by
    rw [hz.1, sz]; simp [contactWithNormal]
  refine ⟨⟨ty, ?_, hy.2.2.2.2.2.2.2.2.2⟩, ⟨tz, ?_, hz.2.2.2.2.2.2.2.2.2⟩⟩
  · rw [hy.2.2.2.1, ty]; rfl
  · rw [hz.2.2.2.1, tz]; rfl

end Chaos

/-! ## One position iteration on the chosen contact -/

namespace Chaos

open Contact ContactResolver

/-- `matchAwakeState` changes no inverse inertia tensor and no inverse mass. -/
theorem matchAwakeState_keeps_inertia {β : Type} (c : Contact β) (bodies bodies' : Bodies β)
    (h : c.matchAwakeState bodies = some bodies') (q : Nat) :
    (bodies' q).inverseInertiaTensorWorld = (bodies q).inverseInertiaTensorWorld
      ∧ (bodies' q).inverseMass = (bodies q).inverseMass := by
  unfold matchAwakeState at h
  cases h1 : c.body 1 with
  | none =>
    simp only [h1, Option.some.injEq] at h
    subst h
    exact ⟨rfl, rfl⟩
  | some p1 =>
    cases h0 : c.body 0 with
    | none => simp [h1, h0] at h
    | some p0 =>
      simp only [h1, h0] at h
      split_ifs at h <;> simp only [Option.some.injEq] at h <;> subst h
      · by_cases e : q = p1
        · subst e; simp [RigidBody.setAwake]
        · simp [Function.update_noteq e]
      · by_cases e : q = p0
        · subst e; simp [RigidBody.setAwake]
        · simp [Function.update_noteq e]
      · exact ⟨rfl, rfl⟩

section

variable {α : Type} [LinearOrderedField α]

/-- The angular limit moves penetration between the two moves of a body without
changing their sum. -/
theorem Contact.moves_sum (real_sqrt : α → α) (c : Contact α) (i : Fin 2)
    (penetration totalInertia angularInertia linearInertia : α) :
    (c.moves real_sqrt i penetration totalInertia angularInertia linearInertia).1
        + (c.moves real_sqrt i penetration totalInertia angularInertia linearInertia).2
      = (if i = 0 then 1 else -1) * penetration * (angularInertia + linearInertia)
          / totalInertia := by
  unfold Contact.moves
  simp only []
  split_ifs <;> simp only [] <;> ring

theorem matchAwakeState_inertiaOf (c : Contact α) (bodies bodies' : Bodies α)
    (h : c.matchAwakeState bodies = some bodies') (i : Fin 2) :
    c.inertiaOf bodies' i = c.inertiaOf bodies i := by
  unfold inertiaOf
  cases c.body i with
  | none => rfl
  | some p =>
    simp only [(matchAwakeState_keeps_inertia c bodies bodies' h p).1,
      (matchAwakeState_keeps_inertia c bodies bodies' h p).2]

theorem matchAwakeState_totalInertia (c : Contact α) (bodies bodies' : Bodies α)
    (h : c.matchAwakeState bodies = some bodies') :
    c.totalInertia bodies' = c.totalInertia bodies := by
  unfold totalInertia
  simp only [matchAwakeState_inertiaOf c bodies bodies' h]

/-- What the second loop of `applyPositionChange` leaves for a present body `i`:
along a unit normal, the displacement of the contact point is the sum of the two
moves; the other entries of the output arrays and the other bodies are kept. -/
theorem Contact.applyPositionChangeBody_displacement (ops : BodyOps α) (real_sqrt : α → α)
    (hs : ∀ x, 0 ≤ real_sqrt x) (c : Contact α) (penetration totalInertia : α)
    (inertia : Fin 2 → Option (α × α)) (i : Fin 2) (st : Applied α) (p : Nat)
    (linearInertia : α)
    (hn : c.contactNormal.scalarProduct c.contactNormal = 1)
    (hp : c.body i = some p)
    (hin : inertia i
      = some (c.angularTerm (st.bodies p).inverseInertiaTensorWorld i, linearInertia)) :
    (((c.applyPositionChangeBody ops real_sqrt penetration totalInertia inertia i st).linear
            i).add
          (((c.applyPositionChangeBody ops real_sqrt penetration totalInertia inertia i
              st).angular i).vectorProduct (c.relativeContactPosition i))).scalarProduct
        c.contactNormal
      = (c.moves real_sqrt i penetration totalInertia
            (c.angularTerm (st.bodies p).inverseInertiaTensorWorld i) linearInertia).1
        + (c.moves real_sqrt i penetration totalInertia
            (c.angularTerm (st.bodies p).inverseInertiaTensorWorld i) linearInertia).2 := by
  simp only [Vector3.scalarProduct] at hn
  simp only [applyPositionChangeBody, hp, hin, Function.update_same]
  by_cases h0 : (c.moves real_sqrt i penetration totalInertia
      (c.angularTerm (st.bodies p).inverseInertiaTensorWorld i) linearInertia).1 = 0
  · simp only [if_pos h0, Function.update_same]
    rw [h0]
    generalize (c.moves real_sqrt i penetration totalInertia
      (c.angularTerm (st.bodies p).inverseInertiaTensorWorld i) linearInertia).2 = lm
    simp only [Vector3.add, Vector3.scale, Vector3.vectorProduct, Vector3.clear,
      Vector3.scalarProduct]
    linear_combination lm * hn
  · have ha : c.angularTerm (st.bodies p).inverseInertiaTensorWorld i ≠ 0 := by
      intro h
      apply h0
      rw [h]
      exact c.moves_fst_eq_zero real_sqrt hs i penetration totalInertia linearInertia
    simp only [if_neg h0, Function.update_same]
    have key : (c.moves real_sqrt i penetration totalInertia
          (c.angularTerm (st.bodies p).inverseInertiaTensorWorld i) linearInertia).1
          / c.angularTerm (st.bodies p).inverseInertiaTensorWorld i
        * c.angularTerm (st.bodies p).inverseInertiaTensorWorld i
        = (c.moves real_sqrt i penetration totalInertia
          (c.angularTerm (st.bodies p).inverseInertiaTensorWorld i) linearInertia).1 :=
      div_mul_cancel₀ _ ha
    generalize (c.moves real_sqrt i penetration totalInertia
      (c.angularTerm (st.bodies p).inverseInertiaTensorWorld i) linearInertia).2 = lm at key ⊢
    generalize (c.moves real_sqrt i penetration totalInertia
      (c.angularTerm (st.bodies p).inverseInertiaTensorWorld i) linearInertia).1 = am at key ⊢
    have hterm : c.angularTerm (st.bodies p).inverseInertiaTensorWorld i
        = ((((st.bodies p).inverseInertiaTensorWorld.transform
              ((c.relativeContactPosition i).vectorProduct c.contactNormal)).vectorProduct
            (c.relativeContactPosition i)).scalarProduct c.contactNormal) := rfl
    generalize c.angularTerm (st.bodies p).inverseInertiaTensorWorld i = ai at key hterm ⊢
    generalize (st.bodies p).inverseInertiaTensorWorld.transform
      ((c.relativeContactPosition i).vectorProduct c.contactNormal) = X at hterm ⊢
    simp only [Vector3.add, Vector3.scale, Vector3.vectorProduct, Vector3.scalarProduct]
      at hterm ⊢
    linear_combination lm * hn + key - (am / ai) * hterm

theorem Contact.applyPositionChangeBody_others (ops : BodyOps α) (real_sqrt : α → α)
    (c : Contact α) (penetration totalInertia : α) (inertia : Fin 2 → Option (α × α))
    (i : Fin 2) (st : Applied α) :
    (∀ j, j ≠ i →
      (c.applyPositionChangeBody ops real_sqrt penetration totalInertia inertia i st).linear j
          = st.linear j
        ∧ (c.applyPositionChangeBody ops real_sqrt penetration totalInertia inertia i
            st).angular j = st.angular j)
    ∧ (∀ q, c.body i ≠ some q →
        (c.applyPositionChangeBody ops real_sqrt penetration totalInertia inertia i st).bodies q
          = st.bodies q) := by
  unfold applyPositionChangeBody
  cases hp : c.body i with
  | none => exact ⟨fun _ _ => ⟨rfl, rfl⟩, fun _ _ => rfl⟩
  | some p =>
    cases hin : inertia i with
    | none => exact ⟨fun _ _ => ⟨rfl, rfl⟩, fun _ _ => rfl⟩
    | some ai =>
      obtain ⟨angularInertia, linearInertia⟩ := ai
      refine ⟨fun j hj => ⟨?_, ?_⟩, fun q hq => ?_⟩
      · simp only [Function.update_noteq hj]
      · simp only []
        split_ifs <;> simp only [Function.update_noteq hj]
      · have hqp : q ≠ p := fun e => hq (by rw [e])
        simp only []
        split_ifs <;> simp only [Function.update_noteq hqp]

/-- C24: one position iteration removes the chosen contact's cached penetration
exactly. For a chosen contact with unit normal, `body[0]` present, `body[1]` absent
or a different body, and non-zero total inertia (square root non-negative), the
iteration returns, and afterwards: for each present body `d` the displacement
`(linearChange[d] + angularChange[d] × r_d) · n` equals `linearMove[d] + angularMove[d]`,
which equals `sign_d * penetration * (angularInertia[d] + linearInertia[d]) / totalInertia`
whether or not the angular limit was applied; and the chosen contact's own
penetration is 0. -/
theorem positionIteration_removes_chosen_penetration (ops : BodyOps α) (real_sqrt : α → α)
    (hs : ∀ x, 0 ≤ real_sqrt x) (numContacts index : Nat) (s : LoopState α) (p0 : Nat)
    (hi : index < numContacts)
    (hn : (s.c index).contactNormal.scalarProduct (s.c index).contactNormal = 1)
    (h0 : (s.c index).body 0 = some p0)
    (h1 : (s.c index).body 1 ≠ some p0)
    (hT : (s.c index).totalInertia s.bodies ≠ 0) :
    ∃ s', positionIteration ops real_sqrt numContacts index (s.c index).penetration s = some s'
      ∧ (∀ (d : Fin 2) (angularInertia linearInertia : α),
          (s.c index).inertiaOf s.bodies d = some (angularInertia, linearInertia) →
          ((s'.linear d).add
              ((s'.angular d).vectorProduct
                ((s.c index).relativeContactPosition d))).scalarProduct
            (s.c index).contactNormal
            = ((s.c index).moves real_sqrt d (s.c index).penetration
                  ((s.c index).totalInertia s.bodies) angularInertia linearInertia).1
              + ((s.c index).moves real_sqrt d (s.c index).penetration
                  ((s.c index).totalInertia s.bodies) angularInertia linearInertia).2
          ∧ ((s.c index).moves real_sqrt d (s.c index).penetration
                  ((s.c index).totalInertia s.bodies) angularInertia linearInertia).1
              + ((s.c index).moves real_sqrt d (s.c index).penetration
                  ((s.c index).totalInertia s.bodies) angularInertia linearInertia).2
            = (if d = 0 then 1 else -1) * (s.c index).penetration
                * (angularInertia + linearInertia) / (s.c index).totalInertia s.bodies)
      ∧ (s'.c index).penetration = 0 := by
  obtain ⟨bodies, hm⟩ := matchAwakeState_some (s.c index) s.bodies p0 h0
  have hI := matchAwakeState_inertiaOf (s.c index) s.bodies bodies hm
  have hTe := matchAwakeState_totalInertia (s.c index) s.bodies bodies hm
  have hK := matchAwakeState_keeps_inertia (s.c index) s.bodies bodies hm
  generalize hc : s.c index = c at *
  generalize hpen : c.penetration = pen at *
  generalize hTT : c.totalInertia s.bodies = T at *
  -- the two steps of the second loop
  let st0 : Applied α := ⟨bodies, s.linear, s.angular⟩
  let st1 := c.applyPositionChangeBody ops real_sqrt pen T (fun i => c.inertiaOf bodies i) 0 st0
  let st2 := c.applyPositionChangeBody ops real_sqrt pen T (fun i => c.inertiaOf bodies i) 1 st1
  have ha : c.applyPositionChange ops real_sqrt bodies s.linear s.angular pen = st2 := by
    simp only [applyPositionChange, hTe]
  have hrun : positionIteration ops real_sqrt numContacts index pen s
      = some ⟨propagatePositions st2.linear st2.angular index numContacts s.c,
          st2.bodies, st2.linear, st2.angular⟩ := by
    simp only [positionIteration, hc, hm, ha]
  -- body 0
  have hin0 : c.inertiaOf s.bodies 0
      = some (c.angularTerm (s.bodies p0).inverseInertiaTensorWorld 0,
          (s.bodies p0).inverseMass) := by
    simp only [inertiaOf, h0]
  have hin0' : (fun i => c.inertiaOf bodies i) 0
      = some (c.angularTerm (st0.bodies p0).inverseInertiaTensorWorld 0,
          (s.bodies p0).inverseMass) := by
    show c.inertiaOf bodies 0 = _
    rw [hI 0, hin0]
    show _ = some (c.angularTerm (bodies p0).inverseInertiaTensorWorld 0, _)
    rw [(hK p0).1]
  have hD0 := c.applyPositionChangeBody_displacement ops real_sqrt hs pen T
    (fun i => c.inertiaOf bodies i) 0 st0 p0 _ hn h0 hin0'
  have hst0 : (st0.bodies p0).inverseInertiaTensorWorld
      = (s.bodies p0).inverseInertiaTensorWorld := (hK p0).1
  rw [hst0] at hD0
  have hO1 := c.applyPositionChangeBody_others ops real_sqrt pen T
    (fun i => c.inertiaOf bodies i) 1 st1
  have hO0 := c.applyPositionChangeBody_others ops real_sqrt pen T
    (fun i => c.inertiaOf bodies i) 0 st0
  have hl0 : st2.linear 0 = st1.linear 0 := (hO1.1 0 (by decide)).1
  have ha0 : st2.angular 0 = st1.angular 0 := (hO1.1 0 (by decide)).2
  have hD0' : ((st2.linear 0).add
        ((st2.angular 0).vectorProduct (c.relativeContactPosition 0))).scalarProduct
        c.contactNormal
      = (c.moves real_sqrt 0 pen T (c.angularTerm (s.bodies p0).inverseInertiaTensorWorld 0)
            (s.bodies p0).inverseMass).1
        + (c.moves real_sqrt 0 pen T (c.angularTerm (s.bodies p0).inverseInertiaTensorWorld 0)
            (s.bodies p0).inverseMass).2 := by
    rw [hl0, ha0]
    exact hD0
  -- body 1, when present
  have hD1 : ∀ p1, c.body 1 = some p1 →
      ((st2.linear 1).add
        ((st2.angular 1).vectorProduct (c.relativeContactPosition 1))).scalarProduct
        c.contactNormal
      = (c.moves real_sqrt 1 pen T (c.angularTerm (s.bodies p1).inverseInertiaTensorWorld 1)
            (s.bodies p1).inverseMass).1
        + (c.moves real_sqrt 1 pen T (c.angularTerm (s.bodies p1).inverseInertiaTensorWorld 1)
            (s.bodies p1).inverseMass).2 := by
    intro p1 hp1
    have hne : c.body 0 ≠ some p1 := by
      rw [h0]
      intro e
      apply h1
      rw [hp1, ← Option.some.inj e]
    have hb1 : st1.bodies p1 = bodies p1 := hO0.2 p1 hne
    have hin1' : (fun i => c.inertiaOf bodies i) 1
        = some (c.angularTerm (st1.bodies p1).inverseInertiaTensorWorld 1,
            (s.bodies p1).inverseMass) := by
      show c.inertiaOf bodies 1 = _
      rw [hI 1, hb1, (hK p1).1]
      simp only [inertiaOf, hp1]
    have h := c.applyPositionChangeBody_displacement ops real_sqrt hs pen T
      (fun i => c.inertiaOf bodies i) 1 st1 p1 _ hn hp1 hin1'
    rw [hb1, (hK p1).1] at h
    exact h
  refine ⟨_, hrun, ?_, ?_⟩
  · intro d angularInertia linearInertia hin
    refine ⟨?_, c.moves_sum real_sqrt d pen T angularInertia linearInertia⟩
    show ((st2.linear d).add
        ((st2.angular d).vectorProduct (c.relativeContactPosition d))).scalarProduct
        c.contactNormal = _
    have hd : d = 0 ∨ d = 1 := by
      rcases d with ⟨v, hv⟩
      interval_cases v
      · exact Or.inl rfl
      · exact Or.inr rfl
    rcases hd with rfl | rfl
    · rw [hin0] at hin
      simp only [Option.some.injEq, Prod.mk.injEq] at hin
      rw [← hin.1, ← hin.2]
      exact hD0'
    · cases hp1 : c.body 1 with
      | none => simp [inertiaOf, hp1] at hin
      | some p1 =>
        have e : c.inertiaOf s.bodies 1
            = some (c.angularTerm (s.bodies p1).inverseInertiaTensorWorld 1,
                (s.bodies p1).inverseMass) := by
          simp only [inertiaOf, hp1]
        rw [e] at hin
        simp only [Option.some.injEq, Prod.mk.injEq] at hin
        rw [← hin.1, ← hin.2]
        exact hD1 p1 hp1
  · show (propagatePositions st2.linear st2.angular index numContacts s.c index).penetration = 0
    rw [propagatePositions_apply, if_pos hi, hc]
    show c.penetration + _ = 0
    have s00 : penetrationShare st2.linear st2.angular c.body 0 0 c
        = -(((st2.linear 0).add
            ((st2.angular 0).vectorProduct (c.relativeContactPosition 0))).scalarProduct
            c.contactNormal) := by
      unfold penetrationShare
      rw [if_pos ⟨by rw [h0]; simp, rfl⟩]
      simp
    have s01 : penetrationShare st2.linear st2.angular c.body 0 1 c = 0 := by
      unfold penetrationShare
      rw [if_neg]
      rintro ⟨-, e⟩
      exact h1 (by rw [← e, h0])
    have s10 : penetrationShare st2.linear st2.angular c.body 1 0 c = 0 := by
      unfold penetrationShare
      rw [if_neg]
      rintro ⟨-, e⟩
      exact h1 (by rw [e, h0])
    rw [s00, s01, s10, hD0', c.moves_sum, hpen]
    cases hp1 : c.body 1 with
    | none =>
      have s11 : penetrationShare st2.linear st2.angular c.body 1 1 c = 0 := by
        unfold penetrationShare
        rw [if_neg]
        rintro ⟨e, -⟩
        exact e hp1
      have hTv : T = (s.bodies p0).inverseMass
          + c.angularTerm (s.bodies p0).inverseInertiaTensorWorld 0 := by
        rw [← hTT]
        simp [totalInertia, inertiaOf, h0, hp1]
      rw [s11]
      simp only [if_pos, add_zero]
      field_simp
      rw [hTv]
      ring
    | some p1 =>
      have s11 : penetrationShare st2.linear st2.angular c.body 1 1 c
          = ((st2.linear 1).add
              ((st2.angular 1).vectorProduct (c.relativeContactPosition 1))).scalarProduct
              c.contactNormal := by
        unfold penetrationShare
        rw [if_pos ⟨by rw [hp1]; simp, rfl⟩]
        simp
      have hTv : T = (s.bodies p0).inverseMass
          + c.angularTerm (s.bodies p0).inverseInertiaTensorWorld 0
          + ((s.bodies p1).inverseMass
            + c.angularTerm (s.bodies p1).inverseInertiaTensorWorld 1) := by
        rw [← hTT]
        simp [totalInertia, inertiaOf, h0, hp1]
      rw [s11, hD1 p1 hp1, c.moves_sum]
      simp only [if_pos, add_zero]
      field_simp
      rw [hTv]
      ring

end

/-- C24 (witness). The lever contact with penetration 1 between two unit bodies:
the total inertia is 3, the proportional angular move `1/3` of body 0 exceeds the
limit `1/5` and is clamped (the moves become `1/5` and `7/15`), and after the
iteration the penetration of the contact is 0. -/
theorem positionIteration_removes_chosen_penetration_witness :
    ((leverState ℚ).c 0).moves sqrtQ 0 1 3 1 1 = (1 / 5, 7 / 15)
      ∧ ((leverState ℚ).c 0).penetration = 1
      ∧ ∃ s', positionIteration (sampleOps ℚ) sqrtQ 1 0 ((leverState ℚ).c 0).penetration
            (leverState ℚ) = some s'
          ∧ (s'.c 0).penetration = 0 := by
  have hT : ((leverState ℚ).c 0).totalInertia (leverState ℚ).bodies = 3 := by decide!
  obtain ⟨s', hrun, -, hpen⟩ := positionIteration_removes_chosen_penetration (sampleOps ℚ)
    sqrtQ sqrtQ_nonneg 1 0 (leverState ℚ) 0 (by decide) (by decide!) rfl (by decide)
    (by rw [hT]; norm_num)
  exact ⟨by decide!, rfl, s', hrun, hpen⟩

end Chaos

/-! ## The growable array `ForceVector` -/

namespace Chaos

theorem force_vector_at_eq (vector : ForceVector) (index : Nat) :
    force_vector_at vector index = if index < vector.size then vector.items index else none := by
  unfold force_vector_at force_vector_get
  by_cases h : index < vector.size
  · simp [h]
  · simp [h]

theorem force_vector_push_back_fields (vector : ForceVector) (item : ForceRegistration) :
    (force_vector_push_back true vector item).size = vector.size + 1
      ∧ (force_vector_push_back true vector item).capacity
          = (if vector.capacity = vector.size then vector.capacity * 2 else vector.capacity)
      ∧ (force_vector_push_back true vector item).items
          = Function.update
              (if vector.capacity = vector.size then
                fun k => if k < vector.capacity * 2 then vector.items k else none
              else vector.items)
              vector.size (some item) := by
  unfold force_vector_push_back force_vector_resize FORCE_VECTOR_RESIZE_FACTOR
  by_cases h : vector.capacity = vector.size
  · simp [h]
  · simp [h]

theorem force_vector_remove_fields (vector : ForceVector) (index : Nat)
    (h : index < vector.size) :
    (force_vector_remove true vector index).size = vector.size - 1
      ∧ (force_vector_remove true vector index).capacity
          = (if 0 < vector.size - 1 ∧ vector.size - 1 = vector.capacity / 4 then
              vector.capacity / 2
            else vector.capacity)
      ∧ ∀ k, (force_vector_remove true vector index).items k
          = if (0 < vector.size - 1 ∧ vector.size - 1 = vector.capacity / 4)
                ∧ ¬ k < vector.capacity / 2 then none
            else if index ≤ k ∧ k < vector.size - 1 then vector.items (k + 1)
            else vector.items k := by
  have hg : ¬ (index < 0 ∨ index ≥ vector.size) := by omega
  have hr : index + (vector.size - (index + 1)) = vector.size - 1 := by omega
  unfold force_vector_remove force_vector_resize
  simp only [if_neg hg, hr, gt_iff_lt, if_true]
  by_cases hc : 0 < vector.size - 1 ∧ vector.size - 1 = vector.capacity / 4
  · simp only [if_pos hc, true_and]
    intro k
    by_cases hk : k < vector.capacity / 2
    · have hn : ¬ ((0 < vector.size - 1 ∧ vector.size - 1 = vector.capacity / 4)
          ∧ ¬ k < vector.capacity / 2) := fun hh => hh.2 hk
      rw [if_pos hk, if_neg hn]
    · have hp : (0 < vector.size - 1 ∧ vector.size - 1 = vector.capacity / 4)
          ∧ ¬ k < vector.capacity / 2 := ⟨hc, hk⟩
      rw [if_neg hk, if_pos hp]
  · simp only [if_neg hc, false_and, if_false]
    refine ⟨trivial, trivial, fun k => ?_⟩
    have hn : ¬ ((0 < vector.size - 1 ∧ vector.size - 1 = vector.capacity / 4)
        ∧ ¬ k < vector.capacity / 2) := fun hh => hc hh.1
    rw [if_neg hn]

theorem force_vector_remove_out_of_range (allocated : Bool) (vector : ForceVector)
    (index : Nat) (h : vector.size ≤ index) :
    force_vector_remove allocated vector index = vector := by
  unfold force_vector_remove
  rw [if_pos (Or.inr h)]

theorem force_vector_clear_fields (vector : ForceVector) :
    (force_vector_clear true vector).size = 0
      ∧ (force_vector_clear true vector).capacity = 4
      ∧ ∀ k, (force_vector_clear true vector).items k
          = if k < 4 then vector.items k else none := by
  unfold force_vector_clear force_vector_resize FORCE_VECTOR_INIT_CAPACITY
  exact ⟨rfl, rfl, fun k => rfl⟩

/-! ### The invariant -/

theorem force_vector_init_valid (memory_size : Nat) :
    (force_vector_init memory_size).Valid := by
  unfold ForceVector.Valid force_vector_init FORCE_VECTOR_INIT_CAPACITY
  refine ⟨by simp, by simp, ?_, ?_⟩
  · intro k hk
    simp at hk
  · intro k _
    rfl

theorem force_vector_push_back_valid (vector : ForceVector) (item : ForceRegistration)
    (h : vector.Valid) : (force_vector_push_back true vector item).Valid := by
  obtain ⟨h1, h2, h3, h4⟩ := h
  obtain ⟨e1, e2, e3⟩ := force_vector_push_back_fields vector item
  unfold ForceVector.Valid
  rw [e1, e2, e3]
  by_cases hc : vector.capacity = vector.size
  · simp only [if_pos hc]
    refine ⟨by omega, by omega, ?_, ?_⟩
    · intro k hk
      by_cases e : k = vector.size
      · rw [e, Function.update_same]
        simp
      · rw [Function.update_noteq e]
        have hk2 : k < vector.capacity * 2 := by omega
        simp only [if_pos hk2]
        exact h3 k (by omega)
    · intro k hk
      have e : k ≠ vector.size := by omega
      rw [Function.update_noteq e]
      have hk2 : ¬ k < vector.capacity * 2 := by omega
      simp only [if_neg hk2]
  · simp only [if_neg hc]
    refine ⟨by omega, h2, ?_, ?_⟩
    · intro k hk
      by_cases e : k = vector.size
      · rw [e, Function.update_same]
        simp
      · rw [Function.update_noteq e]
        exact h3 k (by omega)
    · intro k hk
      have e : k ≠ vector.size := by omega
      rw [Function.update_noteq e]
      exact h4 k hk

theorem force_vector_remove_valid (vector : ForceVector) (index : Nat)
    (h : vector.Valid) : (force_vector_remove true vector index).Valid := by
  by_cases hi : index < vector.size
  · obtain ⟨h1, h2, h3, h4⟩ := h
    obtain ⟨e1, e2, e3⟩ := force_vector_remove_fields vector index hi
    unfold ForceVector.Valid
    rw [e1, e2]
    by_cases hc : 0 < vector.size - 1 ∧ vector.size - 1 = vector.capacity / 4
    · simp only [if_pos hc]
      refine ⟨by omega, by omega, ?_, ?_⟩
      · intro k hk
        rw [e3 k]
        have hk2 : ¬ ((0 < vector.size - 1 ∧ vector.size - 1 = vector.capacity / 4)
            ∧ ¬ k < vector.capacity / 2) := by
          rintro ⟨-, hn⟩
          omega
        rw [if_neg hk2]
        split_ifs
        · exact h3 (k + 1) (by omega)
        · exact h3 k (by omega)
      · intro k hk
        rw [e3 k, if_pos ⟨hc, by omega⟩]
    · simp only [if_neg hc]
      refine ⟨by omega, h2, ?_, ?_⟩
      · intro k hk
        rw [e3 k]
        have hk2 : ¬ ((0 < vector.size - 1 ∧ vector.size - 1 = vector.capacity / 4)
            ∧ ¬ k < vector.capacity / 2) := fun hh => hc hh.1
        rw [if_neg hk2]
        split_ifs
        · exact h3 (k + 1) (by omega)
        · exact h3 k (by omega)
      · intro k hk
        rw [e3 k]
        have hk2 : ¬ ((0 < vector.size - 1 ∧ vector.size - 1 = vector.capacity / 4)
            ∧ ¬ k < vector.capacity / 2) := fun hh => hc hh.1
        have hk3 : ¬ (index ≤ k ∧ k < vector.size - 1) := by omega
        rw [if_neg hk2, if_neg hk3]
        exact h4 k hk
  · rw [force_vector_remove_out_of_range true vector index (by omega)]
    exact h

theorem force_vector_clear_valid (vector : ForceVector) (h : vector.Valid) :
    (force_vector_clear true vector).Valid := by
  obtain ⟨-, -, -, h4⟩ := h
  obtain ⟨e1, e2, e3⟩ := force_vector_clear_fields vector
  unfold ForceVector.Valid
  rw [e1, e2]
  refine ⟨by omega, by omega, ?_, ?_⟩
  · intro k hk
    omega
  · intro k hk
    rw [e3 k, if_neg (by omega)]

theorem ForceVectorCall.run_valid (call : ForceVectorCall) (vector : ForceVector)
    (h : vector.Valid) : (call.run true vector).Valid := by
  cases call with
  | push_back item => exact force_vector_push_back_valid vector item h
  | remove index => exact force_vector_remove_valid vector index h
  | clear => exact force_vector_clear_valid vector h

theorem force_vector_calls_valid (calls : List ForceVectorCall) (vector : ForceVector)
    (h : vector.Valid) : (force_vector_calls true calls vector).Valid := by
  induction calls generalizing vector with
  | nil => exact h
  | cons call calls ih =>
    exact ih (call.run true vector) (call.run_valid vector h)

/-- After `n` further calls the size has grown by at most `n`, and the capacity
is at most `max 4 (2 * m)` when at most `m` items can have been pushed. -/
theorem force_vector_calls_bounded (calls : List ForceVectorCall) (vector : ForceVector)
    (n : Nat) (hs : vector.size ≤ n) (hc : vector.capacity ≤ max 4 (2 * n)) :
    (force_vector_calls true calls vector).size ≤ n + calls.length
      ∧ (force_vector_calls true calls vector).capacity ≤ max 4 (2 * (n + calls.length)) := by
  induction calls generalizing vector n with
  | nil => exact ⟨hs, hc⟩
  | cons call calls ih =>
    have step : (call.run true vector).size ≤ n + 1
        ∧ (call.run true vector).capacity ≤ max 4 (2 * (n + 1)) := by
      cases call with
      | push_back item =>
        obtain ⟨e1, e2, -⟩ := force_vector_push_back_fields vector item
        show (force_vector_push_back true vector item).size ≤ n + 1
          ∧ (force_vector_push_back true vector item).capacity ≤ max 4 (2 * (n + 1))
        rw [e1, e2]
        split_ifs <;> omega
      | remove index =>
        show (force_vector_remove true vector index).size ≤ n + 1
          ∧ (force_vector_remove true vector index).capacity ≤ max 4 (2 * (n + 1))
        by_cases hi : index < vector.size
        · obtain ⟨e1, e2, -⟩ := force_vector_remove_fields vector index hi
          rw [e1, e2]
          split_ifs <;> omega
        · rw [force_vector_remove_out_of_range true vector index (by omega)]
          omega
      | clear =>
        obtain ⟨e1, e2, -⟩ := force_vector_clear_fields vector
        show (force_vector_clear true vector).size ≤ n + 1
          ∧ (force_vector_clear true vector).capacity ≤ max 4 (2 * (n + 1))
        rw [e1, e2]
        omega
    have h := ih (call.run true vector) (n + 1) step.1 step.2
    have e : n + 1 + calls.length = n + (call :: calls).length := by
      simp only [List.length_cons]
      omega
    rw [e] at h
    exact h

/-! ### Growth and shrinking -/

/-- C21: with allocation succeeding, `force_vector_push_back` on a vector with
`size = capacity` doubles the capacity and otherwise leaves it unchanged; in both
cases the size grows by 1, `force_vector_get(size - 1)` then points at the slot
that holds the pushed item, and the items stored before are kept.
`force_vector_remove` with a valid index decrements the size and halves the capacity
(integer division) when the new size is positive and equals `capacity / 4`, and
leaves the capacity unchanged otherwise. -/
theorem force_vector_growth_policy (vector : ForceVector) (item : ForceRegistration)
    (index : Nat) :
    (vector.size = vector.capacity →
        (force_vector_push_back true vector item).capacity = vector.capacity * 2)
    ∧ (vector.size ≠ vector.capacity →
        (force_vector_push_back true vector item).capacity = vector.capacity)
    ∧ (force_vector_push_back true vector item).size = vector.size + 1
    ∧ force_vector_get (force_vector_push_back true vector item)
        ((force_vector_push_back true vector item).size - 1) = some vector.size
    ∧ force_vector_at (force_vector_push_back true vector item)
        ((force_vector_push_back true vector item).size - 1) = some item
    ∧ (∀ j, j < vector.size →
        force_vector_at (force_vector_push_back true vector item) j
          = force_vector_at vector j)
    ∧ (index < vector.size →
        (force_vector_remove true vector index).size = vector.size - 1
        ∧ (force_vector_remove true vector index).capacity
            = (if 0 < vector.size - 1 ∧ vector.size - 1 = vector.capacity / 4 then
                vector.capacity / 2
              else vector.capacity)
        ∧ (vector.capacity ≠ 0 →
            ((force_vector_remove true vector index).capacity = vector.capacity / 2
              ↔ (0 < vector.size - 1 ∧ vector.size - 1 = vector.capacity / 4)))) := by
  obtain ⟨e1, e2, e3⟩ := force_vector_push_back_fields vector item
  refine ⟨?_, ?_, e1, ?_, ?_, ?_, ?_⟩
  · intro h
    rw [e2, if_pos h.symm]
  · intro h
    rw [e2, if_neg (fun e => h e.symm)]
  · unfold force_vector_get
    rw [e1, Nat.add_sub_cancel, if_pos ⟨Nat.zero_le _, Nat.lt_succ_self _⟩]
  · rw [force_vector_at_eq, e1, Nat.add_sub_cancel, if_pos (Nat.lt_succ_self _), e3,
      Function.update_same]
  · intro j hj
    have hj1 : j < vector.size + 1 := by omega
    have hne : j ≠ vector.size := by omega
    rw [force_vector_at_eq, force_vector_at_eq, e1, if_pos hj1, if_pos hj, e3,
      Function.update_noteq hne]
    by_cases hc : vector.capacity = vector.size
    · rw [if_pos hc]
      show (if j < vector.capacity * 2 then vector.items j else none) = vector.items j
      rw [if_pos (by omega)]
    · rw [if_neg hc]
  · intro hi
    obtain ⟨r1, r2, -⟩ := force_vector_remove_fields vector index hi
    refine ⟨r1, r2, fun h0 => ?_⟩
    rw [r2]
    by_cases hc : 0 < vector.size - 1 ∧ vector.size - 1 = vector.capacity / 4
    · rw [if_pos hc]
      exact ⟨fun _ => hc, fun _ => rfl⟩
    · rw [if_neg hc]
      constructor
      · intro e
        omega
      · intro e
        exact absurd e hc

/-- C21 (witness). Pushing onto the full vector (size 4, capacity 4) gives size 5
and capacity 8, and slot 4 holds the pushed registration; removing index 0 from the
vector of size 2 and capacity 4 gives size 1 and capacity 2. -/
theorem force_vector_growth_policy_witness :
    fullVector.size = 4 ∧ fullVector.capacity = 4
      ∧ (force_vector_push_back true fullVector (registration 4)).capacity = 8
      ∧ (force_vector_push_back true fullVector (registration 4)).size = 5
      ∧ force_vector_at (force_vector_push_back true fullVector (registration 4)) 4
          = some (registration 4)
      ∧ pairVector.size = 2 ∧ pairVector.capacity = 4
      ∧ (force_vector_remove true pairVector 0).size = 1
      ∧ (force_vector_remove true pairVector 0).capacity = 2 := by
  have hs : fullVector.size = 4 := by decide
  have hc : fullVector.capacity = 4 := by decide
  have ps : pairVector.size = 2 := by decide
  have pc : pairVector.capacity = 4 := by decide
  have F := force_vector_growth_policy fullVector (registration 4) 0
  have P := force_vector_growth_policy pairVector (registration 4) 0
  have F1 := F.1 (by rw [hs, hc])
  have F3 := F.2.2.1
  have F5 := F.2.2.2.2.1
  obtain ⟨P1, P2, -⟩ := P.2.2.2.2.2.2 (by rw [ps]; decide)
  rw [hc] at F1
  rw [hs] at F3
  rw [F3] at F5
  rw [ps] at P1
  rw [ps, pc] at P2
  exact ⟨hs, hc, F1, F3, F5, ps, pc, P1, P2⟩

/-! ### The invariant of every reachable vector -/

/-- C25: with allocation succeeding, after `force_vector_init` followed by any
finite sequence of `force_vector_push_back`, `force_vector_remove` (any index) and
`force_vector_clear`: `size ≤ capacity` and `capacity ≥ 2` hold (and the capacity is
at most `max 4 (2 * k)` after `k` calls); `force_vector_get(i)` is non-null exactly
when `i < size`, and then points at a slot that holds a registration; nothing is
stored at or beyond slot `capacity`; `force_vector_remove(i)` with `i < size`
decrements the size, keeps the items before `i` in place and shifts each later item
down by one; and an out-of-range remove changes nothing. -/
theorem force_vector_capacity_invariant (memory_size : Nat) (calls : List ForceVectorCall)
    (vector : ForceVector)
    (h : vector = force_vector_calls true calls (force_vector_init memory_size)) :
    vector.size ≤ vector.capacity
    ∧ 2 ≤ vector.capacity
    ∧ vector.capacity ≤ max 4 (2 * calls.length)
    ∧ (∀ i, force_vector_get vector i ≠ none ↔ i < vector.size)
    ∧ (∀ i, i < vector.size → force_vector_at vector i ≠ none)
    ∧ (∀ k, vector.capacity ≤ k → vector.items k = none)
    ∧ (∀ i, i < vector.size →
        (force_vector_remove true vector i).size = vector.size - 1
        ∧ (∀ j, j < i →
            force_vector_at (force_vector_remove true vector i) j = force_vector_at vector j)
        ∧ (∀ j, i ≤ j → j < vector.size - 1 →
            force_vector_at (force_vector_remove true vector i) j
              = force_vector_at vector (j + 1)))
    ∧ (∀ i, vector.size ≤ i → force_vector_remove true vector i = vector) := by
  have hv : vector.Valid := by
    rw [h]
    exact force_vector_calls_valid calls _ (force_vector_init_valid memory_size)
  have hb := force_vector_calls_bounded calls (force_vector_init memory_size) 0
    (by simp [force_vector_init])
    (by simp [force_vector_init, FORCE_VECTOR_INIT_CAPACITY])
  rw [← h, Nat.zero_add] at hb
  obtain ⟨h1, h2, h3, h4⟩ := hv
  refine ⟨h1, h2, hb.2, ?_, ?_, h4, ?_, ?_⟩
  · intro i
    unfold force_vector_get
    by_cases hi : i < vector.size
    · simp [hi]
    · simp [hi]
  · intro i hi
    rw [force_vector_at_eq, if_pos hi]
    exact h3 i hi
  · intro i hi
    obtain ⟨r1, -, r3⟩ := force_vector_remove_fields vector i hi
    refine ⟨r1, ?_, ?_⟩
    · intro j hj
      have hl : j < vector.size - 1 := by omega
      have hl2 : j < vector.size := by omega
      have hn : ¬ ((0 < vector.size - 1 ∧ vector.size - 1 = vector.capacity / 4)
          ∧ ¬ j < vector.capacity / 2) := by
        rintro ⟨⟨-, e⟩, hh⟩
        omega
      have hm : ¬ (i ≤ j ∧ j < vector.size - 1) := by omega
      rw [force_vector_at_eq, force_vector_at_eq, r1, r3 j, if_pos hl, if_neg hn, if_neg hm,
        if_pos hl2]
    · intro j hij hj
      have hn : ¬ ((0 < vector.size - 1 ∧ vector.size - 1 = vector.capacity / 4)
          ∧ ¬ j < vector.capacity / 2) := by
        rintro ⟨⟨-, e⟩, hh⟩
        omega
      have hm : i ≤ j ∧ j < vector.size - 1 := ⟨hij, hj⟩
      have hl2 : j + 1 < vector.size := by omega
      rw [force_vector_at_eq, force_vector_at_eq, r1, r3 j, if_pos hj, if_neg hn, if_pos hm,
        if_pos hl2]
  · intro i hi
    exact force_vector_remove_out_of_range true vector i hi

/-- C25 (witness). Two pushes and the removal of index 0 after `force_vector_init`:
the vector has size 1 and capacity 2, index 0 holds the second registration, and
`force_vector_get(1)` is `NULL`. -/
theorem force_vector_capacity_invariant_witness :
    (force_vector_remove true pairVector 0).size = 1
      ∧ (force_vector_remove true pairVector 0).capacity = 2
      ∧ force_vector_at (force_vector_remove true pairVector 0) 0 = some (registration 1)
      ∧ force_vector_get (force_vector_remove true pairVector 0) 1 = none
      ∧ (force_vector_remove true pairVector 0).size
          ≤ (force_vector_remove true pairVector 0).capacity
      ∧ 2 ≤ (force_vector_remove true pairVector 0).capacity := by
  have T := force_vector_capacity_invariant 16
    [.push_back (registration 0), .push_back (registration 1), .remove 0]
    (force_vector_remove true pairVector 0) rfl
  exact ⟨by decide, by decide, by decide, by decide, T.1, T.2.1⟩

end Chaos
